import Mathlib

/-
Verification development for the Scribble spec-language type checker
(src/spec-lang/tc.ts).  The host-language AST (from solc-typed-ast) is
modelled as an id-indexed environment; semantic types (SType) and
annotation-AST nodes (SNode) are modelled as mutual inductives mirroring
the TypeScript class hierarchy.  The caller-supplied type cache is an
association list keyed by node identity (node ids).  TypeScript
exceptions are modelled by an explicit result sum: STypeError
diagnostics become TCRes.err, internal assertion failures and NYI
throws become TCRes.internal, and the fuel needed for the shallow
embedding of the recursion surfaces as TCRes.outOfFuel.
-/

set_option autoImplicit false

namespace Scribble

/-- Data locations of the host language. -/
inductive DataLocation where
  | Storage
  | Memory
  | CallData
  deriving DecidableEq, Repr

/-- Function visibility as used by the checker (only External is inspected). -/
inductive FunctionVisibility where
  | External
  | Public
  | Internal
  | Private
  | Default
  deriving DecidableEq, Repr

/-- Function state mutability (carried through, never inspected by the checker). -/
inductive FunctionStateMutability where
  | Pure
  | View
  | NonPayable
  | Payable
  | Constant
  deriving DecidableEq, Repr

/-- State variable visibility (Public is what the checker inspects). -/
inductive StateVariableVisibility where
  | Public
  | Internal
  | Private
  | Default
  deriving DecidableEq, Repr

/-- Reference to a user-defined declaration, tagged with its kind
(mirrors the instanceof dispatch on StructDefinition, EnumDefinition and
ContractDefinition object references). -/
inductive DefRef where
  | contract (cid : Nat)
  | struct (sid : Nat)
  | enum (eid : Nat)
  deriving DecidableEq, Repr

/-- Scope of a host variable declaration, as inspected by getVarLocation. -/
inductive VarScope where
  | contract (cid : Nat)
  | function (fid : Nat)
  | other
  deriving DecidableEq, Repr

/-- Array type length: a number literal or a non-literal expression
(the latter is rejected with an NYI throw during ingestion). -/
inductive LenExpr where
  | lit (n : Nat)
  | nonLiteral
  deriving DecidableEq, Repr

mutual

/-- Host-language type names (solc-typed-ast TypeName). -/
inductive TypeName where
  | ElementaryTypeName (name : String) (payable : Bool)
  | ArrayTypeName (vBaseType : TypeName) (vLength : Option LenExpr)
  | userDefined (ref : DefRef)
  | FunctionTypeName (params : List VariableDeclaration) (rets : List VariableDeclaration)
      (visibility : FunctionVisibility) (mutability : FunctionStateMutability)
  | MappingType (vKeyType : TypeName) (vValueType : TypeName)

/-- Host-language variable declarations.  storageLocation none models
DataLocation.Default. -/
inductive VariableDeclaration where
  | mk (name : String) (vType : Option TypeName) (storageLocation : Option DataLocation)
      (scope : VarScope) (visibility : StateVariableVisibility)

end

def VariableDeclaration.name : VariableDeclaration → String
  | .mk n _ _ _ _ => n

def VariableDeclaration.vType : VariableDeclaration → Option TypeName
  | .mk _ t _ _ _ => t

def VariableDeclaration.storageLocation : VariableDeclaration → Option DataLocation
  | .mk _ _ l _ _ => l

def VariableDeclaration.scope : VariableDeclaration → VarScope
  | .mk _ _ _ s _ => s

def VariableDeclaration.visibility : VariableDeclaration → StateVariableVisibility
  | .mk _ _ _ _ v => v

/-- Host function definitions (parameters and returns inline, as in the
solc-typed-ast object graph). -/
structure FunctionDefinition where
  id : Nat
  name : String
  parameters : List VariableDeclaration
  returns : List VariableDeclaration
  visibility : FunctionVisibility
  mutability : FunctionStateMutability

/-- Host struct definitions.  vScopeName is the name of the enclosing
contract when the struct is nested in one (used for qualified names). -/
structure StructDefinition where
  id : Nat
  name : String
  vScopeName : Option String
  vMembers : List VariableDeclaration

/-- Host enum definitions. -/
structure EnumDefinition where
  id : Nat
  name : String
  vScopeName : Option String
  vMembers : List String

/-- A using-for directive: an optional target type (none means
unrestricted, i.e. using Lib for *) and the library contract. -/
structure UsingForDirective where
  vTypeName : Option TypeName
  libraryId : Nat

/-- Host contract definitions.  vLinearizedBaseContracts starts with the
contract itself, as in solc-typed-ast. -/
structure ContractDefinition where
  id : Nat
  name : String
  vLinearizedBaseContracts : List Nat
  vStateVariables : List VariableDeclaration
  vStructs : List Nat
  vEnums : List Nat
  vUsingForDirectives : List UsingForDirective
  vFunctions : List FunctionDefinition

/-- A source unit: ids of its top-level structs, enums and contracts. -/
structure SourceUnit where
  vStructs : List Nat
  vEnums : List Nat
  vContracts : List Nat

/-- The resolved host AST, indexed by declaration ids. -/
structure Env where
  contracts : List ContractDefinition
  structs : List StructDefinition
  enums : List EnumDefinition

def Env.contract? (env : Env) (cid : Nat) : Option ContractDefinition :=
  env.contracts.find? (fun c => c.id == cid)

def Env.struct? (env : Env) (sid : Nat) : Option StructDefinition :=
  env.structs.find? (fun s => s.id == sid)

def Env.enum? (env : Env) (eid : Nat) : Option EnumDefinition :=
  env.enums.find? (fun e => e.id == eid)

def Env.fn? (env : Env) (fid : Nat) : Option FunctionDefinition :=
  env.contracts.findSome? (fun c => c.vFunctions.find? (fun f => f.id == fid))

/-- A member of a FunctionSet: a function definition or a public state
variable (getter). -/
inductive FSDef where
  | fn (f : FunctionDefinition)
  | svar (v : VariableDeclaration)

mutual

/-- Semantic types of the checker (the SType class hierarchy).  SPointer
stores an optional location: the TypeScript constructor can receive
undefined through the unchecked cast in the user-defined type cast, which
none models. -/
inductive SType where
  | SBoolType
  | SAddressType (payable : Bool)
  | SIntType (nBits : Nat) (signed : Bool)
  | SIntLiteralType
  | SFixedBytes (size : Nat)
  | SBytes
  | SString
  | SStringLiteralType
  | SArrayType (elementT : SType) (size : Option Nat)
  | SMappingType (keyType : SType) (valueType : SType)
  | SUserDefinedType (name : String) (definition : Option DefRef)
  | STupleType (elements : List SType)
  | SPointer (toT : SType) (location : Option DataLocation)
  | SFunctionType (parameters : List SType) (returns : List SType)
      (visibility : FunctionVisibility) (mutability : FunctionStateMutability)
  | SBuiltinStructType (name : String) (members : List (String × SType))
  | SBuiltinTypeNameType (type : SType)
  | SUserDefinedTypeNameType (definition : DefRef)
  | SFunctionSetType (definitions : List FSDef) (defaultArg : Option SNode)

/-- Annotation-language AST nodes.  Every node carries the unique id that
models TypeScript object identity (SNode.id); typeExpr models the SType
nodes that the expression parser can produce directly (SType extends
SNode in the source). -/
inductive SNode where
  | SNumber (id : Nat) (num : Int)
  | SBooleanLiteral (id : Nat) (val : Bool)
  | SStringLiteral (id : Nat) (val : String)
  | SHexLiteral (id : Nat) (val : String)
  | SAddressLiteral (id : Nat) (val : String)
  | SId (id : Nat) (name : String)
  | SResult (id : Nat)
  | SUnaryOperation (id : Nat) (op : String) (subexp : SNode)
  | SBinaryOperation (id : Nat) (left : SNode) (op : String) (right : SNode)
  | SConditional (id : Nat) (condition : SNode) (trueExp : SNode) (falseExp : SNode)
  | SIndexAccess (id : Nat) (base : SNode) (index : SNode)
  | SMemberAccess (id : Nat) (base : SNode) (member : String)
  | SLet (id : Nat) (lhs : List String) (rhs : SNode) (body : SNode)
  | SFunctionCall (id : Nat) (callee : SNode) (args : List SNode)
  | typeExpr (id : Nat) (type : SType)

end

/-- The unique id of a node (TypeScript object identity surrogate). -/
def SNode.nodeId : SNode → Nat
  | .SNumber i _ => i
  | .SBooleanLiteral i _ => i
  | .SStringLiteral i _ => i
  | .SHexLiteral i _ => i
  | .SAddressLiteral i _ => i
  | .SId i _ => i
  | .SResult i => i
  | .SUnaryOperation i _ _ => i
  | .SBinaryOperation i _ _ _ => i
  | .SConditional i _ _ _ => i
  | .SIndexAccess i _ _ => i
  | .SMemberAccess i _ _ => i
  | .SLet i _ _ _ => i
  | .SFunctionCall i _ _ => i
  | .typeExpr i _ => i


/-- Structural equality of host type names (object comparison
surrogate). -/
def typeNameBEq (t1 t2 : TypeName) : Bool :=
  match t1, t2 with
  | .ElementaryTypeName n1 p1, .ElementaryTypeName n2 p2 => n1 == n2 && p1 == p2
  | .ArrayTypeName b1 l1, .ArrayTypeName b2 l2 => typeNameBEq b1 b2 && l1 == l2
  | .userDefined r1, .userDefined r2 => r1 == r2
  | .FunctionTypeName p1 r1 v1 m1, .FunctionTypeName p2 r2 v2 m2 =>
      goList p1 p2 && goList r1 r2 && v1 == v2 && m1 == m2
  | .MappingType k1 v1, .MappingType k2 v2 => typeNameBEq k1 k2 && typeNameBEq v1 v2
  | _, _ => false
where
  goVar (v1 v2 : VariableDeclaration) : Bool :=
    match v1, v2 with
    | .mk n1 t1 l1 s1 vis1, .mk n2 t2 l2 s2 vis2 =>
      n1 == n2 && goOpt t1 t2 && l1 == l2 && s1 == s2 && vis1 == vis2
  goOpt (t1 t2 : Option TypeName) : Bool :=
    match t1, t2 with
    | none, none => true
    | some t1, some t2 => typeNameBEq t1 t2
    | _, _ => false
  goList (l1 l2 : List VariableDeclaration) : Bool :=
    match l1, l2 with
    | [], [] => true
    | v1 :: r1, v2 :: r2 => goVar v1 v2 && goList r1 r2
    | _, _ => false

/-- Structural equality of host variable declarations. -/
def varDeclBEq (v1 v2 : VariableDeclaration) : Bool :=
  typeNameBEq.goVar v1 v2

/-- Structural equality of host variable declaration lists. -/
def varDeclListBEq (l1 l2 : List VariableDeclaration) : Bool :=
  typeNameBEq.goList l1 l2

/-- Structural equality of host function definitions. -/
def fnDefBEq (f1 f2 : FunctionDefinition) : Bool :=
  f1.id == f2.id && f1.name == f2.name && varDeclListBEq f1.parameters f2.parameters &&
    varDeclListBEq f1.returns f2.returns && f1.visibility == f2.visibility &&
    f1.mutability == f2.mutability

/-- Structural equality of FunctionSet members. -/
def fsDefBEq : FSDef → FSDef → Bool
  | .fn f1, .fn f2 => fnDefBEq f1 f2
  | .svar v1, .svar v2 => varDeclBEq v1 v2
  | _, _ => false

def fsDefListBEq : List FSDef → List FSDef → Bool
  | [], [] => true
  | d1 :: r1, d2 :: r2 => fsDefBEq d1 d2 && fsDefListBEq r1 r2
  | _, _ => false

/-- Equality of optional embedded AST nodes, by node identity. -/
def optNodeIdEq (a1 a2 : Option SNode) : Bool :=
  match a1, a2 with
  | none, none => true
  | some n1, some n2 => n1.nodeId == n2.nodeId
  | _, _ => false

/-- Modelled from the spec: struct_equality.ts (the eq function) is not
among the given sources.  Spec 4.A: structural equality walks both trees,
comparing variant tag and parameters; for UserDefined variants, qualified
names match iff the underlying declarations match, hence names alone are
compared.  AST nodes embedded in types (FunctionSet default arguments)
are compared by node identity. -/
def sEq (t1 t2 : SType) : Bool :=
  match t1, t2 with
  | .SBoolType, .SBoolType => true
  | .SAddressType p1, .SAddressType p2 => p1 == p2
  | .SIntType b1 s1, .SIntType b2 s2 => b1 == b2 && s1 == s2
  | .SIntLiteralType, .SIntLiteralType => true
  | .SFixedBytes n1, .SFixedBytes n2 => n1 == n2
  | .SBytes, .SBytes => true
  | .SString, .SString => true
  | .SStringLiteralType, .SStringLiteralType => true
  | .SArrayType e1 z1, .SArrayType e2 z2 => sEq e1 e2 && z1 == z2
  | .SMappingType k1 v1, .SMappingType k2 v2 => sEq k1 k2 && sEq v1 v2
  | .SUserDefinedType n1 _, .SUserDefinedType n2 _ => n1 == n2
  | .STupleType es1, .STupleType es2 => goList es1 es2
  | .SPointer t1 l1, .SPointer t2 l2 => sEq t1 t2 && l1 == l2
  | .SFunctionType p1 r1 v1 m1, .SFunctionType p2 r2 v2 m2 =>
      goList p1 p2 && goList r1 r2 && v1 == v2 && m1 == m2
  | .SBuiltinStructType n1 ms1, .SBuiltinStructType n2 ms2 => n1 == n2 && goMembers ms1 ms2
  | .SBuiltinTypeNameType t1, .SBuiltinTypeNameType t2 => sEq t1 t2
  | .SUserDefinedTypeNameType d1, .SUserDefinedTypeNameType d2 => d1 == d2
  | .SFunctionSetType ds1 a1, .SFunctionSetType ds2 a2 =>
      fsDefListBEq ds1 ds2 && optNodeIdEq a1 a2
  | _, _ => false
where
  goList (l1 l2 : List SType) : Bool :=
    match l1, l2 with
    | [], [] => true
    | t1 :: r1, t2 :: r2 => sEq t1 t2 && goList r1 r2
    | _, _ => false
  goMembers (l1 l2 : List (String × SType)) : Bool :=
    match l1, l2 with
    | [], [] => true
    | (n1, t1) :: r1, (n2, t2) :: r2 => n1 == n2 && sEq t1 t2 && goMembers r1 r2
    | _, _ => false

/-- All node ids of an annotation AST subtree, including ids of nodes
embedded in type expressions (FunctionSet default arguments). -/
def nodeIds (e : SNode) : List Nat :=
  match e with
  | .SNumber i _ => [i]
  | .SBooleanLiteral i _ => [i]
  | .SStringLiteral i _ => [i]
  | .SHexLiteral i _ => [i]
  | .SAddressLiteral i _ => [i]
  | .SId i _ => [i]
  | .SResult i => [i]
  | .SUnaryOperation i _ s => i :: nodeIds s
  | .SBinaryOperation i l _ r => i :: (nodeIds l ++ nodeIds r)
  | .SConditional i c t e => i :: (nodeIds c ++ nodeIds t ++ nodeIds e)
  | .SIndexAccess i b x => i :: (nodeIds b ++ nodeIds x)
  | .SMemberAccess i b _ => i :: nodeIds b
  | .SLet i _ r b => i :: (nodeIds r ++ nodeIds b)
  | .SFunctionCall i c as => i :: (nodeIds c ++ goNodes as)
  | .typeExpr i t => i :: goType t
where
  goNodes (l : List SNode) : List Nat :=
    match l with
    | [] => []
    | n :: rest => nodeIds n ++ goNodes rest
  goType (t : SType) : List Nat :=
    match t with
    | .SArrayType e _ => goType e
    | .SMappingType k v => goType k ++ goType v
    | .STupleType es => goTypes es
    | .SPointer t _ => goType t
    | .SFunctionType ps rs _ _ => goTypes ps ++ goTypes rs
    | .SBuiltinStructType _ ms => goMembers ms
    | .SBuiltinTypeNameType t => goType t
    | .SFunctionSetType _ (some n) => nodeIds n
    | _ => []
  goTypes (l : List SType) : List Nat :=
    match l with
    | [] => []
    | t :: rest => goType t ++ goTypes rest
  goMembers (l : List (String × SType)) : List Nat :=
    match l with
    | [] => []
    | (_, t) :: rest => goType t ++ goMembers rest

/-- Node id lists of a list of subtrees. -/
def nodeIdsList (l : List SNode) : List Nat := nodeIds.goNodes l

/-- Node ids reachable through a semantic type: the ids of FunctionSet
default-argument subtrees stored anywhere inside the type. -/
def typeArgIds (t : SType) : List Nat := nodeIds.goType t

/-- Node ids of the proper subterms of a node: everything the checker can
write to the cache while checking the node, other than the node itself. -/
def strictIds : SNode → List Nat
  | .SUnaryOperation _ _ s => nodeIds s
  | .SBinaryOperation _ l _ r => nodeIds l ++ nodeIds r
  | .SConditional _ c t e => nodeIds c ++ nodeIds t ++ nodeIds e
  | .SIndexAccess _ b x => nodeIds b ++ nodeIds x
  | .SMemberAccess _ b _ => nodeIds b
  | .SLet _ _ r b => nodeIds r ++ nodeIds b
  | .SFunctionCall _ c as => nodeIds c ++ nodeIdsList as
  | .typeExpr _ t => typeArgIds t
  | _ => []

/-- Space character (the space groups of the source regexes match the
space character only). -/
def isSpaceChar (c : Char) : Bool := c == ' '

/-- Whitespace for the trim call on elementary type names. -/
def isWhitespaceChar (c : Char) : Bool := c == ' ' || c == '\t' || c == '\n' || c == '\r'

/-- Decimal digit character. -/
def isDigitChar (c : Char) : Bool := decide ('0' <= c) && decide (c <= '9')

/-- All characters are decimal digits. -/
def charsAllDigits (cs : List Char) : Bool :=
  match cs with
  | [] => true
  | c :: rest => isDigitChar c && charsAllDigits rest

/-- Strip a literal prefix from a character list, returning the
remainder, or none when the prefix does not match. -/
def charsPrefix (pre cs : List Char) : Option (List Char) :=
  match pre, cs with
  | [], rest => some rest
  | p :: ps, c :: rest => if p == c then charsPrefix ps rest else none
  | _ :: _, [] => none

/-- Both-ends whitespace trim (String.prototype.trim). -/
def trimChars (cs : List Char) : List Char :=
  ((cs.dropWhile isWhitespaceChar).reverse.dropWhile isWhitespaceChar).reverse

/-- Digits of a decimal string to a number (parseInt on a digit
string). -/
def parseIntDigits (cs : List Char) : Nat :=
  cs.foldl (fun a c => a * 10 + (c.toNat - 48)) 0

/-- Match of the ingestion regex for address names (address, optional
spaces, optional payable suffix). -/
def matchAddressIngest (cs : List Char) : Bool :=
  match charsPrefix "address".data cs with
  | none => false
  | some rest =>
    let rest2 := rest.dropWhile isSpaceChar
    rest2 == [] || rest2 == "payable".data

/-- Match of the ingestion regex for int-literal type names (int_const,
optional spaces, any digits). -/
def matchIntConst (cs : List Char) : Bool :=
  match charsPrefix "int_const".data cs with
  | none => false
  | some rest => charsAllDigits (rest.dropWhile isSpaceChar)

/-- Match of the ingestion regex for integer type names: optional u, int,
any digit suffix (no width restriction), defaulting to 256 bits.  Returns
the signedness (the first captured group differs from the u character
exactly when it is absent) and the bit width. -/
def matchIntType (cs : List Char) : Option (Bool × Nat) :=
  match charsPrefix "uint".data cs with
  | some rest =>
    if charsAllDigits rest then
      some (false, if rest == [] then 256 else parseIntDigits rest)
    else none
  | none =>
    match charsPrefix "int".data cs with
    | some rest =>
      if charsAllDigits rest then
        some (true, if rest == [] then 256 else parseIntDigits rest)
      else none
    | none => none

/-- Match of the ingestion regex for fixed-bytes type names: bytes
followed by one or more digits (no width restriction). -/
def matchBytesN (cs : List Char) : Option Nat :=
  match charsPrefix "bytes".data cs with
  | none => none
  | some rest =>
    if decide (1 <= rest.length) && charsAllDigits rest then some (parseIntDigits rest)
    else none

/-- Qualified name of a definition nested in a contract (scope name, dot,
name) or a bare top-level name. -/
def fqName (scopeName : Option String) (n : String) : String :=
  match scopeName with
  | some s => s ++ "." ++ n
  | none => n

/-- The getUserDefinedTypeFQName helper: contracts are top-level, so they
use their bare name; structs and enums are qualified by their enclosing
contract when nested in one. -/
def getUserDefinedTypeFQName (env : Env) : DefRef → Option String
  | .contract cid => (env.contract? cid).map (fun c => c.name)
  | .struct sid => (env.struct? sid).map (fun s => fqName s.vScopeName s.name)
  | .enum eid => (env.enum? eid).map (fun e => fqName e.vScopeName e.name)

/-- The getVarLocation helper: an explicitly declared location wins; state
variables live in storage; otherwise an inherited base location is used;
parameters and returns of external functions live in calldata and of
other functions in memory; anything else is an NYI throw (none). -/
def getVarLocation (env : Env) (astV : VariableDeclaration) (baseLoc : Option DataLocation) :
    Option DataLocation :=
  match astV.storageLocation with
  | some l => some l
  | none =>
    match astV.scope with
    | .contract _ => some DataLocation.Storage
    | sc =>
      match baseLoc with
      | some l => some l
      | none =>
        match sc with
        | .function fid =>
          (env.fn? fid).map (fun fd =>
            if fd.visibility == FunctionVisibility.External then DataLocation.CallData
            else DataLocation.Memory)
        | _ => none

/-- The specializeType function: wrap reference types of a pointer-free
type template in pointers to the given location.  The two asserts (no
pointers, no tuples) and the missing-definition assert are modelled by
none. -/
def specializeType : SType → DataLocation → Option SType
  | .SPointer _ _, _ => none
  | .STupleType _, _ => none
  | .SBytes, toLocation => some (.SPointer .SBytes (some toLocation))
  | .SString, toLocation => some (.SPointer .SString (some toLocation))
  | .SArrayType elementT size, toLocation =>
    match specializeType elementT toLocation with
    | none => none
    | some concreteElT => some (.SPointer (.SArrayType concreteElT size) (some toLocation))
  | .SUserDefinedType nm df, toLocation =>
    match df with
    | none => none
    | some (.contract cid) =>
      some (.SPointer (.SUserDefinedType nm (some (.contract cid))) (some DataLocation.Storage))
    | some (.struct sid) =>
      some (.SPointer (.SUserDefinedType nm (some (.struct sid))) (some toLocation))
    | some (.enum eid) => some (.SUserDefinedType nm (some (.enum eid)))
  | .SMappingType keyType valueType, _ =>
    match specializeType keyType DataLocation.Memory with
    | none => none
    | some concreteKeyT =>
      match specializeType valueType DataLocation.Storage with
      | none => none
      | some concreteValueT =>
        some (.SPointer (.SMappingType concreteKeyT concreteValueT) (some DataLocation.Storage))
  | t, _ => some t

/-- The despecializeType function: strip a top-level pointer (returning
its target unchanged), and recurse into array elements and mapping keys
and values when the top-level type is an array or mapping. -/
def despecializeType : SType → SType
  | .SPointer toT _ => toT
  | .SArrayType elementT size => .SArrayType (despecializeType elementT) size
  | .SMappingType keyType valueType =>
    .SMappingType (despecializeType keyType) (despecializeType valueType)
  | t => t

/-- The astTypeNameToSType function: convert a host type name to a
semantic type without pointer wrapping.  Unknown elementary names,
non-literal array sizes and dangling references are NYI or internal
throws, modelled by none.  Function type names ingest their parameters
and returns as variables (the goVar and goVars helpers are the bodies of
astVarToSType and its map over parameter lists). -/
def astTypeNameToSType (env : Env) (astT : TypeName) : Option SType :=
  match astT with
  | .ElementaryTypeName nm payable =>
    let name := trimChars nm.data
    if name == "bool".data then some .SBoolType
    else if matchAddressIngest name then some (.SAddressType payable)
    else if matchIntConst name then some .SIntLiteralType
    else
      match matchIntType name with
      | some (signed, nBits) => some (.SIntType nBits signed)
      | none =>
        match matchBytesN name with
        | some size => some (.SFixedBytes size)
        | none =>
          if name == "byte".data then some (.SFixedBytes 1)
          else if name == "bytes".data then some .SBytes
          else if name == "string".data then some .SString
          else none
  | .ArrayTypeName base len =>
    match astTypeNameToSType env base with
    | none => none
    | some elT =>
      match len with
      | none => some (.SArrayType elT none)
      | some (.lit n) => some (.SArrayType elT (some n))
      | some .nonLiteral => none
  | .userDefined ref =>
    (getUserDefinedTypeFQName env ref).map (fun n => SType.SUserDefinedType n (some ref))
  | .FunctionTypeName ps rs vis mutab =>
    match goVars ps with
    | none => none
    | some pTs =>
      match goVars rs with
      | none => none
      | some rTs => some (.SFunctionType pTs rTs vis mutab)
  | .MappingType k v =>
    match astTypeNameToSType env k with
    | none => none
    | some keyT =>
      match astTypeNameToSType env v with
      | none => none
      | some valueT => some (.SMappingType keyT valueT)
where
  goVar (astV : VariableDeclaration) (baseLoc : Option DataLocation) : Option SType :=
    match astV with
    | .mk nm vType stor sc vis =>
      match vType with
      | none => none
      | some tn =>
        match astTypeNameToSType env tn with
        | none => none
        | some t =>
          match getVarLocation env (.mk nm (some tn) stor sc vis) baseLoc with
          | none => none
          | some loc => specializeType t loc
  goVars (vs : List VariableDeclaration) : Option (List SType) :=
    match vs with
    | [] => some []
    | v :: rest =>
      match goVar v none with
      | none => none
      | some t =>
        match goVars rest with
        | none => none
        | some ts => some (t :: ts)

/-- The astVarToSType function: ingest the declared type of a variable
and specialize it to the variable's effective data location. -/
def astVarToSType (env : Env) (astV : VariableDeclaration) (baseLoc : Option DataLocation) :
    Option SType :=
  astTypeNameToSType.goVar env astV baseLoc

/-- Ingestion of a list of variables with no inherited location (the
parameter and return maps of the source). -/
def astVarsToSTypes (env : Env) (vs : List VariableDeclaration) : Option (List SType) :=
  astTypeNameToSType.goVars env vs

/-- Detector for the bool name. -/
def detectBool (name : String) : Option SType :=
  if name == "bool" then some .SBoolType else none

/-- Detector for the string name. -/
def detectString (name : String) : Option SType :=
  if name == "string" then some .SString else none

/-- Detector for address names.  The source computes payability as
matches[2] !== the empty string, where matches[2] is undefined when the
optional payable group is absent and the string payable when present, so
the comparison is true in both cases; the optional captured group is kept
explicit here to model that faithfully. -/
def detectAddress (name : String) : Option SType :=
  match charsPrefix "address".data name.data with
  | none => none
  | some rest =>
    let rest2 := rest.dropWhile isSpaceChar
    if rest2 == [] then some (.SAddressType ((none : Option String) != some ""))
    else if rest2 == "payable".data then
      some (.SAddressType ((some "payable" : Option String) != some ""))
    else none

/-- Detector for bytes names with an optional one-or-two-digit suffix;
widths outside 1..32 are rejected by the processor. -/
def detectBytes (name : String) : Option SType :=
  match charsPrefix "bytes".data name.data with
  | none => none
  | some rest =>
    if charsAllDigits rest && decide (rest.length <= 2) then
      if rest == [] then some .SBytes
      else
        let width := parseIntDigits rest
        if decide (width < 1) || decide (width > 32) then none
        else some (.SFixedBytes width)
    else none

/-- Detector for the byte name. -/
def detectByte (name : String) : Option SType :=
  if name == "byte" then some (.SFixedBytes 1) else none

/-- Detector for int names with an optional up-to-three-digit suffix; the
processor rejects widths that are not multiples of 8 or outside 8..256.
Signedness is the comparison of the optional u group with the u
character, true when the group is absent. -/
def detectInt (name : String) : Option SType :=
  let core : Option (Bool × List Char) :=
    match charsPrefix "uint".data name.data with
    | some rest => some (false, rest)
    | none =>
      match charsPrefix "int".data name.data with
      | some rest => some (true, rest)
      | none => none
  match core with
  | none => none
  | some (isSigned, rest) =>
    if charsAllDigits rest && decide (rest.length <= 3) then
      if rest == [] then some (.SIntType 256 isSigned)
      else
        let width := parseIntDigits rest
        if width % 8 != 0 || decide (width < 8) || decide (width > 256) then none
        else some (.SIntType width isSigned)
    else none

/-- The BuiltinTypeDetectors table as consumed by tcIdBuiltinType: the
first detector whose regex matches and whose processor accepts wins;
a matching detector whose processor rejects falls through to the next. -/
def detectBuiltinType (name : String) : Option SType :=
  (detectBool name).orElse fun _ =>
  (detectString name).orElse fun _ =>
  (detectAddress name).orElse fun _ =>
  (detectBytes name).orElse fun _ =>
  (detectByte name).orElse fun _ =>
  detectInt name

/-- The tcIdBuiltinType helper: a detected builtin type wrapped as a
builtin type name. -/
def tcIdBuiltinType (name : String) : Option SType :=
  (detectBuiltinType name).map (fun t => SType.SBuiltinTypeNameType t)

/-- Shorthand for the uint256 type used throughout the builtin tables. -/
def uint256T : SType := .SIntType 256 false

/-- Modelled from the spec: the BuiltinSymbols registry (builtins.ts is
not among the given sources).  Entries follow section 4.C of the spec and
the types exercised by the unit tests: the block, msg and tx builtin
structs, hashing primitives, addmod, mulmod, blockhash, gasleft, now and
ecrecover. -/
def BuiltinSymbols (name : String) : Option SType :=
  if name == "block" then
    some (.SBuiltinStructType "block"
      [("coinbase", .SAddressType true), ("difficulty", uint256T), ("gaslimit", uint256T),
       ("number", uint256T), ("timestamp", uint256T)])
  else if name == "msg" then
    some (.SBuiltinStructType "msg"
      [("data", .SPointer .SBytes (some DataLocation.CallData)), ("sender", .SAddressType true),
       ("sig", .SFixedBytes 4), ("value", uint256T)])
  else if name == "tx" then
    some (.SBuiltinStructType "tx" [("gasprice", uint256T), ("origin", .SAddressType true)])
  else if name == "blockhash" then
    some (.SFunctionType [uint256T] [.SFixedBytes 32] FunctionVisibility.Default
      FunctionStateMutability.View)
  else if name == "gasleft" then
    some (.SFunctionType [] [uint256T] FunctionVisibility.Default FunctionStateMutability.View)
  else if name == "now" then
    some (.SFunctionType [] [uint256T] FunctionVisibility.Default FunctionStateMutability.View)
  else if name == "addmod" then
    some (.SFunctionType [uint256T, uint256T, uint256T] [uint256T] FunctionVisibility.Default
      FunctionStateMutability.Pure)
  else if name == "mulmod" then
    some (.SFunctionType [uint256T, uint256T, uint256T] [uint256T] FunctionVisibility.Default
      FunctionStateMutability.Pure)
  else if name == "keccak256" then
    some (.SFunctionType [.SPointer .SBytes (some DataLocation.Memory)] [.SFixedBytes 32]
      FunctionVisibility.Default FunctionStateMutability.Pure)
  else if name == "sha256" then
    some (.SFunctionType [.SPointer .SBytes (some DataLocation.Memory)] [.SFixedBytes 32]
      FunctionVisibility.Default FunctionStateMutability.Pure)
  else if name == "ripemd160" then
    some (.SFunctionType [.SPointer .SBytes (some DataLocation.Memory)] [.SFixedBytes 20]
      FunctionVisibility.Default FunctionStateMutability.Pure)
  else if name == "ecrecover" then
    some (.SFunctionType [.SFixedBytes 32, .SIntType 8 false, .SFixedBytes 32, .SFixedBytes 32]
      [.SAddressType false] FunctionVisibility.Default FunctionStateMutability.Pure)
  else none

/-- The tcIdBuiltin helper: look the identifier up in BuiltinSymbols. -/
def tcIdBuiltin (name : String) : Option SType :=
  BuiltinSymbols name

/-- Modelled from the spec: the BuiltinAddressMembers table (builtins.ts
is not among the given sources).  Entries follow section 4.D of the spec
and the types exercised by the unit tests. -/
def BuiltinAddressMembers (member : String) : Option SType :=
  if member == "balance" then some uint256T
  else if member == "transfer" then
    some (.SFunctionType [uint256T] [] FunctionVisibility.Default
      FunctionStateMutability.NonPayable)
  else if member == "send" then
    some (.SFunctionType [uint256T] [.SBoolType] FunctionVisibility.Default
      FunctionStateMutability.NonPayable)
  else if member == "call" then
    some (.SFunctionType [.SPointer .SBytes (some DataLocation.Memory)]
      [.SBoolType, .SPointer .SBytes (some DataLocation.Memory)] FunctionVisibility.Default
      FunctionStateMutability.Payable)
  else if member == "delegatecall" then
    some (.SFunctionType [.SPointer .SBytes (some DataLocation.Memory)]
      [.SBoolType, .SPointer .SBytes (some DataLocation.Memory)] FunctionVisibility.Default
      FunctionStateMutability.NonPayable)
  else if member == "staticcall" then
    some (.SFunctionType [.SPointer .SBytes (some DataLocation.Memory)]
      [.SBoolType, .SPointer .SBytes (some DataLocation.Memory)] FunctionVisibility.Default
      FunctionStateMutability.View)
  else none

/-- A let-binding scope entry: the SLet node's identity, its bound names
and its right-hand side. -/
structure SLetScope where
  letId : Nat
  lhs : List String
  rhs : SNode

/-- A scope of the typing context (SourceUnit array, contract, function,
or let binding). -/
inductive SScope where
  | sourceUnits (units : List SourceUnit)
  | contract (c : ContractDefinition)
  | function (fd : FunctionDefinition)
  | slet (l : SLetScope)

/-- The typing context: an ordered scope stack, outermost first. -/
abbrev STypingCtx := List SScope

/-- A def-site annotation as stamped on identifier nodes during
resolution. -/
inductive VarDefSite where
  | varDecl (v : VariableDeclaration)
  | letBinding (l : SLetScope) (bindingIdx : Nat)
  | thisKeyword
  | functionName
  | typeNameSite

/-- The lookupVarDef walk over the reversed scope stack: function scopes
expose parameters then returns; contract scopes expose state variables of
every linearized base in order; the global scope ends the walk with no
result; let scopes expose their bound names. -/
def lookupVarDefRev (env : Env) (name : String) (scopes : List SScope) : Option VarDefSite :=
  match scopes with
  | [] => none
  | SScope.function fd :: rest =>
    match fd.parameters.find? (fun p => p.name == name) with
    | some p => some (.varDecl p)
    | none =>
      match fd.returns.find? (fun p => p.name == name) with
      | some p => some (.varDecl p)
      | none => lookupVarDefRev env name rest
  | SScope.contract c :: rest =>
    match (c.vLinearizedBaseContracts.filterMap env.contract?).findSome?
        (fun b => b.vStateVariables.find? (fun v => v.name == name)) with
    | some v => some (.varDecl v)
    | none => lookupVarDefRev env name rest
  | SScope.sourceUnits _ :: _ => none
  | SScope.slet l :: rest =>
    match l.lhs.findIdx? (fun b => b == name) with
    | some bindingIdx => some (.letBinding l bindingIdx)
    | none => lookupVarDefRev env name rest

/-- The lookupVarDef function: innermost scope first. -/
def lookupVarDef (env : Env) (name : String) (ctx : STypingCtx) : Option VarDefSite :=
  lookupVarDefRev env name ctx.reverse

/-- Search of structs then enums (per scope owner) by name. -/
def structEnumDefs (env : Env) (structIds enumIds : List Nat) (name : String) : Option DefRef :=
  match (structIds.filterMap env.struct?).find? (fun d => d.name == name) with
  | some d => some (.struct d.id)
  | none =>
    match (enumIds.filterMap env.enum?).find? (fun d => d.name == name) with
    | some d => some (.enum d.id)
    | none => none

/-- The resolveTypeDef walk over the reversed scope stack: let and
function scopes are skipped; contract scopes search structs and enums of
every linearized base; the global scope searches every source unit's
structs and enums, and then its contracts. -/
def resolveTypeDefRev (env : Env) (name : String) (scopes : List SScope) : Option DefRef :=
  match scopes with
  | [] => none
  | SScope.slet _ :: rest => resolveTypeDefRev env name rest
  | SScope.function _ :: rest => resolveTypeDefRev env name rest
  | SScope.contract c :: rest =>
    match (c.vLinearizedBaseContracts.filterMap env.contract?).findSome?
        (fun b => structEnumDefs env b.vStructs b.vEnums name) with
    | some d => some d
    | none => resolveTypeDefRev env name rest
  | SScope.sourceUnits us :: rest =>
    match us.findSome? (fun su => structEnumDefs env su.vStructs su.vEnums name) with
    | some d => some d
    | none =>
      match us.findSome? (fun su =>
          (su.vContracts.filterMap env.contract?).find? (fun c => c.name == name)) with
      | some c => some (.contract c.id)
      | none => resolveTypeDefRev env name rest

/-- The resolveTypeDef function: innermost scope first. -/
def resolveTypeDef (env : Env) (ctx : List SScope) (name : String) : Option DefRef :=
  resolveTypeDefRev env name ctx.reverse

/-- Modelled from the spec: resolveByName from solc-typed-ast collects
all function definitions with the given name over the contract and its
linearized bases (inherited overloads included). -/
def resolveByName (env : Env) (c : ContractDefinition) (name : String) :
    List FunctionDefinition :=
  (c.vLinearizedBaseContracts.filterMap env.contract?).flatMap
    (fun b => b.vFunctions.filter (fun f => f.name == name))

/-- The caller-supplied type cache, keyed by node identity. -/
abbrev TypeMap := List (Nat × SType)

/-- Lookup by node id (Map.get against object identity). -/
def TypeMap.find? (m : TypeMap) (k : Nat) : Option SType :=
  match m with
  | [] => none
  | (k0, v) :: rest => if k0 = k then some v else TypeMap.find? rest k

/-- Update by node id (Map.set against object identity: the newest entry
shadows older ones). -/
def TypeMap.set (m : TypeMap) (k : Nat) (v : SType) : TypeMap := (k, v) :: m

/-- Node ids reachable through the types stored in a map (used to bound
the cache keys a run can touch). -/
def mapArgIds (m : TypeMap) : List Nat :=
  match m with
  | [] => []
  | (_, t) :: rest => typeArgIds t ++ mapArgIds rest

/-- The STypeError diagnostic taxonomy, with node identities in place of
object references; message strings and source ranges are omitted. -/
inductive TCErr where
  | SNoField (exprId : Nat) (field : String)
  | SWrongType (exprId : Nat) (actualT : SType)
  | SUnknownId (idNodeId : Nat) (name : String)
  | SMissingSolidityType (exprId : Nat)
  | SExprCountMismatch (exprId : Nat)
  | SUnresolvedFun (callId : Nat)
  | SFunNoReturn (callId : Nat)
  | SArgumentMismatch (callId : Nat)
  | IncompatibleTypes (exprAId : Nat) (typeA : SType) (exprBId : Nat) (typeB : SType)
  | SInvalidKeyword (nodeId : Nat)

/-- Outcome of a checker call: a value with the updated cache, a thrown
diagnostic with the cache as mutated so far, an internal throw (failed
assertion or NYI), or exhaustion of the embedding fuel. -/
inductive TCRes (alpha : Type) where
  | ok (a : alpha) (m : TypeMap)
  | err (e : TCErr) (m : TypeMap)
  | internal (m : TypeMap)
  | outOfFuel

/-- The isInty helper. -/
def isInty : SType → Bool
  | .SIntType _ _ => true
  | .SIntLiteralType => true
  | _ => false

/-- The isImplicitlyCastable function (its expression argument is unused
in the source as well). -/
def isImplicitlyCastable (_expr : SNode) (type toT : SType) : Bool :=
  if sEq type toT then true
  else
    match type, toT with
    | .SIntLiteralType, .SIntType _ _ => true
    | .SStringLiteralType, .SPointer .SBytes _ => true
    | .SStringLiteralType, .SPointer .SString _ => true
    | .SIntType b1 s1, .SIntType b2 s2 => s1 == s2 && decide (b1 <= b2)
    | .SAddressType _, .SAddressType p2 => !p2
    | .SPointer t1 _, .SPointer t2 _ => sEq t1 t2
    | _, _ => false

/-- The unifyTypes helper: a common type to which the two expressions
implicitly cast, or an IncompatibleTypes diagnostic. -/
def unifyTypes (exprA : SNode) (typeA : SType) (exprB : SNode) (typeB : SType) :
    Except TCErr SType :=
  if isImplicitlyCastable exprA typeA typeB then .ok typeB
  else if isImplicitlyCastable exprB typeB typeA then .ok typeA
  else .error (.IncompatibleTypes exprA.nodeId typeA exprB.nodeId typeB)

/-- The getFunDefType helper: the function type of a definition, with
parameters and returns ingested (none models an internal throw during
ingestion). -/
def getFunDefType (env : Env) (f : FunctionDefinition) : Option SType :=
  match astVarsToSTypes env f.parameters with
  | none => none
  | some pTs =>
    match astVarsToSTypes env f.returns with
    | none => none
    | some rTs => some (.SFunctionType pTs rTs f.visibility f.mutability)

/-- Pairwise arity and implicit-cast check of actuals against formals
(the loop body of matchArguments). -/
def matchArgsWithParams (args : List SNode) (argTs params : List SType) : Bool :=
  match args, argTs, params with
  | [], [], [] => true
  | a :: restA, t :: restT, p :: restP =>
    isImplicitlyCastable a t p && matchArgsWithParams restA restT restP
  | _, _, _ => false

/-- The matchArguments function applied to a function definition. -/
def matchArgumentsFn (env : Env) (args : List SNode) (argTs : List SType)
    (callable : FunctionDefinition) : Option Bool :=
  (getFunDefType env callable).map (fun funT =>
    match funT with
    | .SFunctionType params _ _ _ => matchArgsWithParams args argTs params
    | _ => false)

/-- Function-definition candidates of a FunctionSet that match the
actuals (the filter over matchArguments; none models an internal throw
while ingesting a candidate's type). -/
def matchingFunDefs (env : Env) (args : List SNode) (argTs : List SType)
    (defs : List FSDef) : Option (List FSDef) :=
  match defs with
  | [] => some []
  | FSDef.fn f :: rest =>
    match matchArgumentsFn env args argTs f with
    | none => none
    | some b =>
      match matchingFunDefs env args argTs rest with
      | none => none
      | some tailDefs => some (if b then FSDef.fn f :: tailDefs else tailDefs)
  | FSDef.svar _ :: rest =>
    match matchingFunDefs env args argTs rest with
    | none => none
    | some tailDefs => some tailDefs

/-- The full candidate filter of the FunctionSet call branch: matching
function definitions first, then public state variables when the original
call (before default-argument extension) has zero arguments. -/
def matchingDefsOf (env : Env) (args : List SNode) (argTs : List SType)
    (exprArgsLen : Nat) (defs : List FSDef) : Option (List FSDef) :=
  match matchingFunDefs env args argTs defs with
  | none => none
  | some fns =>
    some (fns ++ defs.filter (fun d => match d with
      | .svar _ => exprArgsLen == 0
      | .fn _ => false))

/-- The unchecked cast (argTs[0] as SPointer).location of the
user-defined type cast: reading the location property of a non-pointer
yields undefined (none). -/
def locOfPtr : SType → Option DataLocation
  | .SPointer _ l => l
  | _ => none

/-- First-occurrence dedup by function identity (the Set used by the
using-for fallback). -/
def dedupFns (l : List FunctionDefinition) : List FunctionDefinition :=
  go l.length l
where
  go (fuel : Nat) (l : List FunctionDefinition) : List FunctionDefinition :=
    match fuel with
    | 0 => []
    | fuel + 1 =>
      match l with
      | [] => []
      | f :: rest => f :: go fuel (rest.filter (fun g => g.id != f.id))

/-- Using-for directives of one contract: the functions named like the
member from every applicable library (unrestricted directives always
apply; typed directives apply when the ingested target type equals the
despecialized base type).  none models a directive type whose ingestion
internally throws or a dangling library reference. -/
def collectUsingForDirs (env : Env) (dirs : List UsingForDirective) (generalBaseT : SType)
    (member : String) : Option (List FunctionDefinition) :=
  match dirs with
  | [] => some []
  | d :: rest =>
    let applies? : Option Bool :=
      match d.vTypeName with
      | none => some true
      | some tn => (astTypeNameToSType env tn).map (fun t => sEq t generalBaseT)
    match applies? with
    | none => none
    | some applies =>
      if applies then
        match env.contract? d.libraryId with
        | none => none
        | some library =>
          match collectUsingForDirs env rest generalBaseT member with
          | none => none
          | some tailFns =>
            some (library.vFunctions.filter (fun f => f.name == member) ++ tailFns)
      else collectUsingForDirs env rest generalBaseT member

/-- Using-for collection over a list of linearized bases. -/
def collectUsingFor (env : Env) (bases : List ContractDefinition) (generalBaseT : SType)
    (member : String) : Option (List FunctionDefinition) :=
  match bases with
  | [] => some []
  | b :: rest =>
    match collectUsingForDirs env b.vUsingForDirectives generalBaseT member with
    | none => none
    | some fns =>
      match collectUsingFor env rest generalBaseT member with
      | none => none
      | some tailFns => some (fns ++ tailFns)

/-- The using-for fallback of tcMemberAccess: collect applicable library
functions over every linearized base of the current contract, dedup by
identity. -/
def usingForFuns (env : Env) (c : ContractDefinition) (generalBaseT : SType)
    (member : String) : Option (List FunctionDefinition) :=
  match collectUsingFor env (c.vLinearizedBaseContracts.filterMap env.contract?)
      generalBaseT member with
  | none => none
  | some fns => some (dedupFns fns)

/-- Ingestion of the return parameter type names for tcResult (each
return parameter is asserted to have a type). -/
def ingestReturnTypes (env : Env) (rets : List VariableDeclaration) : Option (List SType) :=
  match rets with
  | [] => some []
  | r :: rest =>
    match r.vType with
    | none => none
    | some tn =>
      match astTypeNameToSType env tn, ingestReturnTypes env rest with
      | some t, some ts => some (t :: ts)
      | _, _ => none

/-- The tcResult function: dollar-result requires the innermost scope to
be a function with returns; one return ingests its type name (without
specialization), several produce a tuple of ingested types.  The type map
is threaded unchanged (the source never touches it here). -/
def tcResult (env : Env) (exprId : Nat) (ctx : STypingCtx) (m : TypeMap) : TCRes SType :=
  match ctx.getLast? with
  | some (SScope.function fd) =>
    match fd.returns with
    | [] => .err (.SInvalidKeyword exprId) m
    | [r] =>
      match r.vType with
      | none => .internal m
      | some tn =>
        match astTypeNameToSType env tn with
        | none => .internal m
        | some t => .ok t m
    | rets =>
      match ingestReturnTypes env rets with
      | none => .internal m
      | some ts => .ok (.STupleType ts) m
  | _ => .err (.SInvalidKeyword exprId) m


/-- Exception-monad sequencing on checker results: diagnostics, internal
throws and fuel exhaustion propagate. -/
def TCRes.andThen {alpha beta : Type} (r : TCRes alpha) (k : alpha → TypeMap → TCRes beta) :
    TCRes beta :=
  match r with
  | .ok a m => k a m
  | .err d m => .err d m
  | .internal m => .internal m
  | .outOfFuel => .outOfFuel

/-- The cache helper of tc: store a successful result under the node's
identity before returning it. -/
def cacheRes (i : Nat) (r : TCRes SType) : TCRes SType :=
  match r with
  | .ok t m => .ok t (TypeMap.set m i t)
  | other => other

/-- FixedBytes test used by the binary operator rules. -/
def SType.isFixedBytes : SType → Bool
  | .SFixedBytes _ => true
  | _ => false

/-- The using-for fallback at the end of tcMemberAccess: despecialize the
base type, collect applicable library functions over the current
contract's linearized bases, and return them as a FunctionSet carrying
the base expression as default argument, or raise NoField (against the
base expression) when the collection is empty.  A non-contract second
scope makes the unchecked cast of ctx[1] crash (internal). -/
def tcMemberAccessFallback (base : SNode) (member : String) (baseT : SType)
    (ctx : STypingCtx) (m1 : TypeMap) (env : Env) : TCRes SType :=
  let generalBaseT := despecializeType baseT
  match ctx.get? 1 with
  | some (SScope.contract c) =>
    match usingForFuns env c generalBaseT member with
    | none => .internal m1
    | some funs =>
      if funs.length > 0 then
        .ok (.SFunctionSetType (funs.map FSDef.fn) (some base)) m1
      else .err (.SNoField base.nodeId member) m1
  | _ => .internal m1

/-- The dispatch of tcMemberAccess on the checked base type (everything
after the recursive call on the base expression).  Branches that throw in
the source throw here; branches that fall through reach the using-for
fallback. -/
def tcMemberAccessOnType (exprId : Nat) (base : SNode) (member : String) (baseT : SType)
    (ctx : STypingCtx) (m1 : TypeMap) (env : Env) : TCRes SType :=
  match baseT with
  | .SBuiltinStructType _ members =>
    match (members.find? (fun p => p.1 == member)).map Prod.snd with
    | some t => .ok t m1
    | none => .err (.SNoField exprId member) m1
  | .SPointer baseToT baseLoc =>
    match baseToT with
    | .SArrayType _ _ =>
      if member == "length" then .ok (.SIntType 256 false) m1
      else tcMemberAccessFallback base member baseT ctx m1 env
    | .SUserDefinedType _ df =>
      match df with
      | some (.struct sid) =>
        match env.struct? sid with
        | none => .internal m1
        | some rawDef =>
          match rawDef.vMembers.find? (fun d => d.name == member) with
          | some rawDecl =>
            match astVarToSType env rawDecl baseLoc with
            | none => .internal m1
            | some t => .ok t m1
          | none => .err (.SNoField exprId member) m1
      | some (.contract cid) =>
        match env.contract? cid with
        | none => .internal m1
        | some rawDef =>
          let funDefs := resolveByName env rawDef member
          if funDefs.length > 0 then
            .ok (.SFunctionSetType (funDefs.map FSDef.fn) none) m1
          else
            match rawDef.vStateVariables.find? (fun v =>
                v.name == member && v.visibility == StateVariableVisibility.Public) with
            | some varDecl => .ok (.SFunctionSetType [FSDef.svar varDecl] none) m1
            | none =>
              match BuiltinAddressMembers member with
              | some t => .ok t m1
              | none => .err (.SNoField exprId member) m1
      | _ => tcMemberAccessFallback base member baseT ctx m1 env
    | _ => tcMemberAccessFallback base member baseT ctx m1 env
  | .SAddressType _ =>
    match BuiltinAddressMembers member with
    | some t => .ok t m1
    | none => .err (.SNoField exprId member) m1
  | .SUserDefinedTypeNameType (.contract cid) =>
    match env.contract? cid with
    | none => .internal m1
    | some cdef =>
      let mini : STypingCtx :=
        (match ctx.get? 0 with
         | some s => [s]
         | none => []) ++ [SScope.contract cdef]
      match resolveTypeDef env mini member with
      | some tdef => .ok (.SUserDefinedTypeNameType tdef) m1
      | none =>
        let funDefs := resolveByName env cdef member
        if funDefs.length > 0 then
          .ok (.SFunctionSetType (funDefs.map FSDef.fn) none) m1
        else tcMemberAccessFallback base member baseT ctx m1 env
  | .SUserDefinedTypeNameType (.enum eid) =>
    match env.enum? eid with
    | none => .internal m1
    | some rawDef =>
      if rawDef.vMembers.contains member then
        .ok (.SUserDefinedType (fqName rawDef.vScopeName rawDef.name) (some (.enum eid))) m1
      else tcMemberAccessFallback base member baseT ctx m1 env
  | .SFunctionSetType definitions _ =>
    if member == "selector" && definitions.length == 1 then .ok (.SFixedBytes 4) m1
    else tcMemberAccessFallback base member baseT ctx m1 env
  | _ => tcMemberAccessFallback base member baseT ctx m1 env

/-- Shape of the recursive checker passed to the per-variant helper
functions: tc at the remaining fuel, with the environment fixed. -/
abbrev TcCb := SNode → STypingCtx → TypeMap → TCRes SType

/-- The argument map of the call rules: sequential checking of an
argument list with the cache threaded; a diagnostic aborts the
remainder. -/
def tcArgsF (tcRec : TcCb) (args : List SNode) (ctx : STypingCtx) (m : TypeMap) :
    TCRes (List SType) :=
  match args with
  | [] => .ok [] m
  | a :: rest =>
    (tcRec a ctx m).andThen fun t m1 =>
    (tcArgsF tcRec rest ctx m1).andThen fun ts m2 =>
    .ok (t :: ts) m2

/-- The tcId body.  Resolution order: the this keyword, builtin type
names, variables (parameters before returns, state variables over the
linearized bases, let bindings), contract functions by name, user-defined
type names, builtin symbols; the first hit wins; otherwise UnknownId.
Besides the type, the result carries the def-site annotation the source
stamps on the identifier node (none for builtin hits, which the source
does not stamp). -/
def tcIdF (tcRec : TcCb) (exprId : Nat) (name : String) (ctx : STypingCtx) (m : TypeMap)
    (env : Env) : TCRes (SType × Option VarDefSite) :=
  if name == "this" then
    match ctx.get? 1 with
    | some (SScope.contract c) =>
      .ok (SType.SPointer (.SUserDefinedType (fqName none c.name) (some (.contract c.id)))
            (some DataLocation.Storage), some VarDefSite.thisKeyword) m
    | _ => .internal m
  else
    match tcIdBuiltinType name with
    | some t => .ok (t, none) m
    | none =>
      match lookupVarDef env name ctx with
      | some (VarDefSite.varDecl v) =>
        match v.vType with
        | none => .err (.SMissingSolidityType exprId) m
        | some _ =>
          match astVarToSType env v none with
          | none => .internal m
          | some t => .ok (t, some (.varDecl v)) m
      | some (VarDefSite.letBinding l bindingIdx) =>
        (tcRec l.rhs ctx m).andThen fun rhsT m1 =>
          if l.lhs.length > 1 then
            match rhsT with
            | .STupleType elements =>
              if elements.length == l.lhs.length then
                match elements.get? bindingIdx with
                | some t => .ok (t, some (.letBinding l bindingIdx)) m1
                | none => .internal m1
              else .err (.SExprCountMismatch l.letId) m1
            | _ => .err (.SExprCountMismatch l.letId) m1
          else .ok (rhsT, some (.letBinding l bindingIdx)) m1
      | some _ => .internal m
      | none =>
        match ctx.get? 1 with
        | some (SScope.contract c) =>
          let funDefs := resolveByName env c name
          if funDefs.length > 0 then
            .ok (SType.SFunctionSetType (funDefs.map FSDef.fn) none,
                 some VarDefSite.functionName) m
          else
            match resolveTypeDef env ctx name with
            | some userDef =>
              .ok (SType.SUserDefinedTypeNameType userDef, some VarDefSite.typeNameSite) m
            | none =>
              match tcIdBuiltin name with
              | some t => .ok (t, none) m
              | none => .err (.SUnknownId exprId name) m
        | _ => .internal m

/-- The tcUnary body: logical negation needs a bool, arithmetic negation
an int or int literal; any other operator is old, whose type is the type
of the operand. -/
def tcUnaryF (tcRec : TcCb) (op : String) (subexp : SNode) (ctx : STypingCtx)
    (m : TypeMap) : TCRes SType :=
  if op == "!" then
    (tcRec subexp ctx m).andThen fun innerT m1 =>
      match innerT with
      | .SBoolType => .ok .SBoolType m1
      | _ => .err (.SWrongType subexp.nodeId innerT) m1
  else if op == "-" then
    (tcRec subexp ctx m).andThen fun innerT m1 =>
      match innerT with
      | .SIntLiteralType => .ok innerT m1
      | .SIntType b sg => .ok (.SIntType b sg) m1
      | _ => .err (.SWrongType subexp.nodeId innerT) m1
  else
    tcRec subexp ctx m

/-- The tcBinary body, one branch per operator group of the source
(including the source's use of the right operand as the payload of the
left-operand diagnostics in the shift and comparison branches). -/
def tcBinaryF (tcRec : TcCb) (left : SNode) (op : String) (right : SNode)
    (ctx : STypingCtx) (m : TypeMap) : TCRes SType :=
  (tcRec left ctx m).andThen fun lhsT m1 =>
  (tcRec right ctx m1).andThen fun rhsT m2 =>
  if op == "**" then
    let badRhs :=
      !(isInty rhsT) ||
      (match rhsT with
       | .SIntType _ signed => signed
       | _ => false) ||
      (match right with
       | .SNumber _ n => decide (n < 0)
       | _ => false)
    if badRhs then .err (.SWrongType right.nodeId rhsT) m2
    else if !(isInty lhsT) then .err (.SWrongType left.nodeId lhsT) m2
    else
      .ok (match lhsT with
           | .SIntLiteralType => rhsT
           | _ => lhsT) m2
  else if ["*", "%", "/", "+", "-"].contains op then
    if !(isInty lhsT) then .err (.SWrongType left.nodeId lhsT) m2
    else if !(isInty rhsT) then .err (.SWrongType right.nodeId rhsT) m2
    else
      match unifyTypes left lhsT right rhsT with
      | .ok t => .ok t m2
      | .error d => .err d m2
  else if ["<<", ">>"].contains op then
    if !(isInty lhsT || lhsT.isFixedBytes) then .err (.SWrongType right.nodeId lhsT) m2
    else if !(isInty rhsT) then .err (.SWrongType right.nodeId rhsT) m2
    else
      .ok (match lhsT with
           | .SIntLiteralType => rhsT
           | _ => lhsT) m2
  else if ["<", ">", "<=", ">="].contains op then
    if !(isInty lhsT || lhsT.isFixedBytes) then .err (.SWrongType right.nodeId lhsT) m2
    else if !(isInty rhsT || rhsT.isFixedBytes) then .err (.SWrongType right.nodeId rhsT) m2
    else
      match unifyTypes left lhsT right rhsT with
      | .ok _ => .ok .SBoolType m2
      | .error d => .err d m2
  else if ["==", "!="].contains op then
    match unifyTypes left lhsT right rhsT with
    | .ok _ => .ok .SBoolType m2
    | .error d => .err d m2
  else if ["|", "&", "^"].contains op then
    if (isInty lhsT || lhsT.isFixedBytes) && (isInty rhsT || rhsT.isFixedBytes) then
      match unifyTypes left lhsT right rhsT with
      | .ok t => .ok t m2
      | .error d => .err d m2
    else .err (.IncompatibleTypes left.nodeId lhsT right.nodeId rhsT) m2
  else if ["||", "&&", "==>"].contains op then
    match lhsT, rhsT with
    | .SBoolType, .SBoolType => .ok .SBoolType m2
    | _, _ => .err (.IncompatibleTypes left.nodeId lhsT right.nodeId rhsT) m2
  else
    .internal m2

/-- The tcConditional body: check condition and both branches, then
require a bool condition and unify the branch types. -/
def tcConditionalF (tcRec : TcCb) (condition trueExp falseExp : SNode) (ctx : STypingCtx)
    (m : TypeMap) : TCRes SType :=
  (tcRec condition ctx m).andThen fun condT m1 =>
  (tcRec trueExp ctx m1).andThen fun trueT m2 =>
  (tcRec falseExp ctx m2).andThen fun falseT m3 =>
  match condT with
  | .SBoolType =>
    match unifyTypes trueExp trueT falseExp falseT with
    | .ok t => .ok t m3
    | .error d => .err d m3
  | _ => .err (.SWrongType condition.nodeId condT) m3

/-- The tcIndexAccess body: fixed bytes and byte pointers index to uint8,
array pointers to their element type, mapping pointers (with an
implicitly castable index) to their value type; anything else is a
WrongType on the whole expression. -/
def tcIndexAccessF (tcRec : TcCb) (exprId : Nat) (base index : SNode) (ctx : STypingCtx)
    (m : TypeMap) : TCRes SType :=
  (tcRec base ctx m).andThen fun baseT m1 =>
  (tcRec index ctx m1).andThen fun indexT m2 =>
  match baseT with
  | .SFixedBytes _ =>
    if isInty indexT then .ok (.SIntType 8 false) m2
    else .err (.SWrongType index.nodeId indexT) m2
  | .SPointer toT _ =>
    match toT with
    | .SBytes =>
      if isInty indexT then .ok (.SIntType 8 false) m2
      else .err (.SWrongType index.nodeId indexT) m2
    | .SArrayType elementT _ =>
      if isInty indexT then .ok elementT m2
      else .err (.SWrongType index.nodeId indexT) m2
    | .SMappingType keyType valueType =>
      if isImplicitlyCastable index indexT keyType then .ok valueType m2
      else .err (.SWrongType index.nodeId indexT) m2
    | _ => .err (.SWrongType exprId baseT) m2
  | _ => .err (.SWrongType exprId baseT) m2

/-- The tcMemberAccess body: check the base, then dispatch on its type
(tcMemberAccessOnType). -/
def tcMemberAccessF (tcRec : TcCb) (exprId : Nat) (base : SNode) (member : String)
    (ctx : STypingCtx) (m : TypeMap) (env : Env) : TCRes SType :=
  (tcRec base ctx m).andThen fun baseT m1 =>
    tcMemberAccessOnType exprId base member baseT ctx m1 env

/-- The tcLet body: check the right-hand side, enforce the binding arity
against tuples, then check the body under the extended context. -/
def tcLetF (tcRec : TcCb) (letId : Nat) (lhs : List String) (rhs body : SNode)
    (ctx : STypingCtx) (m : TypeMap) : TCRes SType :=
  (tcRec rhs ctx m).andThen fun rhsT m1 =>
    match rhsT with
    | .STupleType elements =>
      if lhs.length != elements.length then .err (.SExprCountMismatch letId) m1
      else tcRec body (ctx ++ [SScope.slet ⟨letId, lhs, rhs⟩]) m1
    | _ =>
      if lhs.length != 1 then .err (.SExprCountMismatch letId) m1
      else tcRec body (ctx ++ [SScope.slet ⟨letId, lhs, rhs⟩]) m1

/-- The tcFunctionCall body: check the callee, then dispatch on its type
(builtin type cast, user-defined constructor or cast, function set,
function type), checking arguments inside each branch.  Narrowing of the
callee's FunctionSet (a mutation of the cached object in the source) is a
cache update at the callee's identity. -/
def tcFunctionCallF (tcRec : TcCb) (callId : Nat) (callee : SNode) (args : List SNode)
    (ctx : STypingCtx) (m : TypeMap) (env : Env) : TCRes SType :=
  (tcRec callee ctx m).andThen fun calleeT m1 =>
  match calleeT with
  | .SBuiltinTypeNameType t =>
    (tcArgsF tcRec args ctx m1).andThen fun _argTs m2 =>
      if args.length != 1 then .err (.SExprCountMismatch callId) m2
      else .ok t m2
  | .SUserDefinedTypeNameType definition =>
    (tcArgsF tcRec args ctx m1).andThen fun argTs m2 =>
      match definition with
      | .struct sid =>
        match getUserDefinedTypeFQName env (.struct sid) with
        | none => .internal m2
        | some fq =>
          .ok (.SPointer (.SUserDefinedType fq (some (.struct sid)))
                (some DataLocation.Memory)) m2
      | .contract cid =>
        if args.length != 1 then .err (.SExprCountMismatch callId) m2
        else
          match getUserDefinedTypeFQName env (.contract cid) with
          | none => .internal m2
          | some fq =>
            .ok (.SPointer (.SUserDefinedType fq (some (.contract cid)))
                  (some DataLocation.Storage)) m2
      | .enum eid =>
        match argTs with
        | [argT] =>
          match getUserDefinedTypeFQName env (.enum eid) with
          | none => .internal m2
          | some fq =>
            .ok (.SPointer (.SUserDefinedType fq (some (.enum eid))) (locOfPtr argT)) m2
        | _ => .err (.SExprCountMismatch callId) m2
  | .SFunctionSetType definitions defaultArg =>
    let callArgs :=
      match defaultArg with
      | some dflt => dflt :: args
      | none => args
    (tcArgsF tcRec callArgs ctx m1).andThen fun argTs m2 =>
      match matchingDefsOf env callArgs argTs args.length definitions with
      | none => .internal m2
      | some matching =>
        match matching with
        | [] => .err (.SUnresolvedFun callId) m2
        | [d] =>
          let m3 := TypeMap.set m2 callee.nodeId (.SFunctionSetType [d] defaultArg)
          match d with
          | FSDef.fn f =>
            match astVarsToSTypes env f.returns with
            | none => .internal m3
            | some retTs =>
              match retTs with
              | [t] => .ok t m3
              | [] => .err (.SFunNoReturn callId) m3
              | ts => .ok (.STupleType ts) m3
          | FSDef.svar v =>
            match v.vType with
            | some (TypeName.userDefined _) => .internal m3
            | _ =>
              match astVarToSType env v none with
              | none => .internal m3
              | some t => .ok t m3
        | _ => .internal m2
  | .SFunctionType params rets _ _ =>
    (tcArgsF tcRec args ctx m1).andThen fun argTs m2 =>
      if matchArgsWithParams args argTs params then
        match rets with
        | [t] => .ok t m2
        | [] => .err (.SFunNoReturn callId) m2
        | ts => .ok (.STupleType ts) m2
      else .err (.SArgumentMismatch callId) m2
  | _ => .err (.SWrongType callee.nodeId calleeT) m1

/-- The tc entry point: return the cached type when the node is present
in the type map; otherwise dispatch on the node variant and cache the
result under the node's identity.  Each recursion step consumes one unit
of fuel, which only the recursion depth can exhaust. -/
def tc (fuel : Nat) (expr : SNode) (ctx : STypingCtx) (m : TypeMap) (env : Env) : TCRes SType :=
  match fuel with
  | 0 => .outOfFuel
  | fuel + 1 =>
    match TypeMap.find? m expr.nodeId with
    | some t => .ok t m
    | none =>
      match expr with
      | .SNumber i _ => cacheRes i (.ok .SIntLiteralType m)
      | .SBooleanLiteral i _ => cacheRes i (.ok .SBoolType m)
      | .SStringLiteral i _ => cacheRes i (.ok .SStringLiteralType m)
      | .SHexLiteral i _ => cacheRes i (.ok .SStringLiteralType m)
      | .SAddressLiteral i _ => cacheRes i (.ok (.SAddressType true) m)
      | .SId i name =>
        cacheRes i
          ((tcIdF (fun e c m2 => tc fuel e c m2 env) i name ctx m env).andThen
            fun p m1 => .ok p.1 m1)
      | .SResult i => cacheRes i (tcResult env i ctx m)
      | .SUnaryOperation i op sub =>
        cacheRes i (tcUnaryF (fun e c m2 => tc fuel e c m2 env) op sub ctx m)
      | .SBinaryOperation i l op r =>
        cacheRes i (tcBinaryF (fun e c m2 => tc fuel e c m2 env) l op r ctx m)
      | .SConditional i c t e =>
        cacheRes i (tcConditionalF (fun e2 c2 m2 => tc fuel e2 c2 m2 env) c t e ctx m)
      | .SIndexAccess i b x =>
        cacheRes i (tcIndexAccessF (fun e c m2 => tc fuel e c m2 env) i b x ctx m)
      | .SMemberAccess i b mem =>
        cacheRes i (tcMemberAccessF (fun e c m2 => tc fuel e c m2 env) i b mem ctx m env)
      | .SLet i lhs rhs body =>
        cacheRes i (tcLetF (fun e c m2 => tc fuel e c m2 env) i lhs rhs body ctx m)
      | .SFunctionCall i callee args =>
        cacheRes i
          (tcFunctionCallF (fun e c m2 => tc fuel e c m2 env) i callee args ctx m env)
      | .typeExpr i t =>
        match t with
        | .SUserDefinedType _ df =>
          match df with
          | none => .internal m
          | some d => cacheRes i (.ok (.SUserDefinedTypeNameType d) m)
        | _ => cacheRes i (.ok (.SBuiltinTypeNameType t) m)

/-- The recursive checker at a given fuel (the callback tc passes to the
per-variant helpers). -/
def tcCb (fuel : Nat) (env : Env) : TcCb := fun e c m => tc fuel e c m env

/-- The tcArgs function at a given fuel. -/
def tcArgs (fuel : Nat) (args : List SNode) (ctx : STypingCtx) (m : TypeMap) (env : Env) :
    TCRes (List SType) :=
  match fuel with
  | 0 => .outOfFuel
  | fuel + 1 => tcArgsF (tcCb fuel env) args ctx m

/-- The tcId function at a given fuel. -/
def tcId (fuel : Nat) (exprId : Nat) (name : String) (ctx : STypingCtx) (m : TypeMap)
    (env : Env) : TCRes (SType × Option VarDefSite) :=
  match fuel with
  | 0 => .outOfFuel
  | fuel + 1 => tcIdF (tcCb fuel env) exprId name ctx m env

/-- The tcFunctionCall function at a given fuel. -/
def tcFunctionCall (fuel : Nat) (callId : Nat) (callee : SNode) (args : List SNode)
    (ctx : STypingCtx) (m : TypeMap) (env : Env) : TCRes SType :=
  match fuel with
  | 0 => .outOfFuel
  | fuel + 1 => tcFunctionCallF (tcCb fuel env) callId callee args ctx m env

/-- The tcMemberAccess function at a given fuel. -/
def tcMemberAccess (fuel : Nat) (exprId : Nat) (base : SNode) (member : String)
    (ctx : STypingCtx) (m : TypeMap) (env : Env) : TCRes SType :=
  match fuel with
  | 0 => .outOfFuel
  | fuel + 1 => tcMemberAccessF (tcCb fuel env) exprId base member ctx m env

/-- Cache entries are only added: the updated map is the original with
entries consed in front. -/
def TypeMap.Ext (m m2 : TypeMap) : Prop := ∃ p, m2 = p ++ m

/-- Every key of the second map is a key of the first or belongs to the
allowed id list. -/
def NewKeysIn (m m2 : TypeMap) (allowed : List Nat) : Prop :=
  ∀ k, TypeMap.find? m2 k ≠ none → TypeMap.find? m k ≠ none ∨ k ∈ allowed

/-- An UnknownId diagnostic names a node from the allowed id list. -/
def UnknownOrigin (d : TCErr) (allowed : List Nat) : Prop :=
  ∀ k s, d = TCErr.SUnknownId k s → k ∈ allowed

/-- Node ids reachable from the typing context: the right-hand sides of
let scopes, which identifier resolution can recursively check. -/
def ctxIds (ctx : STypingCtx) : List Nat :=
  match ctx with
  | [] => []
  | SScope.slet l :: rest => nodeIds l.rhs ++ ctxIds rest
  | _ :: rest => ctxIds rest




/-- Elementary uint32 type name of the concrete test program. -/
def uint32TN : TypeName := .ElementaryTypeName "uint32" false

/-- Elementary int128 type name of the concrete test program. -/
def int128TN : TypeName := .ElementaryTypeName "int128" false

/-- Elementary bytes type name of the concrete test program. -/
def bytesTN : TypeName := .ElementaryTypeName "bytes" false

/-- A state variable of the test contract. -/
def mkSVar (nm : String) (tn : TypeName) : VariableDeclaration :=
  .mk nm (some tn) none (.contract 1) StateVariableVisibility.Default

/-- A parameter or return declaration of a test function. -/
def mkParam (nm : String) (tn : TypeName) (fid : Nat) : VariableDeclaration :=
  .mk nm (some tn) none (.function fid) StateVariableVisibility.Default

/-- Test function add(x : int8, y : uint64) returns (add : uint64). -/
def addFn : FunctionDefinition :=
  ⟨2, "add", [mkParam "x" (.ElementaryTypeName "int8" false) 2,
              mkParam "y" (.ElementaryTypeName "uint64" false) 2],
   [mkParam "add" (.ElementaryTypeName "uint64" false) 2],
   FunctionVisibility.Public, FunctionStateMutability.NonPayable⟩

/-- Test function retBytes() returns (bytes). -/
def retBytesFn : FunctionDefinition :=
  ⟨5, "retBytes", [], [mkParam "" bytesTN 5],
   FunctionVisibility.Public, FunctionStateMutability.NonPayable⟩

/-- Library function ladd(a : uint32, b : uint32) returns (uint32). -/
def laddFn : FunctionDefinition :=
  ⟨101, "ladd", [mkParam "a" uint32TN 101, mkParam "b" uint32TN 101],
   [mkParam "" uint32TN 101], FunctionVisibility.Public, FunctionStateMutability.NonPayable⟩

/-- Library function m(s : S) returns (uint32). -/
def libM : FunctionDefinition :=
  ⟨102, "m", [mkParam "s" (.userDefined (.struct 7)) 102], [mkParam "" uint32TN 102],
   FunctionVisibility.Public, FunctionStateMutability.NonPayable⟩

/-- Test library Lib with the two library functions. -/
def libC : ContractDefinition :=
  ⟨100, "Lib", [100], [], [], [], [], [laddFn, libM]⟩

/-- Test struct S of contract Foo, with no members. -/
def sStruct : StructDefinition := ⟨7, "S", some "Foo", []⟩

/-- Test enum FooEnum of contract Foo. -/
def fooEnum : EnumDefinition := ⟨8, "FooEnum", some "Foo", ["D", "E", "F"]⟩

/-- Test contract Foo: state variables of assorted types, struct S, enum
FooEnum, an unrestricted using-for directive over Lib, and two functions. -/
def fooC : ContractDefinition :=
  ⟨1, "Foo", [1],
   [mkSVar "sV1" int128TN, mkSVar "sA" (.ElementaryTypeName "address" false),
    mkSVar "sB" (.ElementaryTypeName "bool" false), mkSVar "sBy" bytesTN,
    mkSVar "sFoo" (.userDefined (.struct 7)), mkSVar "u32a" uint32TN, mkSVar "u32b" uint32TN],
   [7], [8], [⟨none, 100⟩], [addFn, retBytesFn]⟩

/-- The test source unit holding Foo and Lib. -/
def testSU : SourceUnit := ⟨[], [], [1, 100]⟩

/-- The test environment. -/
def testEnv : Env := ⟨[fooC, libC], [sStruct], [fooEnum]⟩

/-- The typing context of an annotation inside contract Foo. -/
def ctxFoo : STypingCtx := [SScope.sourceUnits [testSU], SScope.contract fooC]


/-- Modelled from the spec: the reference types of the well-formedness
invariant of section 3.1 (arrays, bytes, strings, mappings, and
user-defined struct or contract types), which must occur in a checked
expression type only inside a Pointer. -/
def isRefType : SType → Bool
  | .SArrayType _ _ => true
  | .SBytes => true
  | .SString => true
  | .SMappingType _ _ => true
  | .SUserDefinedType _ (some (.struct _)) => true
  | .SUserDefinedType _ (some (.contract _)) => true
  | _ => false

/-- The bad-exponent test of the power branch of tcBinary (the source
rejects a non-int, signed, or negative-literal right operand). -/
def powBadRhs (right : SNode) (rhsT : SType) : Bool :=
  !(isInty rhsT) ||
  (match rhsT with
   | .SIntType _ signed => signed
   | _ => false) ||
  (match right with
   | .SNumber _ n => decide (n < 0)
   | _ => false)

/-- The result type of the power and shift branches of tcBinary: the
left type unless it is an int literal. -/
def powResult (lhsT rhsT : SType) : SType :=
  match lhsT with
  | .SIntLiteralType => rhsT
  | _ => lhsT

/-- Payload ids of a checked type list: the embedded default-argument
subtree ids of each type. -/
def typesArgIds (ts : List SType) : List Nat := ts.flatMap typeArgIds

/-- Payload ids of a tcId result: the ids embedded in the type component
(the def-site annotation holds no checked nodes). -/
def pairArgIds (p : SType × Option VarDefSite) : List Nat := typeArgIds p.1

/-- All ids the checker may cache under while checking a node: the node
subtree, the let right-hand sides of the context, and default arguments
stored in the incoming cache. -/
def allowedIds (e : SNode) (ctx : STypingCtx) (m : TypeMap) : List Nat :=
  nodeIds e ++ (ctxIds ctx ++ mapArgIds m)

/-- As allowedIds but without the checked node itself: the key bound of
runs that do not cache the node (failing runs). -/
def strictAllowedIds (e : SNode) (ctx : STypingCtx) (m : TypeMap) : List Nat :=
  strictIds e ++ (ctxIds ctx ++ mapArgIds m)

/-- Postcondition shape of a checker result: the cache only grows, new
keys and the argument ids embedded in the updated cache stay inside the
key bound A, payload ids stay inside the payload bound P, and UnknownId
diagnostics name a node of P. -/
def ResPost {alpha : Type} (pIds : alpha → List Nat) (m : TypeMap) (A P : List Nat)
    (r : TCRes alpha) : Prop :=
  match r with
  | .ok a m2 =>
    TypeMap.Ext m m2 ∧ NewKeysIn m m2 A ∧ mapArgIds m2 ⊆ A ∧ pIds a ⊆ A
  | .err d m2 =>
    TypeMap.Ext m m2 ∧ NewKeysIn m m2 A ∧ mapArgIds m2 ⊆ A ∧ UnknownOrigin d P
  | .internal m2 => TypeMap.Ext m m2 ∧ mapArgIds m2 ⊆ A
  | .outOfFuel => True

/-- Postcondition of a full tc run: the cache grows; a successful run
caches the checked type under the node id and all its new keys are
allowed ids of the node; a failing run caches only proper subterms, and
an UnknownId diagnostic names an allowed node. -/
def TCPost (e : SNode) (ctx : STypingCtx) (m : TypeMap) (r : TCRes SType) : Prop :=
  match r with
  | .ok t m2 =>
    TypeMap.Ext m m2 ∧ NewKeysIn m m2 (allowedIds e ctx m) ∧
      mapArgIds m2 ⊆ allowedIds e ctx m ∧ typeArgIds t ⊆ allowedIds e ctx m ∧
      TypeMap.find? m2 e.nodeId = some t
  | .err d m2 =>
    TypeMap.Ext m m2 ∧ NewKeysIn m m2 (strictAllowedIds e ctx m) ∧
      mapArgIds m2 ⊆ allowedIds e ctx m ∧ UnknownOrigin d (allowedIds e ctx m)
  | .internal m2 => TypeMap.Ext m m2 ∧ mapArgIds m2 ⊆ allowedIds e ctx m
  | .outOfFuel => True

theorem TypeMap.Ext.extRefl (m : TypeMap) : TypeMap.Ext m m := ⟨[], rfl⟩

theorem TypeMap.Ext.extTrans {m1 m2 m3 : TypeMap} (h1 : TypeMap.Ext m1 m2)
    (h2 : TypeMap.Ext m2 m3) : TypeMap.Ext m1 m3 := by
  obtain ⟨p1, rfl⟩ := h1
  obtain ⟨p2, rfl⟩ := h2
  exact ⟨p2 ++ p1, by simp⟩

theorem TypeMap.Ext.extSet (m : TypeMap) (k : Nat) (v : SType) :
    TypeMap.Ext m (TypeMap.set m k v) := ⟨[(k, v)], rfl⟩

theorem TypeMap.find?_append_ne {p m : TypeMap} {k : Nat}
    (h : TypeMap.find? m k ≠ none) : TypeMap.find? (p ++ m) k ≠ none := by
  induction p with
  | nil => simpa using h
  | cons kv rest ih =>
    show TypeMap.find? ((kv.1, kv.2) :: (rest ++ m)) k ≠ none
    by_cases hk : kv.1 = k
    · simp [TypeMap.find?, hk]
    · simpa [TypeMap.find?, hk] using ih

theorem TypeMap.Ext.find_ne {m m2 : TypeMap} {k : Nat} (h : TypeMap.Ext m m2)
    (hk : TypeMap.find? m k ≠ none) : TypeMap.find? m2 k ≠ none := by
  obtain ⟨p, rfl⟩ := h
  exact TypeMap.find?_append_ne hk

theorem NewKeysIn.nkRefl (m : TypeMap) (allowed : List Nat) : NewKeysIn m m allowed :=
  fun _ h => Or.inl h

theorem NewKeysIn.nkMono {m m2 : TypeMap} {a b : List Nat} (h : NewKeysIn m m2 a)
    (hab : a ⊆ b) : NewKeysIn m m2 b := by
  intro k hk
  rcases h k hk with h1 | h1
  · exact Or.inl h1
  · exact Or.inr (hab h1)

theorem NewKeysIn.nkTrans {m m1 m2 : TypeMap} {a b c : List Nat}
    (h1 : NewKeysIn m m1 a) (h2 : NewKeysIn m1 m2 b) (ha : a ⊆ c) (hb : b ⊆ c) :
    NewKeysIn m m2 c := by
  intro k hk
  rcases h2 k hk with h3 | h3
  · rcases h1 k h3 with h4 | h4
    · exact Or.inl h4
    · exact Or.inr (ha h4)
  · exact Or.inr (hb h3)

theorem NewKeysIn.nkSet {m m2 : TypeMap} {a : List Nat} {k : Nat} {v : SType}
    (h : NewKeysIn m m2 a) (hk : k ∈ a) : NewKeysIn m (TypeMap.set m2 k v) a := by
  intro k2 hk2
  by_cases he : k = k2
  · exact Or.inr (he ▸ hk)
  · refine h k2 ?_
    simpa [TypeMap.set, TypeMap.find?, he] using hk2

theorem TypeMap.find?_set_self (m : TypeMap) (k : Nat) (v : SType) :
    TypeMap.find? (TypeMap.set m k v) k = some v := by
  simp [TypeMap.set, TypeMap.find?]

theorem TypeMap.find?_set_ne (m : TypeMap) {k k2 : Nat} (v : SType) (h : k ≠ k2) :
    TypeMap.find? (TypeMap.set m k v) k2 = TypeMap.find? m k2 := by
  simp [TypeMap.set, TypeMap.find?, h]

theorem mapArgIds_set (m : TypeMap) (k : Nat) (v : SType) :
    mapArgIds (TypeMap.set m k v) = typeArgIds v ++ mapArgIds m := rfl

theorem typeArgIds_sub_mapArgIds {m : TypeMap} {k : Nat} {t : SType}
    (h : TypeMap.find? m k = some t) : typeArgIds t ⊆ mapArgIds m := by
  induction m with
  | nil => simp [TypeMap.find?] at h
  | cons kv rest ih =>
    by_cases he : kv.1 = k
    · have : kv.2 = t := by
        have hh := h
        rw [show (kv :: rest : TypeMap) = (kv.1, kv.2) :: rest from rfl] at hh
        simpa [TypeMap.find?, he] using hh
      subst this
      intro x hx
      exact List.mem_append_left _ hx
    · have hh := h
      rw [show (kv :: rest : TypeMap) = (kv.1, kv.2) :: rest from rfl] at hh
      simp only [TypeMap.find?, he, if_false] at hh
      intro x hx
      exact List.mem_append_right _ (ih hh hx)

theorem ctxIds_append_slet (ctx : STypingCtx) (l : SLetScope) :
    ctxIds (ctx ++ [SScope.slet l]) = ctxIds ctx ++ nodeIds l.rhs := by
  induction ctx with
  | nil => simp [ctxIds]
  | cons s rest ih =>
    cases s <;> simp [ctxIds, ih]

theorem slet_mem_ctxIds {ctx : STypingCtx} {l : SLetScope}
    (h : SScope.slet l ∈ ctx) : nodeIds l.rhs ⊆ ctxIds ctx := by
  induction ctx with
  | nil => simp at h
  | cons s rest ih =>
    rcases List.mem_cons.mp h with h1 | h1
    · subst h1
      intro x hx
      exact List.mem_append_left _ hx
    · intro x hx
      cases s <;> simp only [ctxIds] <;>
        first
        | exact ih h1 hx
        | exact List.mem_append_right _ (ih h1 hx)

theorem lookupVarDefRev_letBinding {env : Env} {name : String} {scopes : List SScope}
    {l : SLetScope} {idx : Nat}
    (h : lookupVarDefRev env name scopes = some (VarDefSite.letBinding l idx)) :
    SScope.slet l ∈ scopes := by
  induction scopes with
  | nil => simp [lookupVarDefRev] at h
  | cons s rest ih =>
    cases s with
    | function fd =>
      rw [lookupVarDefRev] at h
      rcases h1 : fd.parameters.find? (fun p => p.name == name) with _ | p
      · rcases h2 : fd.returns.find? (fun p => p.name == name) with _ | p
        · rw [h1, h2] at h
          exact List.mem_cons_of_mem _ (ih h)
        · rw [h1, h2] at h
          simp at h
      · rw [h1] at h
        simp at h
    | contract c =>
      rw [lookupVarDefRev] at h
      rcases h1 : (c.vLinearizedBaseContracts.filterMap env.contract?).findSome?
          (fun b => b.vStateVariables.find? (fun v => v.name == name)) with _ | v
      · rw [h1] at h
        exact List.mem_cons_of_mem _ (ih h)
      · rw [h1] at h
        simp at h
    | sourceUnits us =>
      rw [lookupVarDefRev] at h
      simp at h
    | slet l2 =>
      rw [lookupVarDefRev] at h
      rcases h1 : l2.lhs.findIdx? (fun b => b == name) with _ | i
      · rw [h1] at h
        exact List.mem_cons_of_mem _ (ih h)
      · rw [h1] at h
        simp at h
        exact List.mem_cons.mpr (Or.inl (congrArg SScope.slet h.1.symm))

theorem lookupVarDef_letBinding_sub {env : Env} {name : String} {ctx : STypingCtx}
    {l : SLetScope} {idx : Nat}
    (h : lookupVarDef env name ctx = some (VarDefSite.letBinding l idx)) :
    nodeIds l.rhs ⊆ ctxIds ctx := by
  have hm : SScope.slet l ∈ ctx := by
    have := lookupVarDefRev_letBinding h
    simpa using this
  exact slet_mem_ctxIds hm

theorem nodeId_mem_nodeIds (e : SNode) : e.nodeId ∈ nodeIds e := by
  cases e <;> simp [SNode.nodeId, nodeIds]

theorem goTypes_sub_of_mem {ts : List SType} {t : SType} (h : t ∈ ts) :
    nodeIds.goType t ⊆ nodeIds.goTypes ts := by
  induction ts with
  | nil => simp at h
  | cons a rest ih =>
    rcases List.mem_cons.mp h with h1 | h1
    · subst h1
      intro x hx
      rw [nodeIds.goTypes]
      exact List.mem_append_left _ hx
    · intro x hx
      rw [nodeIds.goTypes]
      exact List.mem_append_right _ (ih h1 hx)

theorem typeArgIds_tuple_get {elements : List SType} {idx : Nat} {t : SType}
    (h : elements.get? idx = some t) :
    typeArgIds t ⊆ typeArgIds (SType.STupleType elements) := by
  have hm : t ∈ elements := List.get?_mem h
  show nodeIds.goType t ⊆ nodeIds.goType (SType.STupleType elements)
  rw [show nodeIds.goType (SType.STupleType elements) = nodeIds.goTypes elements from rfl]
  exact goTypes_sub_of_mem hm

theorem goMembers_sub_of_find {members : List (String × SType)} {member : String}
    {t : SType} (h : (members.find? (fun p => p.1 == member)).map Prod.snd = some t) :
    nodeIds.goType t ⊆ nodeIds.goMembers members := by
  induction members with
  | nil => simp [List.find?] at h
  | cons a rest ih =>
    rw [show (a :: rest : List (String × SType)) = (a.1, a.2) :: rest from rfl] at h ⊢
    by_cases he : (a.1 == member) = true
    · simp [List.find?, he] at h
      subst h
      intro x hx
      rw [nodeIds.goMembers]
      exact List.mem_append_left _ hx
    · simp only [List.find?, he] at h
      intro x hx
      rw [nodeIds.goMembers]
      exact List.mem_append_right _ (ih h hx)

theorem goTypes_nil_of_all {ts : List SType} (h : ∀ t ∈ ts, nodeIds.goType t = []) :
    nodeIds.goTypes ts = [] := by
  induction ts with
  | nil => rw [nodeIds.goTypes]
  | cons a rest ih =>
    rw [nodeIds.goTypes, h a (List.mem_cons_self a rest), ih]
    · rfl
    · intro t ht
      exact h t (List.mem_cons_of_mem _ ht)

theorem unifyTypes_cases {exprA : SNode} {typeA : SType} {exprB : SNode} {typeB : SType}
    {t : SType} (h : unifyTypes exprA typeA exprB typeB = .ok t) :
    t = typeB ∨ t = typeA := by
  unfold unifyTypes at h
  split at h
  · exact Or.inl (by injection h with h2; exact h2.symm)
  · split at h
    · exact Or.inr (by injection h with h2; exact h2.symm)
    · cases h

theorem specializeType_argIds : ∀ (t : SType) (loc : DataLocation),
    ∀ t2, specializeType t loc = some t2 → typeArgIds t = [] → typeArgIds t2 = [] := by
  intro t loc
  induction t, loc using specializeType.induct with
  | case1 toT location x => intro t2 h h0; simp [specializeType] at h
  | case2 elements x => intro t2 h h0; simp [specializeType] at h
  | case3 toLocation => intro t2 h h0; cases h; rfl
  | case4 toLocation => intro t2 h h0; cases h; rfl
  | case5 elementT size toLocation hn ih => intro t2 h h0; simp [specializeType, hn] at h
  | case6 elementT size toLocation concreteElT hn ih =>
    intro t2 h h0
    rw [show specializeType (elementT.SArrayType size) toLocation =
        some ((concreteElT.SArrayType size).SPointer (some toLocation)) by
      simp [specializeType, hn]] at h
    cases h
    exact ih concreteElT hn h0
  | case7 nm toLocation => intro t2 h h0; simp [specializeType] at h
  | case8 nm toLocation cid => intro t2 h h0; cases h; rfl
  | case9 nm toLocation sid => intro t2 h h0; cases h; rfl
  | case10 nm toLocation eid => intro t2 h h0; cases h; rfl
  | case11 keyType valueType x hn ih => intro t2 h h0; simp [specializeType, hn] at h
  | case12 keyType valueType x c1 h1 hn ih1 ih2 =>
    intro t2 h h0
    simp [specializeType, h1, hn] at h
  | case13 keyType valueType x c1 h1 c2 h2 ih1 ih2 =>
    intro t2 h h0
    rw [show specializeType (keyType.SMappingType valueType) x =
        some ((c1.SMappingType c2).SPointer (some DataLocation.Storage)) by
      simp [specializeType, h1, h2]] at h
    cases h
    have e0 : nodeIds.goType keyType ++ nodeIds.goType valueType = [] := h0
    have e1 : nodeIds.goType keyType = [] := by
      cases hk : nodeIds.goType keyType with
      | nil => rfl
      | cons a b => rw [hk] at e0; cases e0
    have e2 : nodeIds.goType valueType = [] := by
      rw [e1] at e0; simpa using e0
    have r1 := ih1 c1 h1 e1
    have r2 := ih2 c2 h2 e2
    show nodeIds.goType c1 ++ nodeIds.goType c2 = []
    rw [show nodeIds.goType c1 = typeArgIds c1 from rfl, r1,
        show nodeIds.goType c2 = typeArgIds c2 from rfl, r2]
    rfl
  | case14 t x hne1 hne2 hne3 hne4 hne5 hne6 hne7 =>
    intro t2 h h0
    cases t
    case SPointer a b => exact (hne1 a b rfl).elim
    case STupleType a => exact (hne2 a rfl).elim
    case SBytes => exact (hne3 rfl).elim
    case SString => exact (hne4 rfl).elim
    case SArrayType a b => exact (hne5 a b rfl).elim
    case SUserDefinedType a b => exact (hne6 a b rfl).elim
    case SMappingType a b => exact (hne7 a b rfl).elim
    all_goals (cases h; exact h0)

set_option maxHeartbeats 1000000 in
theorem astTypeNameToSType_argIds (env : Env) : ∀ astT : TypeName,
    ∀ t, astTypeNameToSType env astT = some t → typeArgIds t = [] := by
  intro astT
  induction astT using astTypeNameToSType.induct
  case env => exact env
  case motive_1 astV baseLoc =>
    exact ∀ t : SType, astTypeNameToSType.goVar env astV baseLoc = some t → typeArgIds t = []
  case motive_3 vs =>
    exact ∀ ts : List SType,
      astTypeNameToSType.goVars env vs = some ts → ∀ t2 ∈ ts, typeArgIds t2 = []
  case case1 nm payable nameLet hb =>
    intro t h
    rw [astTypeNameToSType] at h
    rw [if_pos (show ((trimChars nm.data == "bool".data) = true) from hb)] at h
    cases h; rfl
  case case2 nm payable nameLet hb1 hb2 =>
    intro t h
    rw [astTypeNameToSType] at h
    rw [if_neg (show ¬((trimChars nm.data == "bool".data) = true) from hb1),
        if_pos (show (matchAddressIngest (trimChars nm.data) = true) from hb2)] at h
    cases h; rfl
  case case3 nm payable nameLet hb1 hb2 hb3 =>
    intro t h
    rw [astTypeNameToSType] at h
    rw [if_neg (show ¬((trimChars nm.data == "bool".data) = true) from hb1),
        if_neg (show ¬(matchAddressIngest (trimChars nm.data) = true) from hb2),
        if_pos (show (matchIntConst (trimChars nm.data) = true) from hb3)] at h
    cases h; rfl
  case case4 nm payable nameLet hb1 hb2 hb3 signed nBits hx =>
    intro t h
    rw [astTypeNameToSType] at h
    rw [if_neg (show ¬((trimChars nm.data == "bool".data) = true) from hb1),
        if_neg (show ¬(matchAddressIngest (trimChars nm.data) = true) from hb2),
        if_neg (show ¬(matchIntConst (trimChars nm.data) = true) from hb3),
        show matchIntType (trimChars nm.data) = some (signed, nBits) from hx] at h
    cases h; rfl
  case case5 nm payable nameLet hb1 hb2 hb3 hxi size hxb =>
    intro t h
    rw [astTypeNameToSType] at h
    rw [if_neg (show ¬((trimChars nm.data == "bool".data) = true) from hb1),
        if_neg (show ¬(matchAddressIngest (trimChars nm.data) = true) from hb2),
        if_neg (show ¬(matchIntConst (trimChars nm.data) = true) from hb3),
        show matchIntType (trimChars nm.data) = none from hxi,
        show matchBytesN (trimChars nm.data) = some size from hxb] at h
    cases h; rfl
  case case6 nm payable nameLet hb1 hb2 hb3 hxi hxb hb4 =>
    intro t h
    rw [astTypeNameToSType] at h
    rw [if_neg (show ¬((trimChars nm.data == "bool".data) = true) from hb1),
        if_neg (show ¬(matchAddressIngest (trimChars nm.data) = true) from hb2),
        if_neg (show ¬(matchIntConst (trimChars nm.data) = true) from hb3),
        show matchIntType (trimChars nm.data) = none from hxi,
        show matchBytesN (trimChars nm.data) = none from hxb,
        if_pos (show ((trimChars nm.data == "byte".data) = true) from hb4)] at h
    cases h; rfl
  case case7 nm payable nameLet hb1 hb2 hb3 hxi hxb hb4 hb5 =>
    intro t h
    rw [astTypeNameToSType] at h
    rw [if_neg (show ¬((trimChars nm.data == "bool".data) = true) from hb1),
        if_neg (show ¬(matchAddressIngest (trimChars nm.data) = true) from hb2),
        if_neg (show ¬(matchIntConst (trimChars nm.data) = true) from hb3),
        show matchIntType (trimChars nm.data) = none from hxi,
        show matchBytesN (trimChars nm.data) = none from hxb,
        if_neg (show ¬((trimChars nm.data == "byte".data) = true) from hb4),
        if_pos (show ((trimChars nm.data == "bytes".data) = true) from hb5)] at h
    cases h; rfl
  case case8 nm payable nameLet hb1 hb2 hb3 hxi hxb hb4 hb5 hb6 =>
    intro t h
    rw [astTypeNameToSType] at h
    rw [if_neg (show ¬((trimChars nm.data == "bool".data) = true) from hb1),
        if_neg (show ¬(matchAddressIngest (trimChars nm.data) = true) from hb2),
        if_neg (show ¬(matchIntConst (trimChars nm.data) = true) from hb3),
        show matchIntType (trimChars nm.data) = none from hxi,
        show matchBytesN (trimChars nm.data) = none from hxb,
        if_neg (show ¬((trimChars nm.data == "byte".data) = true) from hb4),
        if_neg (show ¬((trimChars nm.data == "bytes".data) = true) from hb5),
        if_pos (show ((trimChars nm.data == "string".data) = true) from hb6)] at h
    cases h; rfl
  case case9 nm payable nameLet hb1 hb2 hb3 hxi hxb hb4 hb5 hb6 =>
    intro t h
    rw [astTypeNameToSType] at h
    rw [if_neg (show ¬((trimChars nm.data == "bool".data) = true) from hb1),
        if_neg (show ¬(matchAddressIngest (trimChars nm.data) = true) from hb2),
        if_neg (show ¬(matchIntConst (trimChars nm.data) = true) from hb3),
        show matchIntType (trimChars nm.data) = none from hxi,
        show matchBytesN (trimChars nm.data) = none from hxb,
        if_neg (show ¬((trimChars nm.data == "byte".data) = true) from hb4),
        if_neg (show ¬((trimChars nm.data == "bytes".data) = true) from hb5),
        if_neg (show ¬((trimChars nm.data == "string".data) = true) from hb6)] at h
    cases h
  case case10 hn ih => intro t h; rw [astTypeNameToSType] at h; simp_all
  case case11 hs ih =>
    intro t h; rw [astTypeNameToSType] at h
    rw [hs] at h
    cases h
    have hq := ih _ hs
    exact hq
  case case12 hs n ih =>
    intro t h; rw [astTypeNameToSType] at h
    rw [hs] at h
    cases h
    have hq := ih _ hs
    exact hq
  case case13 hs ih => intro t h; rw [astTypeNameToSType] at h; rw [hs] at h; cases h
  case case14 ref =>
    intro t h; rw [astTypeNameToSType] at h
    cases hq : getUserDefinedTypeFQName env ref with
    | none => rw [hq] at h; cases h
    | some nm => rw [hq] at h; cases h; rfl
  case case15 hn ih => intro t h; rw [astTypeNameToSType] at h; simp_all
  case case16 hp hr ih2 ih1 => intro t h; rw [astTypeNameToSType] at h; rw [hp, hr] at h; cases h
  case case17 pTs hp rTs hr ih2 ih1 =>
    intro t h; rw [astTypeNameToSType] at h
    rw [hp, hr] at h
    cases h
    show nodeIds.goTypes pTs ++ nodeIds.goTypes rTs = []
    rw [goTypes_nil_of_all (fun t2 ht2 => ih2 pTs hp t2 ht2),
        goTypes_nil_of_all (fun t2 ht2 => ih1 rTs hr t2 ht2)]
    rfl
  case case18 hn ih => intro t h; rw [astTypeNameToSType] at h; simp_all
  case case19 hk hv ih2 ih1 => intro t h; rw [astTypeNameToSType] at h; rw [hk, hv] at h; cases h
  case case20 kT hk vT hv ih2 ih1 =>
    intro t h; rw [astTypeNameToSType] at h
    rw [hk, hv] at h
    cases h
    show nodeIds.goType kT ++ nodeIds.goType vT = []
    rw [show nodeIds.goType kT = typeArgIds kT from rfl, ih2 kT hk,
        show nodeIds.goType vT = typeArgIds vT from rfl, ih1 vT hv]
    rfl
  case case21 => intro t h; rw [astTypeNameToSType.goVar] at h; cases h
  case case22 hn ih => intro t h; rw [astTypeNameToSType.goVar] at h; simp_all
  case case23 hi hl ih => intro t h; rw [astTypeNameToSType.goVar] at h; rw [hi, hl] at h; cases h
  case case24 cT hi loc hl ih =>
    intro t h; rw [astTypeNameToSType.goVar] at h
    rw [hi, hl] at h
    exact specializeType_argIds cT loc t h (ih cT hi)
  case case25 =>
    intro ts h
    rw [astTypeNameToSType.goVars] at h
    cases h
    intro t2 ht2
    simp at ht2
  case case26 hn ih => intro ts h; rw [astTypeNameToSType.goVars] at h; simp_all
  case case27 cT hv hrest ih2 ih1 =>
    intro ts h; rw [astTypeNameToSType.goVars] at h; rw [hv, hrest] at h; cases h
  case case28 cT hv restTs hrest ih2 ih1 =>
    intro ts h; rw [astTypeNameToSType.goVars] at h
    rw [hv, hrest] at h
    cases h
    intro t2 ht2
    rcases List.mem_cons.mp ht2 with h1 | h1
    · rw [h1]; exact ih2 cT hv
    · exact ih1 restTs hrest t2 h1


/-- Ingesting a single declared variable never produces a type with
embedded expression nodes. -/
theorem astVarToSType_argIds (env : Env) (astV : VariableDeclaration)
    (baseLoc : Option DataLocation) (t : SType)
    (h : astVarToSType env astV baseLoc = some t) : typeArgIds t = [] := by
  rw [astVarToSType, astTypeNameToSType.goVar.eq_def] at h
  cases astV with
  | mk nm vType stor sc vis =>
    cases vType with
    | none => cases h
    | some tn =>
      have h2 : (match astTypeNameToSType env tn with
          | none => none
          | some t0 =>
            match getVarLocation env (VariableDeclaration.mk nm (some tn) stor sc vis)
                baseLoc with
            | none => none
            | some loc => specializeType t0 loc) = some t := h
      cases hi : astTypeNameToSType env tn with
      | none => rw [hi] at h2; cases h2
      | some cT =>
        rw [hi] at h2
        cases hl : getVarLocation env (.mk nm (some tn) stor sc vis) baseLoc with
        | none => rw [hl] at h2; cases h2
        | some loc =>
          rw [hl] at h2
          exact specializeType_argIds cT loc t h2 (astTypeNameToSType_argIds env tn cT hi)

/-- Ingesting a parameter or return list never produces types with
embedded expression nodes. -/
theorem astVarsToSTypes_argIds (env : Env) : ∀ (vs : List VariableDeclaration)
    (ts : List SType), astVarsToSTypes env vs = some ts → ∀ t ∈ ts, typeArgIds t = [] := by
  intro vs
  induction vs with
  | nil =>
    intro ts h
    rw [astVarsToSTypes, astTypeNameToSType.goVars] at h
    cases h
    intro t ht
    simp at ht
  | cons v rest ih =>
    intro ts h
    rw [astVarsToSTypes, astTypeNameToSType.goVars] at h
    cases hv : astTypeNameToSType.goVar env v none with
    | none => rw [hv] at h; cases h
    | some t0 =>
      rw [hv] at h
      cases hr : astTypeNameToSType.goVars env rest with
      | none => rw [hr] at h; cases h
      | some ts0 =>
        rw [hr] at h
        cases h
        intro t ht
        rcases List.mem_cons.mp ht with h1 | h1
        · rw [h1]; exact astVarToSType_argIds env v none t0 hv
        · exact ih ts0 hr t h1

/-- Ingesting return type names for dollar-result never produces types
with embedded expression nodes. -/
theorem ingestReturnTypes_argIds (env : Env) : ∀ (rets : List VariableDeclaration)
    (ts : List SType), ingestReturnTypes env rets = some ts → ∀ t ∈ ts, typeArgIds t = [] := by
  intro rets
  induction rets with
  | nil =>
    intro ts h
    rw [ingestReturnTypes] at h
    cases h
    intro t ht
    simp at ht
  | cons r rest ih =>
    intro ts h
    rw [ingestReturnTypes] at h
    cases hvt : r.vType with
    | none => rw [hvt] at h; cases h
    | some tn =>
      rw [hvt] at h
      have h2 : (match astTypeNameToSType env tn, ingestReturnTypes env rest with
          | some t, some ts2 => some (t :: ts2)
          | _, _ => none) = some ts := h
      cases hi : astTypeNameToSType env tn with
      | none => rw [hi] at h2; cases h2
      | some t0 =>
        rw [hi] at h2
        cases hr : ingestReturnTypes env rest with
        | none => rw [hr] at h2; cases h2
        | some ts0 =>
          rw [hr] at h2
          cases h2
          intro t ht
          rcases List.mem_cons.mp ht with h1 | h1
          · rw [h1]; exact astTypeNameToSType_argIds env tn t0 hi
          · exact ih ts0 hr t h1


/-- The bool detector only produces closed types. -/
theorem detectBool_argIds : ∀ name t, detectBool name = some t → typeArgIds t = [] := by
  intro name t h
  rw [detectBool] at h
  split at h
  · cases h; rfl
  · cases h

/-- The string detector only produces closed types. -/
theorem detectString_argIds : ∀ name t, detectString name = some t → typeArgIds t = [] := by
  intro name t h
  rw [detectString] at h
  split at h
  · cases h; rfl
  · cases h

/-- The address detector only produces closed types. -/
theorem detectAddress_argIds : ∀ name t, detectAddress name = some t → typeArgIds t = [] := by
  intro name t h
  rw [detectAddress] at h
  cases hp : charsPrefix "address".data name.data with
  | none => rw [hp] at h; cases h
  | some rest =>
    rw [hp] at h
    have h2 : (if (List.dropWhile isSpaceChar rest == []) = true then
          some (SType.SAddressType ((none : Option String) != some ""))
        else if (List.dropWhile isSpaceChar rest == "payable".data) = true then
          some (SType.SAddressType ((some "payable" : Option String) != some ""))
        else none) = some t := h
    split_ifs at h2 <;> cases h2 <;> rfl

/-- The bytes detector only produces closed types. -/
theorem detectBytes_argIds : ∀ name t, detectBytes name = some t → typeArgIds t = [] := by
  intro name t h
  rw [detectBytes] at h
  cases hp : charsPrefix "bytes".data name.data with
  | none => rw [hp] at h; cases h
  | some rest =>
    rw [hp] at h
    have h2 : (if (charsAllDigits rest && decide (rest.length <= 2)) = true then
          if (rest == []) = true then some SType.SBytes
          else if (decide (parseIntDigits rest < 1) || decide (parseIntDigits rest > 32)) = true
            then none
          else some (SType.SFixedBytes (parseIntDigits rest))
        else none) = some t := h
    split_ifs at h2 <;> cases h2 <;> rfl

/-- The byte detector only produces closed types. -/
theorem detectByte_argIds : ∀ name t, detectByte name = some t → typeArgIds t = [] := by
  intro name t h
  rw [detectByte] at h
  split at h
  · cases h; rfl
  · cases h

/-- The int detector only produces closed types. -/
theorem detectInt_argIds : ∀ name t, detectInt name = some t → typeArgIds t = [] := by
  intro name t h
  rw [detectInt] at h
  cases hu : charsPrefix "uint".data name.data with
  | some rest =>
    rw [hu] at h
    have h2 : (if (charsAllDigits rest && decide (rest.length <= 3)) = true then
          if (rest == []) = true then some (SType.SIntType 256 false)
          else if (parseIntDigits rest % 8 != 0 || decide (parseIntDigits rest < 8) ||
              decide (parseIntDigits rest > 256)) = true then none
          else some (SType.SIntType (parseIntDigits rest) false)
        else none) = some t := h
    split_ifs at h2 <;> cases h2 <;> rfl
  | none =>
    rw [hu] at h
    cases hi : charsPrefix "int".data name.data with
    | none => rw [hi] at h; cases h
    | some rest =>
      rw [hi] at h
      have h2 : (if (charsAllDigits rest && decide (rest.length <= 3)) = true then
            if (rest == []) = true then some (SType.SIntType 256 true)
            else if (parseIntDigits rest % 8 != 0 || decide (parseIntDigits rest < 8) ||
                decide (parseIntDigits rest > 256)) = true then none
            else some (SType.SIntType (parseIntDigits rest) true)
          else none) = some t := h
      split_ifs at h2 <;> cases h2 <;> rfl

/-- Every builtin type detector in the table produces closed types. -/
theorem detectBuiltinType_argIds : ∀ name t, detectBuiltinType name = some t →
    typeArgIds t = [] := by
  intro name t h
  rw [detectBuiltinType] at h
  cases hb : detectBool name with
  | some t0 =>
    rw [hb] at h
    have h2 : some t0 = some t := h
    cases h2
    exact detectBool_argIds name _ hb
  | none =>
    rw [hb] at h
    have h2 : ((detectString name).orElse fun _ =>
        (detectAddress name).orElse fun _ =>
        (detectBytes name).orElse fun _ =>
        (detectByte name).orElse fun _ =>
        detectInt name) = some t := h
    cases hs : detectString name with
    | some t0 =>
      rw [hs] at h2
      have h3 : some t0 = some t := h2
      cases h3
      exact detectString_argIds name _ hs
    | none =>
      rw [hs] at h2
      have h3 : ((detectAddress name).orElse fun _ =>
          (detectBytes name).orElse fun _ =>
          (detectByte name).orElse fun _ =>
          detectInt name) = some t := h2
      cases ha : detectAddress name with
      | some t0 =>
        rw [ha] at h3
        have h4 : some t0 = some t := h3
        cases h4
        exact detectAddress_argIds name _ ha
      | none =>
        rw [ha] at h3
        have h4 : ((detectBytes name).orElse fun _ =>
            (detectByte name).orElse fun _ =>
            detectInt name) = some t := h3
        cases hby : detectBytes name with
        | some t0 =>
          rw [hby] at h4
          have h5 : some t0 = some t := h4
          cases h5
          exact detectBytes_argIds name _ hby
        | none =>
          rw [hby] at h4
          have h5 : ((detectByte name).orElse fun _ => detectInt name) = some t := h4
          cases hb1 : detectByte name with
          | some t0 =>
            rw [hb1] at h5
            have h6 : some t0 = some t := h5
            cases h6
            exact detectByte_argIds name _ hb1
          | none =>
            rw [hb1] at h5
            have h6 : detectInt name = some t := h5
            exact detectInt_argIds name t h6

/-- tcIdBuiltinType only produces closed types. -/
theorem tcIdBuiltinType_argIds : ∀ name t, tcIdBuiltinType name = some t →
    typeArgIds t = [] := by
  intro name t h
  rw [tcIdBuiltinType] at h
  cases hd : detectBuiltinType name with
  | none => rw [hd] at h; cases h
  | some t0 =>
    rw [hd] at h
    have h2 : some (SType.SBuiltinTypeNameType t0) = some t := h
    cases h2
    have hq := detectBuiltinType_argIds name _ hd
    exact hq

set_option maxHeartbeats 1000000 in
/-- The builtin symbol registry only holds closed types. -/
theorem BuiltinSymbols_argIds : ∀ name t, BuiltinSymbols name = some t →
    typeArgIds t = [] := by
  intro name t h
  rw [BuiltinSymbols] at h
  cases hq1 : name == "block" with
  | true =>
    rw [if_pos hq1] at h
    cases h
    rfl
  | false =>
    rw [if_neg (by simp [hq1])] at h
    cases hq2 : name == "msg" with
    | true =>
      rw [if_pos hq2] at h
      cases h
      rfl
    | false =>
      rw [if_neg (by simp [hq2])] at h
      cases hq3 : name == "tx" with
      | true =>
        rw [if_pos hq3] at h
        cases h
        rfl
      | false =>
        rw [if_neg (by simp [hq3])] at h
        cases hq4 : name == "blockhash" with
        | true =>
          rw [if_pos hq4] at h
          cases h
          rfl
        | false =>
          rw [if_neg (by simp [hq4])] at h
          cases hq5 : name == "gasleft" with
          | true =>
            rw [if_pos hq5] at h
            cases h
            rfl
          | false =>
            rw [if_neg (by simp [hq5])] at h
            cases hq6 : name == "now" with
            | true =>
              rw [if_pos hq6] at h
              cases h
              rfl
            | false =>
              rw [if_neg (by simp [hq6])] at h
              cases hq7 : name == "addmod" with
              | true =>
                rw [if_pos hq7] at h
                cases h
                rfl
              | false =>
                rw [if_neg (by simp [hq7])] at h
                cases hq8 : name == "mulmod" with
                | true =>
                  rw [if_pos hq8] at h
                  cases h
                  rfl
                | false =>
                  rw [if_neg (by simp [hq8])] at h
                  cases hq9 : name == "keccak256" with
                  | true =>
                    rw [if_pos hq9] at h
                    cases h
                    rfl
                  | false =>
                    rw [if_neg (by simp [hq9])] at h
                    cases hq10 : name == "sha256" with
                    | true =>
                      rw [if_pos hq10] at h
                      cases h
                      rfl
                    | false =>
                      rw [if_neg (by simp [hq10])] at h
                      cases hq11 : name == "ripemd160" with
                      | true =>
                        rw [if_pos hq11] at h
                        cases h
                        rfl
                      | false =>
                        rw [if_neg (by simp [hq11])] at h
                        cases hq12 : name == "ecrecover" with
                        | true =>
                          rw [if_pos hq12] at h
                          cases h
                          rfl
                        | false =>
                          rw [if_neg (by simp [hq12])] at h
                          cases h

set_option maxHeartbeats 1000000 in
/-- The builtin address member table only holds closed types. -/
theorem BuiltinAddressMembers_argIds : ∀ name t, BuiltinAddressMembers name = some t →
    typeArgIds t = [] := by
  intro name t h
  rw [BuiltinAddressMembers] at h
  cases hq1 : name == "balance" with
  | true =>
    rw [if_pos hq1] at h
    cases h
    rfl
  | false =>
    rw [if_neg (by simp [hq1])] at h
    cases hq2 : name == "transfer" with
    | true =>
      rw [if_pos hq2] at h
      cases h
      rfl
    | false =>
      rw [if_neg (by simp [hq2])] at h
      cases hq3 : name == "send" with
      | true =>
        rw [if_pos hq3] at h
        cases h
        rfl
      | false =>
        rw [if_neg (by simp [hq3])] at h
        cases hq4 : name == "call" with
        | true =>
          rw [if_pos hq4] at h
          cases h
          rfl
        | false =>
          rw [if_neg (by simp [hq4])] at h
          cases hq5 : name == "delegatecall" with
          | true =>
            rw [if_pos hq5] at h
            cases h
            rfl
          | false =>
            rw [if_neg (by simp [hq5])] at h
            cases hq6 : name == "staticcall" with
            | true =>
              rw [if_pos hq6] at h
              cases h
              rfl
            | false =>
              rw [if_neg (by simp [hq6])] at h
              cases h


theorem nodeIds_eq_cons (e : SNode) : nodeIds e = e.nodeId :: strictIds e := by
  cases e <;> rfl

theorem strictIds_sub_nodeIds (e : SNode) : strictIds e ⊆ nodeIds e := by
  rw [nodeIds_eq_cons]
  exact fun x hx => List.mem_cons_of_mem _ hx

theorem strictAllowed_sub_allowed (e : SNode) (ctx : STypingCtx) (m : TypeMap) :
    strictAllowedIds e ctx m ⊆ allowedIds e ctx m := by
  intro x hx
  rcases List.mem_append.mp hx with h1 | h1
  · exact List.mem_append_left _ (strictIds_sub_nodeIds e h1)
  · exact List.mem_append_right _ h1

theorem root_mem_allowed (e : SNode) (ctx : STypingCtx) (m : TypeMap) :
    e.nodeId ∈ allowedIds e ctx m := by
  refine List.mem_append_left _ ?_
  rw [nodeIds_eq_cons]
  exact List.mem_cons_self _ _

theorem UnknownOrigin.uoMono {d : TCErr} {a b : List Nat} (h : UnknownOrigin d a)
    (hab : a ⊆ b) : UnknownOrigin d b :=
  fun k s hd => hab (h k s hd)

theorem ResPost.rpMono {alpha : Type} {pIds : alpha → List Nat} {m : TypeMap}
    {A P A2 P2 : List Nat} {r : TCRes alpha} (h : ResPost pIds m A P r)
    (hA : A ⊆ A2) (hP : P ⊆ P2) : ResPost pIds m A2 P2 r := by
  cases r with
  | ok a m2 =>
    exact ⟨h.1, h.2.1.nkMono hA, fun x hx => hA (h.2.2.1 hx), fun x hx => hA (h.2.2.2 hx)⟩
  | err d m2 =>
    exact ⟨h.1, h.2.1.nkMono hA, fun x hx => hA (h.2.2.1 hx), h.2.2.2.uoMono hP⟩
  | internal m2 => exact ⟨h.1, fun x hx => hA (h.2 hx)⟩
  | outOfFuel => trivial

theorem ResPost.andThenP {alpha beta : Type} {pIds : alpha → List Nat}
    {qIds : beta → List Nat} {m : TypeMap} {A P : List Nat} {r : TCRes alpha}
    {k : alpha → TypeMap → TCRes beta}
    (h : ResPost pIds m A P r)
    (hk : ∀ a m1, TypeMap.Ext m m1 → NewKeysIn m m1 A → mapArgIds m1 ⊆ A →
      pIds a ⊆ A → ResPost qIds m1 A P (k a m1)) :
    ResPost qIds m A P (TCRes.andThen r k) := by
  cases r with
  | ok a m2 =>
    obtain ⟨h1, h2, h3, h4⟩ := h
    have hkk := hk a m2 h1 h2 h3 h4
    show ResPost qIds m A P (k a m2)
    cases hq : k a m2 with
    | ok b m3 =>
      rw [hq] at hkk
      exact ⟨h1.extTrans hkk.1,
        NewKeysIn.nkTrans h2 hkk.2.1 (fun x hx => hx) (fun x hx => hx),
        hkk.2.2.1, hkk.2.2.2⟩
    | err d m3 =>
      rw [hq] at hkk
      exact ⟨h1.extTrans hkk.1,
        NewKeysIn.nkTrans h2 hkk.2.1 (fun x hx => hx) (fun x hx => hx),
        hkk.2.2.1, hkk.2.2.2⟩
    | internal m3 =>
      rw [hq] at hkk
      exact ⟨h1.extTrans hkk.1, hkk.2⟩
    | outOfFuel => trivial
  | err d m2 => exact h
  | internal m2 => exact h
  | outOfFuel => trivial

theorem TCPost.toRes {e : SNode} {ctx : STypingCtx} {m : TypeMap} {A P : List Nat}
    {r : TCRes SType} (h : TCPost e ctx m r)
    (hA : allowedIds e ctx m ⊆ A) (hP : A ⊆ P) :
    ResPost typeArgIds m A P r := by
  cases r with
  | ok t m2 =>
    obtain ⟨h1, h2, h3, h4, h5⟩ := h
    exact ⟨h1, h2.nkMono hA, fun x hx => hA (h3 hx), fun x hx => hA (h4 hx)⟩
  | err d m2 =>
    obtain ⟨h1, h2, h3, h4⟩ := h
    refine ⟨h1, h2.nkMono ?_, fun x hx => hA (h3 hx),
      h4.uoMono (fun x hx => hP (hA hx))⟩
    intro x hx
    exact hA (strictAllowed_sub_allowed e ctx m hx)
  | internal m2 => exact ⟨h.1, fun x hx => hA (h.2 hx)⟩
  | outOfFuel => trivial

theorem ResPost.pureOk {alpha : Type} {pIds : alpha → List Nat} {m : TypeMap}
    {A P : List Nat} {a : alpha} (hm : mapArgIds m ⊆ A) (hp : pIds a ⊆ A) :
    ResPost pIds m A P (.ok a m) :=
  ⟨TypeMap.Ext.extRefl m, NewKeysIn.nkRefl m A, hm, hp⟩

theorem ResPost.pureErr {alpha : Type} {pIds : alpha → List Nat} {m : TypeMap}
    {A P : List Nat} {d : TCErr} (hm : mapArgIds m ⊆ A) (hd : UnknownOrigin d P) :
    ResPost pIds m A P (.err d m) :=
  ⟨TypeMap.Ext.extRefl m, NewKeysIn.nkRefl m A, hm, hd⟩

theorem ResPost.pureInternal {alpha : Type} {pIds : alpha → List Nat} {m : TypeMap}
    {A P : List Nat} (hm : mapArgIds m ⊆ A) : ResPost pIds m A P (.internal m) :=
  ⟨TypeMap.Ext.extRefl m, hm⟩

theorem cacheRes_post {e : SNode} {ctx : STypingCtx} {m : TypeMap} {r : TCRes SType}
    (h : ResPost typeArgIds m (strictAllowedIds e ctx m) (allowedIds e ctx m) r) :
    TCPost e ctx m (cacheRes e.nodeId r) := by
  cases r with
  | ok t m2 =>
    obtain ⟨h1, h2, h3, h4⟩ := h
    show TCPost e ctx m (.ok t (TypeMap.set m2 e.nodeId t))
    refine ⟨h1.extTrans (TypeMap.Ext.extSet m2 e.nodeId t), ?_, ?_,
      fun x hx => strictAllowed_sub_allowed e ctx m (h4 hx),
      TypeMap.find?_set_self m2 e.nodeId t⟩
    · exact (h2.nkMono (strictAllowed_sub_allowed e ctx m)).nkSet (root_mem_allowed e ctx m)
    · rw [mapArgIds_set]
      intro x hx
      rcases List.mem_append.mp hx with h5 | h5
      · exact strictAllowed_sub_allowed e ctx m (h4 h5)
      · exact strictAllowed_sub_allowed e ctx m (h3 h5)
  | err d m2 =>
    exact ⟨h.1, h.2.1, fun x hx => strictAllowed_sub_allowed e ctx m (h.2.2.1 hx), h.2.2.2⟩
  | internal m2 =>
    exact ⟨h.1, fun x hx => strictAllowed_sub_allowed e ctx m (h.2 hx)⟩
  | outOfFuel => trivial


theorem nodeIdsList_cons (a : SNode) (rest : List SNode) :
    nodeIdsList (a :: rest) = nodeIds a ++ nodeIdsList rest := by
  rw [nodeIdsList, nodeIds.goNodes]
  rfl

theorem typesArgIds_nil : typesArgIds [] = [] := by
  simp [typesArgIds]

theorem typesArgIds_cons (t : SType) (ts : List SType) :
    typesArgIds (t :: ts) = typeArgIds t ++ typesArgIds ts := by
  simp [typesArgIds]

theorem tcArgsF_post (tcRec : TcCb)
    (hrec : ∀ e c m2, TCPost e c m2 (tcRec e c m2)) :
    ∀ (args : List SNode) (ctx : STypingCtx) (m : TypeMap) (A P : List Nat),
    nodeIdsList args ⊆ A → ctxIds ctx ⊆ A → mapArgIds m ⊆ A → A ⊆ P →
    ResPost typesArgIds m A P (tcArgsF tcRec args ctx m) := by
  intro args
  induction args with
  | nil =>
    intro ctx m A P hn hc hm hp
    refine ResPost.pureOk hm ?_
    rw [typesArgIds_nil]
    exact fun x hx => absurd hx (List.not_mem_nil x)
  | cons a rest ih =>
    intro ctx m A P hn hc hm hp
    rw [tcArgsF]
    have h1 : ResPost typeArgIds m A P (tcRec a ctx m) := by
      refine (hrec a ctx m).toRes ?_ hp
      intro x hx
      rcases List.mem_append.mp hx with h1 | h1
      · refine hn ?_
        rw [nodeIdsList_cons]
        exact List.mem_append_left _ h1
      · rcases List.mem_append.mp h1 with h2 | h2
        · exact hc h2
        · exact hm h2
    refine h1.andThenP ?_
    intro t m1 he hk hm1 hpt
    have h2 : ResPost typesArgIds m1 A P (tcArgsF tcRec rest ctx m1) := by
      refine ih ctx m1 A P ?_ hc hm1 hp
      intro x hx
      refine hn ?_
      rw [nodeIdsList_cons]
      exact List.mem_append_right _ hx
    refine h2.andThenP ?_
    intro ts m2 he2 hk2 hm2 hpts
    refine ResPost.pureOk hm2 ?_
    rw [typesArgIds_cons]
    intro x hx
    rcases List.mem_append.mp hx with h3 | h3
    · exact hpt h3
    · exact hpts h3


theorem subset_of_eq_nil {l P : List Nat} (h : l = []) : l ⊆ P := by
  rw [h]
  exact List.nil_subset P

theorem tcIdF_post (tcRec : TcCb)
    (hrec : ∀ e c m2, TCPost e c m2 (tcRec e c m2))
    (env : Env) (exprId : Nat) (name : String) (ctx : STypingCtx) (m : TypeMap)
    (A P : List Nat) (hc : ctxIds ctx ⊆ A) (hm : mapArgIds m ⊆ A) (hp : A ⊆ P)
    (hi : exprId ∈ P) :
    ResPost pairArgIds m A P (tcIdF tcRec exprId name ctx m env) := by
  rw [tcIdF]
  by_cases hthis : (name == "this") = true
  · rw [if_pos hthis]
    cases hg : ctx.get? 1 with
    | none => exact ResPost.pureInternal hm
    | some s =>
      cases s with
      | contract c => exact ResPost.pureOk hm (subset_of_eq_nil rfl)
      | sourceUnits us => exact ResPost.pureInternal hm
      | function fd => exact ResPost.pureInternal hm
      | slet l => exact ResPost.pureInternal hm
  · rw [if_neg hthis]
    cases hb : tcIdBuiltinType name with
    | some t =>
      exact ResPost.pureOk hm (subset_of_eq_nil (tcIdBuiltinType_argIds name t hb))
    | none =>
      show ResPost pairArgIds m A P
        (match lookupVarDef env name ctx with
         | some (VarDefSite.varDecl v) =>
           match v.vType with
           | none => .err (.SMissingSolidityType exprId) m
           | some _ =>
             match astVarToSType env v none with
             | none => .internal m
             | some t => .ok (t, some (.varDecl v)) m
         | some (VarDefSite.letBinding l bindingIdx) =>
           (tcRec l.rhs ctx m).andThen fun rhsT m1 =>
             if l.lhs.length > 1 then
               match rhsT with
               | .STupleType elements =>
                 if elements.length == l.lhs.length then
                   match elements.get? bindingIdx with
                   | some t => .ok (t, some (.letBinding l bindingIdx)) m1
                   | none => .internal m1
                 else .err (.SExprCountMismatch l.letId) m1
               | _ => .err (.SExprCountMismatch l.letId) m1
             else .ok (rhsT, some (.letBinding l bindingIdx)) m1
         | some _ => .internal m
         | none =>
           match ctx.get? 1 with
           | some (SScope.contract c) =>
             if (resolveByName env c name).length > 0 then
               .ok (SType.SFunctionSetType ((resolveByName env c name).map FSDef.fn) none,
                    some VarDefSite.functionName) m
             else
               match resolveTypeDef env ctx name with
               | some userDef =>
                 .ok (SType.SUserDefinedTypeNameType userDef, some VarDefSite.typeNameSite) m
               | none =>
                 match tcIdBuiltin name with
                 | some t => .ok (t, none) m
                 | none => .err (.SUnknownId exprId name) m
           | _ => .internal m)
      cases hl : lookupVarDef env name ctx with
      | some site =>
        cases site with
        | varDecl v =>
          show ResPost pairArgIds m A P
            (match v.vType with
             | none => .err (.SMissingSolidityType exprId) m
             | some _ =>
               match astVarToSType env v none with
               | none => .internal m
               | some t => .ok (t, some (.varDecl v)) m)
          cases hv : v.vType with
          | none => exact ResPost.pureErr hm (fun k s hd => nomatch hd)
          | some tn =>
            show ResPost pairArgIds m A P
              (match astVarToSType env v none with
               | none => .internal m
               | some t => .ok (t, some (.varDecl v)) m)
            cases ha : astVarToSType env v none with
            | none => exact ResPost.pureInternal hm
            | some t =>
              exact ResPost.pureOk hm
                (subset_of_eq_nil (astVarToSType_argIds env v none t ha))
        | letBinding l bindingIdx =>
          have h1 : ResPost typeArgIds m A P (tcRec l.rhs ctx m) := by
            refine (hrec l.rhs ctx m).toRes ?_ hp
            intro x hx
            rcases List.mem_append.mp hx with hx1 | hx1
            · exact hc (lookupVarDef_letBinding_sub hl hx1)
            · rcases List.mem_append.mp hx1 with hx2 | hx2
              · exact hc hx2
              · exact hm hx2
          refine h1.andThenP ?_
          intro rhsT m1 he hk hm1 hpt
          by_cases hlen : l.lhs.length > 1
          · rw [if_pos hlen]
            cases rhsT with
            | STupleType elements =>
              show ResPost pairArgIds m1 A P
                (if (elements.length == l.lhs.length) = true then
                   match elements.get? bindingIdx with
                   | some t => .ok (t, some (VarDefSite.letBinding l bindingIdx)) m1
                   | none => .internal m1
                 else .err (.SExprCountMismatch l.letId) m1)
              by_cases hcnt : (elements.length == l.lhs.length) = true
              · rw [if_pos hcnt]
                cases hgt : elements.get? bindingIdx with
                | some t =>
                  refine ResPost.pureOk hm1 ?_
                  intro x hx
                  exact hpt (typeArgIds_tuple_get hgt hx)
                | none => exact ResPost.pureInternal hm1
              · rw [if_neg hcnt]
                exact ResPost.pureErr hm1 (fun k s hd => nomatch hd)
            | SBoolType => exact ResPost.pureErr hm1 (fun k s hd => nomatch hd)
            | SIntType a b => exact ResPost.pureErr hm1 (fun k s hd => nomatch hd)
            | SIntLiteralType => exact ResPost.pureErr hm1 (fun k s hd => nomatch hd)
            | SStringLiteralType => exact ResPost.pureErr hm1 (fun k s hd => nomatch hd)
            | SFixedBytes a => exact ResPost.pureErr hm1 (fun k s hd => nomatch hd)
            | SBytes => exact ResPost.pureErr hm1 (fun k s hd => nomatch hd)
            | SString => exact ResPost.pureErr hm1 (fun k s hd => nomatch hd)
            | SAddressType p => exact ResPost.pureErr hm1 (fun k s hd => nomatch hd)
            | SArrayType a b => exact ResPost.pureErr hm1 (fun k s hd => nomatch hd)
            | SUserDefinedType a b => exact ResPost.pureErr hm1 (fun k s hd => nomatch hd)
            | SMappingType a b => exact ResPost.pureErr hm1 (fun k s hd => nomatch hd)
            | SPointer a b => exact ResPost.pureErr hm1 (fun k s hd => nomatch hd)
            | SFunctionType a b c d => exact ResPost.pureErr hm1 (fun k s hd => nomatch hd)
            | SBuiltinStructType a b => exact ResPost.pureErr hm1 (fun k s hd => nomatch hd)
            | SBuiltinTypeNameType a => exact ResPost.pureErr hm1 (fun k s hd => nomatch hd)
            | SUserDefinedTypeNameType a => exact ResPost.pureErr hm1 (fun k s hd => nomatch hd)
            | SFunctionSetType a b => exact ResPost.pureErr hm1 (fun k s hd => nomatch hd)
          · rw [if_neg hlen]
            exact ResPost.pureOk hm1 hpt
        | thisKeyword => exact ResPost.pureInternal hm
        | functionName => exact ResPost.pureInternal hm
        | typeNameSite => exact ResPost.pureInternal hm
      | none =>
        show ResPost pairArgIds m A P
          (match ctx.get? 1 with
           | some (SScope.contract c) =>
             if (resolveByName env c name).length > 0 then
               .ok (SType.SFunctionSetType ((resolveByName env c name).map FSDef.fn) none,
                    some VarDefSite.functionName) m
             else
               match resolveTypeDef env ctx name with
               | some userDef =>
                 .ok (SType.SUserDefinedTypeNameType userDef, some VarDefSite.typeNameSite) m
               | none =>
                 match tcIdBuiltin name with
                 | some t => .ok (t, none) m
                 | none => .err (.SUnknownId exprId name) m
           | _ => .internal m)
        cases hg : ctx.get? 1 with
        | none => exact ResPost.pureInternal hm
        | some s =>
          cases s with
          | contract c =>
            show ResPost pairArgIds m A P
              (if (resolveByName env c name).length > 0 then
                 .ok (SType.SFunctionSetType ((resolveByName env c name).map FSDef.fn) none,
                      some VarDefSite.functionName) m
               else
                 match resolveTypeDef env ctx name with
                 | some userDef =>
                   .ok (SType.SUserDefinedTypeNameType userDef, some VarDefSite.typeNameSite) m
                 | none =>
                   match tcIdBuiltin name with
                   | some t => .ok (t, none) m
                   | none => .err (.SUnknownId exprId name) m)
            by_cases hfd : (resolveByName env c name).length > 0
            · rw [if_pos hfd]
              exact ResPost.pureOk hm (subset_of_eq_nil rfl)
            · rw [if_neg hfd]
              cases hr : resolveTypeDef env ctx name with
              | some userDef => exact ResPost.pureOk hm (subset_of_eq_nil rfl)
              | none =>
                show ResPost pairArgIds m A P
                  (match tcIdBuiltin name with
                   | some t => .ok (t, none) m
                   | none => .err (.SUnknownId exprId name) m)
                cases hbi : tcIdBuiltin name with
                | some t =>
                  exact ResPost.pureOk hm
                    (subset_of_eq_nil (BuiltinSymbols_argIds name t hbi))
                | none =>
                  refine ResPost.pureErr hm ?_
                  intro k s2 hd
                  injection hd with hd1 hd2
                  rw [hd1] at hi
                  exact hi
          | sourceUnits us => exact ResPost.pureInternal hm
          | function fd => exact ResPost.pureInternal hm
          | slet l => exact ResPost.pureInternal hm


theorem unifyTypes_error_shape {exprA : SNode} {typeA : SType} {exprB : SNode}
    {typeB : SType} {d : TCErr} (h : unifyTypes exprA typeA exprB typeB = .error d) :
    ∀ k s, d ≠ TCErr.SUnknownId k s := by
  unfold unifyTypes at h
  split at h
  · cases h
  · split at h
    · cases h
    · injection h with h2
      intro k s hd
      rw [← h2] at hd
      cases hd

theorem subexpr_allowed {e : SNode} {ctx : STypingCtx} {m0 : TypeMap} {A : List Nat}
    (hn : nodeIds e ⊆ A) (hc : ctxIds ctx ⊆ A) (hm0 : mapArgIds m0 ⊆ A) :
    allowedIds e ctx m0 ⊆ A := by
  intro x hx
  rcases List.mem_append.mp hx with h1 | h1
  · exact hn h1
  · rcases List.mem_append.mp h1 with h2 | h2
    · exact hc h2
    · exact hm0 h2

theorem tcUnaryF_post (tcRec : TcCb)
    (hrec : ∀ e c m2, TCPost e c m2 (tcRec e c m2))
    (op : String) (subexp : SNode) (ctx : STypingCtx) (m : TypeMap)
    (A P : List Nat) (hn : nodeIds subexp ⊆ A) (hc : ctxIds ctx ⊆ A)
    (hm : mapArgIds m ⊆ A) (hp : A ⊆ P) :
    ResPost typeArgIds m A P (tcUnaryF tcRec op subexp ctx m) := by
  have hsub : ResPost typeArgIds m A P (tcRec subexp ctx m) :=
    (hrec subexp ctx m).toRes (subexpr_allowed hn hc hm) hp
  rw [tcUnaryF]
  split
  · refine hsub.andThenP ?_
    intro innerT m1 he hk hm1 hpt
    repeat' split
    all_goals
      first
      | exact ResPost.pureOk hm1 (subset_of_eq_nil rfl)
      | exact ResPost.pureOk hm1 hpt
      | exact ResPost.pureErr hm1 (fun k s hd => nomatch hd)
  · split
    · refine hsub.andThenP ?_
      intro innerT m1 he hk hm1 hpt
      repeat' split
      all_goals
        first
        | exact ResPost.pureOk hm1 (subset_of_eq_nil rfl)
        | exact ResPost.pureOk hm1 hpt
        | exact ResPost.pureErr hm1 (fun k s hd => nomatch hd)
    · exact hsub

theorem tcBinaryF_post (tcRec : TcCb)
    (hrec : ∀ e c m2, TCPost e c m2 (tcRec e c m2))
    (left : SNode) (op : String) (right : SNode) (ctx : STypingCtx) (m : TypeMap)
    (A P : List Nat) (hnl : nodeIds left ⊆ A) (hnr : nodeIds right ⊆ A)
    (hc : ctxIds ctx ⊆ A) (hm : mapArgIds m ⊆ A) (hp : A ⊆ P) :
    ResPost typeArgIds m A P (tcBinaryF tcRec left op right ctx m) := by
  rw [tcBinaryF.eq_def]
  have hsubL : ResPost typeArgIds m A P (tcRec left ctx m) :=
    (hrec left ctx m).toRes (subexpr_allowed hnl hc hm) hp
  refine hsubL.andThenP ?_
  intro lhsT m1 he1 hk1 hm1 hptL
  have hsubR : ResPost typeArgIds m1 A P (tcRec right ctx m1) :=
    (hrec right ctx m1).toRes (subexpr_allowed hnr hc hm1) hp
  refine hsubR.andThenP ?_
  intro rhsT m2 he2 hk2 hm2 hptR
  by_cases hop1 : (op == "**") = true
  · rw [if_pos hop1]
    show ResPost typeArgIds m2 A P
      (if powBadRhs right rhsT = true
       then .err (.SWrongType right.nodeId rhsT) m2
       else if (!(isInty lhsT)) = true then .err (.SWrongType left.nodeId lhsT) m2
       else .ok (powResult lhsT rhsT) m2)
    split
    · exact ResPost.pureErr hm2 (fun k s hd => nomatch hd)
    · split
      · exact ResPost.pureErr hm2 (fun k s hd => nomatch hd)
      · cases lhsT
        all_goals
          first
          | exact ResPost.pureOk hm2 hptL
          | exact ResPost.pureOk hm2 hptR
  · rw [if_neg hop1]
    repeat' split
    all_goals
      first
      | exact ResPost.pureOk hm2 (subset_of_eq_nil rfl)
      | exact ResPost.pureOk hm2 hptL
      | exact ResPost.pureOk hm2 hptR
      | (rename_i hu
         rcases unifyTypes_cases hu with h3 | h3
         · rw [h3]
           exact ResPost.pureOk hm2 hptR
         · rw [h3]
           exact ResPost.pureOk hm2 hptL)
      | (rename_i hu
         exact ResPost.pureErr hm2 (fun k s hd => (unifyTypes_error_shape hu k s hd).elim))
      | exact ResPost.pureErr hm2 (fun k s hd => nomatch hd)
      | exact ResPost.pureInternal hm2
      | (cases lhsT
         all_goals
           first
           | exact ResPost.pureOk hm2 hptL
           | exact ResPost.pureOk hm2 hptR)

theorem tcConditionalF_post (tcRec : TcCb)
    (hrec : ∀ e c m2, TCPost e c m2 (tcRec e c m2))
    (condition trueExp falseExp : SNode) (ctx : STypingCtx) (m : TypeMap)
    (A P : List Nat) (hnc : nodeIds condition ⊆ A) (hnt : nodeIds trueExp ⊆ A)
    (hnf : nodeIds falseExp ⊆ A)
    (hc : ctxIds ctx ⊆ A) (hm : mapArgIds m ⊆ A) (hp : A ⊆ P) :
    ResPost typeArgIds m A P (tcConditionalF tcRec condition trueExp falseExp ctx m) := by
  rw [tcConditionalF]
  have hsubC : ResPost typeArgIds m A P (tcRec condition ctx m) :=
    (hrec condition ctx m).toRes (subexpr_allowed hnc hc hm) hp
  refine hsubC.andThenP ?_
  intro condT m1 he1 hk1 hm1 hptC
  have hsubT : ResPost typeArgIds m1 A P (tcRec trueExp ctx m1) :=
    (hrec trueExp ctx m1).toRes (subexpr_allowed hnt hc hm1) hp
  refine hsubT.andThenP ?_
  intro trueT m2 he2 hk2 hm2 hptT
  have hsubF : ResPost typeArgIds m2 A P (tcRec falseExp ctx m2) :=
    (hrec falseExp ctx m2).toRes (subexpr_allowed hnf hc hm2) hp
  refine hsubF.andThenP ?_
  intro falseT m3 he3 hk3 hm3 hptF
  repeat' split
  all_goals
    first
    | (rename_i hu
       rcases unifyTypes_cases hu with h3 | h3
       · rw [h3]
         exact ResPost.pureOk hm3 hptF
       · rw [h3]
         exact ResPost.pureOk hm3 hptT)
    | (rename_i hu
       exact ResPost.pureErr hm3 (fun k s hd => (unifyTypes_error_shape hu k s hd).elim))
    | exact ResPost.pureErr hm3 (fun k s hd => nomatch hd)

theorem tcIndexAccessF_post (tcRec : TcCb)
    (hrec : ∀ e c m2, TCPost e c m2 (tcRec e c m2))
    (exprId : Nat) (base index : SNode) (ctx : STypingCtx) (m : TypeMap)
    (A P : List Nat) (hnb : nodeIds base ⊆ A) (hni : nodeIds index ⊆ A)
    (hc : ctxIds ctx ⊆ A) (hm : mapArgIds m ⊆ A) (hp : A ⊆ P) :
    ResPost typeArgIds m A P (tcIndexAccessF tcRec exprId base index ctx m) := by
  rw [tcIndexAccessF]
  have hsubB : ResPost typeArgIds m A P (tcRec base ctx m) :=
    (hrec base ctx m).toRes (subexpr_allowed hnb hc hm) hp
  refine hsubB.andThenP ?_
  intro baseT m1 he1 hk1 hm1 hptB
  have hsubI : ResPost typeArgIds m1 A P (tcRec index ctx m1) :=
    (hrec index ctx m1).toRes (subexpr_allowed hni hc hm1) hp
  refine hsubI.andThenP ?_
  intro indexT m2 he2 hk2 hm2 hptI
  repeat' split
  all_goals
    first
    | exact ResPost.pureOk hm2 (subset_of_eq_nil rfl)
    | exact ResPost.pureOk hm2 hptB
    | exact ResPost.pureOk hm2 (fun x hx => hptB (List.mem_append_right _ hx))
    | exact ResPost.pureErr hm2 (fun k s hd => nomatch hd)


theorem tcResult_post (env : Env) (exprId : Nat) (ctx : STypingCtx) (m : TypeMap)
    (A P : List Nat) (hm : mapArgIds m ⊆ A) :
    ResPost typeArgIds m A P (tcResult env exprId ctx m) := by
  rw [tcResult]
  cases hg : ctx.getLast? with
  | none => exact ResPost.pureErr hm (fun k s hd => nomatch hd)
  | some s =>
    cases s with
    | function fd =>
      show ResPost typeArgIds m A P
        (match fd.returns with
         | [] => .err (.SInvalidKeyword exprId) m
         | [r] =>
           match r.vType with
           | none => .internal m
           | some tn =>
             match astTypeNameToSType env tn with
             | none => .internal m
             | some t => .ok t m
         | rets =>
           match ingestReturnTypes env rets with
           | none => .internal m
           | some ts => .ok (.STupleType ts) m)
      cases hre : fd.returns with
      | nil => exact ResPost.pureErr hm (fun k s hd => nomatch hd)
      | cons r rest =>
        cases rest with
        | nil =>
          show ResPost typeArgIds m A P
            (match r.vType with
             | none => .internal m
             | some tn =>
               match astTypeNameToSType env tn with
               | none => .internal m
               | some t => .ok t m)
          cases hv : r.vType with
          | none => exact ResPost.pureInternal hm
          | some tn =>
            show ResPost typeArgIds m A P
              (match astTypeNameToSType env tn with
               | none => .internal m
               | some t => .ok t m)
            cases hi : astTypeNameToSType env tn with
            | none => exact ResPost.pureInternal hm
            | some t =>
              exact ResPost.pureOk hm (subset_of_eq_nil (astTypeNameToSType_argIds env tn t hi))
        | cons r2 rest2 =>
          show ResPost typeArgIds m A P
            (match ingestReturnTypes env (r :: r2 :: rest2) with
             | none => .internal m
             | some ts => .ok (.STupleType ts) m)
          cases hing : ingestReturnTypes env (r :: r2 :: rest2) with
          | none => exact ResPost.pureInternal hm
          | some ts =>
            refine ResPost.pureOk hm (subset_of_eq_nil ?_)
            exact goTypes_nil_of_all
              (fun t ht => ingestReturnTypes_argIds env (r :: r2 :: rest2) ts hing t ht)
    | contract c => exact ResPost.pureErr hm (fun k s hd => nomatch hd)
    | sourceUnits us => exact ResPost.pureErr hm (fun k s hd => nomatch hd)
    | slet l => exact ResPost.pureErr hm (fun k s hd => nomatch hd)

theorem tcMemberAccessFallback_post (base : SNode) (member : String) (baseT : SType)
    (ctx : STypingCtx) (m1 : TypeMap) (env : Env) (A P : List Nat)
    (hm1 : mapArgIds m1 ⊆ A) (hnb : nodeIds base ⊆ A) :
    ResPost typeArgIds m1 A P (tcMemberAccessFallback base member baseT ctx m1 env) := by
  rw [tcMemberAccessFallback]
  cases hg : ctx.get? 1 with
  | none => exact ResPost.pureInternal hm1
  | some s =>
    cases s with
    | contract c =>
      show ResPost typeArgIds m1 A P
        (match usingForFuns env c (despecializeType baseT) member with
         | none => .internal m1
         | some funs =>
           if funs.length > 0 then
             .ok (.SFunctionSetType (funs.map FSDef.fn) (some base)) m1
           else .err (.SNoField base.nodeId member) m1)
      cases hu : usingForFuns env c (despecializeType baseT) member with
      | none => exact ResPost.pureInternal hm1
      | some funs =>
        show ResPost typeArgIds m1 A P
          (if funs.length > 0 then
             .ok (.SFunctionSetType (funs.map FSDef.fn) (some base)) m1
           else .err (.SNoField base.nodeId member) m1)
        by_cases hlen : funs.length > 0
        · rw [if_pos hlen]
          exact ResPost.pureOk hm1 hnb
        · rw [if_neg hlen]
          exact ResPost.pureErr hm1 (fun k s hd => nomatch hd)
    | sourceUnits us => exact ResPost.pureInternal hm1
    | function fd => exact ResPost.pureInternal hm1
    | slet l => exact ResPost.pureInternal hm1


theorem tcMemberAccessOnType_post (exprId : Nat) (base : SNode) (member : String)
    (baseT : SType) (ctx : STypingCtx) (m1 : TypeMap) (env : Env) (A P : List Nat)
    (hm1 : mapArgIds m1 ⊆ A) (hnb : nodeIds base ⊆ A) (hptB : typeArgIds baseT ⊆ A) :
    ResPost typeArgIds m1 A P (tcMemberAccessOnType exprId base member baseT ctx m1 env) := by
  rw [tcMemberAccessOnType.eq_def]
  cases baseT with
  | SBuiltinStructType nm members =>
    show ResPost typeArgIds m1 A P
      (match (members.find? (fun p => p.1 == member)).map Prod.snd with
       | some t => .ok t m1
       | none => .err (.SNoField exprId member) m1)
    cases hf : (members.find? (fun p => p.1 == member)).map Prod.snd with
    | some t =>
      exact ResPost.pureOk hm1 (fun x hx => hptB (goMembers_sub_of_find hf hx))
    | none => exact ResPost.pureErr hm1 (fun k s hd => nomatch hd)
  | SPointer toT loc =>
    cases toT with
    | SArrayType elT size =>
      show ResPost typeArgIds m1 A P
        (if (member == "length") = true then .ok (.SIntType 256 false) m1
         else tcMemberAccessFallback base member (.SPointer (.SArrayType elT size) loc)
           ctx m1 env)
      by_cases hlen : (member == "length") = true
      · rw [if_pos hlen]
        exact ResPost.pureOk hm1 (subset_of_eq_nil rfl)
      · rw [if_neg hlen]
        exact tcMemberAccessFallback_post base member _ ctx m1 env A P hm1 hnb
    | SUserDefinedType nm df =>
      cases df with
      | none =>
        exact tcMemberAccessFallback_post base member _ ctx m1 env A P hm1 hnb
      | some dref =>
        cases dref with
        | struct sid =>
          show ResPost typeArgIds m1 A P
            (match env.struct? sid with
             | none => .internal m1
             | some rawDef =>
               match rawDef.vMembers.find? (fun d => d.name == member) with
               | some rawDecl =>
                 match astVarToSType env rawDecl loc with
                 | none => .internal m1
                 | some t => .ok t m1
               | none => .err (.SNoField exprId member) m1)
          cases hs : env.struct? sid with
          | none => exact ResPost.pureInternal hm1
          | some rawDef =>
            show ResPost typeArgIds m1 A P
              (match rawDef.vMembers.find? (fun d => d.name == member) with
               | some rawDecl =>
                 match astVarToSType env rawDecl loc with
                 | none => .internal m1
                 | some t => .ok t m1
               | none => .err (.SNoField exprId member) m1)
            cases hfm : rawDef.vMembers.find? (fun d => d.name == member) with
            | some rawDecl =>
              show ResPost typeArgIds m1 A P
                (match astVarToSType env rawDecl loc with
                 | none => .internal m1
                 | some t => .ok t m1)
              cases ha : astVarToSType env rawDecl loc with
              | none => exact ResPost.pureInternal hm1
              | some t =>
                exact ResPost.pureOk hm1
                  (subset_of_eq_nil (astVarToSType_argIds env rawDecl loc t ha))
            | none => exact ResPost.pureErr hm1 (fun k s hd => nomatch hd)
        | contract cid =>
          show ResPost typeArgIds m1 A P
            (match env.contract? cid with
             | none => .internal m1
             | some rawDef =>
               if (resolveByName env rawDef member).length > 0 then
                 .ok (.SFunctionSetType ((resolveByName env rawDef member).map FSDef.fn)
                   none) m1
               else
                 match rawDef.vStateVariables.find? (fun v =>
                     v.name == member && v.visibility == StateVariableVisibility.Public) with
                 | some varDecl => .ok (.SFunctionSetType [FSDef.svar varDecl] none) m1
                 | none =>
                   match BuiltinAddressMembers member with
                   | some t => .ok t m1
                   | none => .err (.SNoField exprId member) m1)
          cases hco : env.contract? cid with
          | none => exact ResPost.pureInternal hm1
          | some rawDef =>
            show ResPost typeArgIds m1 A P
              (if (resolveByName env rawDef member).length > 0 then
                 .ok (.SFunctionSetType ((resolveByName env rawDef member).map FSDef.fn)
                   none) m1
               else
                 match rawDef.vStateVariables.find? (fun v =>
                     v.name == member && v.visibility == StateVariableVisibility.Public) with
                 | some varDecl => .ok (.SFunctionSetType [FSDef.svar varDecl] none) m1
                 | none =>
                   match BuiltinAddressMembers member with
                   | some t => .ok t m1
                   | none => .err (.SNoField exprId member) m1)
            by_cases hfd : (resolveByName env rawDef member).length > 0
            · rw [if_pos hfd]
              exact ResPost.pureOk hm1 (subset_of_eq_nil rfl)
            · rw [if_neg hfd]
              cases hsv : rawDef.vStateVariables.find? (fun v =>
                  v.name == member && v.visibility == StateVariableVisibility.Public) with
              | some varDecl => exact ResPost.pureOk hm1 (subset_of_eq_nil rfl)
              | none =>
                show ResPost typeArgIds m1 A P
                  (match BuiltinAddressMembers member with
                   | some t => .ok t m1
                   | none => .err (.SNoField exprId member) m1)
                cases hbm : BuiltinAddressMembers member with
                | some t =>
                  exact ResPost.pureOk hm1
                    (subset_of_eq_nil (BuiltinAddressMembers_argIds member t hbm))
                | none => exact ResPost.pureErr hm1 (fun k s hd => nomatch hd)
        | enum eid =>
          exact tcMemberAccessFallback_post base member _ ctx m1 env A P hm1 hnb
    | SBoolType => exact tcMemberAccessFallback_post base member _ ctx m1 env A P hm1 hnb
    | SIntType a b => exact tcMemberAccessFallback_post base member _ ctx m1 env A P hm1 hnb
    | SIntLiteralType => exact tcMemberAccessFallback_post base member _ ctx m1 env A P hm1 hnb
    | SStringLiteralType =>
      exact tcMemberAccessFallback_post base member _ ctx m1 env A P hm1 hnb
    | SFixedBytes a => exact tcMemberAccessFallback_post base member _ ctx m1 env A P hm1 hnb
    | SBytes => exact tcMemberAccessFallback_post base member _ ctx m1 env A P hm1 hnb
    | SString => exact tcMemberAccessFallback_post base member _ ctx m1 env A P hm1 hnb
    | SAddressType p => exact tcMemberAccessFallback_post base member _ ctx m1 env A P hm1 hnb
    | STupleType es => exact tcMemberAccessFallback_post base member _ ctx m1 env A P hm1 hnb
    | SMappingType a b => exact tcMemberAccessFallback_post base member _ ctx m1 env A P hm1 hnb
    | SPointer a b => exact tcMemberAccessFallback_post base member _ ctx m1 env A P hm1 hnb
    | SFunctionType a b c d =>
      exact tcMemberAccessFallback_post base member _ ctx m1 env A P hm1 hnb
    | SBuiltinStructType a b =>
      exact tcMemberAccessFallback_post base member _ ctx m1 env A P hm1 hnb
    | SBuiltinTypeNameType a =>
      exact tcMemberAccessFallback_post base member _ ctx m1 env A P hm1 hnb
    | SUserDefinedTypeNameType a =>
      exact tcMemberAccessFallback_post base member _ ctx m1 env A P hm1 hnb
    | SFunctionSetType a b =>
      exact tcMemberAccessFallback_post base member _ ctx m1 env A P hm1 hnb
  | SAddressType payable =>
    show ResPost typeArgIds m1 A P
      (match BuiltinAddressMembers member with
       | some t => .ok t m1
       | none => .err (.SNoField exprId member) m1)
    cases hbm : BuiltinAddressMembers member with
    | some t =>
      exact ResPost.pureOk hm1 (subset_of_eq_nil (BuiltinAddressMembers_argIds member t hbm))
    | none => exact ResPost.pureErr hm1 (fun k s hd => nomatch hd)
  | SUserDefinedTypeNameType dref =>
    cases dref with
    | contract cid =>
      show ResPost typeArgIds m1 A P
        (match env.contract? cid with
         | none => .internal m1
         | some cdef =>
           match resolveTypeDef env
               ((match ctx.get? 0 with
                 | some s => [s]
                 | none => []) ++ [SScope.contract cdef]) member with
           | some tdef => .ok (.SUserDefinedTypeNameType tdef) m1
           | none =>
             if (resolveByName env cdef member).length > 0 then
               .ok (.SFunctionSetType ((resolveByName env cdef member).map FSDef.fn) none) m1
             else tcMemberAccessFallback base member (.SUserDefinedTypeNameType (.contract cid))
               ctx m1 env)
      cases hco : env.contract? cid with
      | none => exact ResPost.pureInternal hm1
      | some cdef =>
        show ResPost typeArgIds m1 A P
          (match resolveTypeDef env
              ((match ctx.get? 0 with
                | some s => [s]
                | none => []) ++ [SScope.contract cdef]) member with
           | some tdef => .ok (.SUserDefinedTypeNameType tdef) m1
           | none =>
             if (resolveByName env cdef member).length > 0 then
               .ok (.SFunctionSetType ((resolveByName env cdef member).map FSDef.fn) none) m1
             else tcMemberAccessFallback base member (.SUserDefinedTypeNameType (.contract cid))
               ctx m1 env)
        cases hr : resolveTypeDef env
            ((match ctx.get? 0 with
              | some s => [s]
              | none => []) ++ [SScope.contract cdef]) member with
        | some tdef => exact ResPost.pureOk hm1 (subset_of_eq_nil rfl)
        | none =>
          show ResPost typeArgIds m1 A P
            (if (resolveByName env cdef member).length > 0 then
               .ok (.SFunctionSetType ((resolveByName env cdef member).map FSDef.fn) none) m1
             else tcMemberAccessFallback base member (.SUserDefinedTypeNameType (.contract cid))
               ctx m1 env)
          by_cases hfd : (resolveByName env cdef member).length > 0
          · rw [if_pos hfd]
            exact ResPost.pureOk hm1 (subset_of_eq_nil rfl)
          · rw [if_neg hfd]
            exact tcMemberAccessFallback_post base member _ ctx m1 env A P hm1 hnb
    | enum eid =>
      show ResPost typeArgIds m1 A P
        (match env.enum? eid with
         | none => .internal m1
         | some rawDef =>
           if rawDef.vMembers.contains member then
             .ok (.SUserDefinedType (fqName rawDef.vScopeName rawDef.name) (some (.enum eid)))
               m1
           else tcMemberAccessFallback base member (.SUserDefinedTypeNameType (.enum eid))
             ctx m1 env)
      cases hen : env.enum? eid with
      | none => exact ResPost.pureInternal hm1
      | some rawDef =>
        show ResPost typeArgIds m1 A P
          (if rawDef.vMembers.contains member then
             .ok (.SUserDefinedType (fqName rawDef.vScopeName rawDef.name) (some (.enum eid)))
               m1
           else tcMemberAccessFallback base member (.SUserDefinedTypeNameType (.enum eid))
             ctx m1 env)
        by_cases hcm : (rawDef.vMembers.contains member) = true
        · rw [if_pos hcm]
          exact ResPost.pureOk hm1 (subset_of_eq_nil rfl)
        · rw [if_neg hcm]
          exact tcMemberAccessFallback_post base member _ ctx m1 env A P hm1 hnb
    | struct sid =>
      exact tcMemberAccessFallback_post base member _ ctx m1 env A P hm1 hnb
  | SFunctionSetType definitions defaultArg =>
    show ResPost typeArgIds m1 A P
      (if (member == "selector" && definitions.length == 1) = true then
         .ok (.SFixedBytes 4) m1
       else tcMemberAccessFallback base member (.SFunctionSetType definitions defaultArg)
         ctx m1 env)
    by_cases hsel : (member == "selector" && definitions.length == 1) = true
    · rw [if_pos hsel]
      exact ResPost.pureOk hm1 (subset_of_eq_nil rfl)
    · rw [if_neg hsel]
      exact tcMemberAccessFallback_post base member _ ctx m1 env A P hm1 hnb
  | SBoolType => exact tcMemberAccessFallback_post base member _ ctx m1 env A P hm1 hnb
  | SIntType a b => exact tcMemberAccessFallback_post base member _ ctx m1 env A P hm1 hnb
  | SIntLiteralType => exact tcMemberAccessFallback_post base member _ ctx m1 env A P hm1 hnb
  | SStringLiteralType => exact tcMemberAccessFallback_post base member _ ctx m1 env A P hm1 hnb
  | SFixedBytes a => exact tcMemberAccessFallback_post base member _ ctx m1 env A P hm1 hnb
  | SBytes => exact tcMemberAccessFallback_post base member _ ctx m1 env A P hm1 hnb
  | SString => exact tcMemberAccessFallback_post base member _ ctx m1 env A P hm1 hnb
  | STupleType es => exact tcMemberAccessFallback_post base member _ ctx m1 env A P hm1 hnb
  | SArrayType a b => exact tcMemberAccessFallback_post base member _ ctx m1 env A P hm1 hnb
  | SUserDefinedType a b =>
    exact tcMemberAccessFallback_post base member _ ctx m1 env A P hm1 hnb
  | SMappingType a b => exact tcMemberAccessFallback_post base member _ ctx m1 env A P hm1 hnb
  | SFunctionType a b c d =>
    exact tcMemberAccessFallback_post base member _ ctx m1 env A P hm1 hnb
  | SBuiltinTypeNameType a =>
    exact tcMemberAccessFallback_post base member _ ctx m1 env A P hm1 hnb

theorem tcMemberAccessF_post (tcRec : TcCb)
    (hrec : ∀ e c m2, TCPost e c m2 (tcRec e c m2))
    (env : Env) (exprId : Nat) (base : SNode) (member : String) (ctx : STypingCtx)
    (m : TypeMap) (A P : List Nat) (hnb : nodeIds base ⊆ A) (hc : ctxIds ctx ⊆ A)
    (hm : mapArgIds m ⊆ A) (hp : A ⊆ P) :
    ResPost typeArgIds m A P (tcMemberAccessF tcRec exprId base member ctx m env) := by
  rw [tcMemberAccessF]
  have hsub : ResPost typeArgIds m A P (tcRec base ctx m) :=
    (hrec base ctx m).toRes (subexpr_allowed hnb hc hm) hp
  refine hsub.andThenP ?_
  intro baseT m1 he hk hm1 hptB
  exact tcMemberAccessOnType_post exprId base member baseT ctx m1 env A P hm1 hnb hptB


theorem tcLetF_post (tcRec : TcCb)
    (hrec : ∀ e c m2, TCPost e c m2 (tcRec e c m2))
    (letId : Nat) (lhs : List String) (rhs body : SNode) (ctx : STypingCtx) (m : TypeMap)
    (A P : List Nat) (hnr : nodeIds rhs ⊆ A) (hnb : nodeIds body ⊆ A)
    (hc : ctxIds ctx ⊆ A) (hm : mapArgIds m ⊆ A) (hp : A ⊆ P) :
    ResPost typeArgIds m A P (tcLetF tcRec letId lhs rhs body ctx m) := by
  rw [tcLetF]
  have hsub : ResPost typeArgIds m A P (tcRec rhs ctx m) :=
    (hrec rhs ctx m).toRes (subexpr_allowed hnr hc hm) hp
  refine hsub.andThenP ?_
  intro rhsT m1 he hk hm1 hpt
  have hbody : ∀ m2, mapArgIds m2 ⊆ A →
      ResPost typeArgIds m2 A P (tcRec body (ctx ++ [SScope.slet ⟨letId, lhs, rhs⟩]) m2) := by
    intro m2 hm2
    refine (hrec body _ m2).toRes ?_ hp
    intro x hx
    rcases List.mem_append.mp hx with h1 | h1
    · exact hnb h1
    · rcases List.mem_append.mp h1 with h2 | h2
      · rw [ctxIds_append_slet] at h2
        rcases List.mem_append.mp h2 with h3 | h3
        · exact hc h3
        · exact hnr h3
      · exact hm2 h2
  cases rhsT
  case STupleType elements =>
    show ResPost typeArgIds m1 A P
      (if (lhs.length != elements.length) = true then .err (.SExprCountMismatch letId) m1
       else tcRec body (ctx ++ [SScope.slet ⟨letId, lhs, rhs⟩]) m1)
    by_cases hq : (lhs.length != elements.length) = true
    · rw [if_pos hq]
      exact ResPost.pureErr hm1 (fun k s hd => nomatch hd)
    · rw [if_neg hq]
      exact hbody m1 hm1
  all_goals
    (show ResPost typeArgIds m1 A P
      (if (lhs.length != 1) = true then .err (.SExprCountMismatch letId) m1
       else tcRec body (ctx ++ [SScope.slet ⟨letId, lhs, rhs⟩]) m1)
     by_cases hq : (lhs.length != 1) = true
     · rw [if_pos hq]
       exact ResPost.pureErr hm1 (fun k s hd => nomatch hd)
     · rw [if_neg hq]
       exact hbody m1 hm1)


theorem fnSet_narrow_post (tcRec : TcCb) (env : Env) (callId : Nat) (callee : SNode)
    (d : FSDef) (defaultArg : Option SNode) (m : TypeMap) (m2 : TypeMap) (A P : List Nat)
    (he2 : TypeMap.Ext m m2) (hk2 : NewKeysIn m m2 A) (hm2 : mapArgIds m2 ⊆ A)
    (hkey : callee.nodeId ∈ A)
    (hda : typeArgIds (SType.SFunctionSetType [d] defaultArg) ⊆ A) :
    ResPost typeArgIds m A P
      (let m3 := TypeMap.set m2 callee.nodeId (.SFunctionSetType [d] defaultArg)
       match d with
       | FSDef.fn f =>
         match astVarsToSTypes env f.returns with
         | none => .internal m3
         | some retTs =>
           match retTs with
           | [t] => .ok t m3
           | [] => .err (.SFunNoReturn callId) m3
           | ts => .ok (.STupleType ts) m3
       | FSDef.svar v =>
         match v.vType with
         | some (TypeName.userDefined _) => .internal m3
         | _ =>
           match astVarToSType env v none with
           | none => .internal m3
           | some t => .ok t m3) := by
  have hext3 : TypeMap.Ext m
      (TypeMap.set m2 callee.nodeId (.SFunctionSetType [d] defaultArg)) :=
    he2.extTrans (TypeMap.Ext.extSet m2 callee.nodeId (.SFunctionSetType [d] defaultArg))
  have hk3 : NewKeysIn m
      (TypeMap.set m2 callee.nodeId (.SFunctionSetType [d] defaultArg)) A :=
    NewKeysIn.nkSet hk2 hkey
  have hm3 : mapArgIds
      (TypeMap.set m2 callee.nodeId (.SFunctionSetType [d] defaultArg)) ⊆ A := by
    rw [mapArgIds_set]
    intro x hx
    rcases List.mem_append.mp hx with h1 | h1
    · exact hda h1
    · exact hm2 h1
  cases d with
  | fn f =>
    show ResPost typeArgIds m A P
      (match astVarsToSTypes env f.returns with
       | none => .internal (TypeMap.set m2 callee.nodeId (.SFunctionSetType [FSDef.fn f]
           defaultArg))
       | some retTs =>
         match retTs with
         | [t] => .ok t (TypeMap.set m2 callee.nodeId (.SFunctionSetType [FSDef.fn f]
             defaultArg))
         | [] => .err (.SFunNoReturn callId) (TypeMap.set m2 callee.nodeId
             (.SFunctionSetType [FSDef.fn f] defaultArg))
         | ts => .ok (.STupleType ts) (TypeMap.set m2 callee.nodeId
             (.SFunctionSetType [FSDef.fn f] defaultArg)))
    cases har : astVarsToSTypes env f.returns with
    | none => exact ⟨hext3, hm3⟩
    | some retTs =>
      cases retTs with
      | nil => exact ⟨hext3, hk3, hm3, fun k s hd => nomatch hd⟩
      | cons t rest =>
        cases rest with
        | nil =>
          refine ⟨hext3, hk3, hm3, subset_of_eq_nil ?_⟩
          exact astVarsToSTypes_argIds env f.returns [t] har t (List.mem_cons_self t [])
        | cons t2 rest2 =>
          refine ⟨hext3, hk3, hm3, subset_of_eq_nil ?_⟩
          exact goTypes_nil_of_all
            (fun t3 ht3 => astVarsToSTypes_argIds env f.returns (t :: t2 :: rest2) har t3 ht3)
  | svar v =>
    show ResPost typeArgIds m A P
      (match v.vType with
       | some (TypeName.userDefined _) => .internal (TypeMap.set m2 callee.nodeId
           (.SFunctionSetType [FSDef.svar v] defaultArg))
       | _ =>
         match astVarToSType env v none with
         | none => .internal (TypeMap.set m2 callee.nodeId
             (.SFunctionSetType [FSDef.svar v] defaultArg))
         | some t => .ok t (TypeMap.set m2 callee.nodeId
             (.SFunctionSetType [FSDef.svar v] defaultArg)))
    have hinner : ResPost typeArgIds m A P
        (match astVarToSType env v none with
         | none => .internal (TypeMap.set m2 callee.nodeId
             (.SFunctionSetType [FSDef.svar v] defaultArg))
         | some t => .ok t (TypeMap.set m2 callee.nodeId
             (.SFunctionSetType [FSDef.svar v] defaultArg))) := by
      cases ha : astVarToSType env v none with
      | none => exact ⟨hext3, hm3⟩
      | some t =>
        exact ⟨hext3, hk3, hm3, subset_of_eq_nil (astVarToSType_argIds env v none t ha)⟩
    cases hv : v.vType with
    | none => exact hinner
    | some tn =>
      cases tn with
      | userDefined dref => exact ⟨hext3, hm3⟩
      | ElementaryTypeName nm payable => exact hinner
      | ArrayTypeName b sz => exact hinner
      | FunctionTypeName ps rs vis mutab => exact hinner
      | MappingType k v2 => exact hinner

theorem tcFunctionCallF_post (tcRec : TcCb)
    (hrec : ∀ e c m2, TCPost e c m2 (tcRec e c m2))
    (env : Env) (callId : Nat) (callee : SNode) (args : List SNode) (ctx : STypingCtx)
    (m : TypeMap) (A P : List Nat) (hnc : nodeIds callee ⊆ A) (hna : nodeIdsList args ⊆ A)
    (hc : ctxIds ctx ⊆ A) (hm : mapArgIds m ⊆ A) (hp : A ⊆ P) :
    ResPost typeArgIds m A P (tcFunctionCallF tcRec callId callee args ctx m env) := by
  rw [tcFunctionCallF]
  have hsub : ResPost typeArgIds m A P (tcRec callee ctx m) :=
    (hrec callee ctx m).toRes (subexpr_allowed hnc hc hm) hp
  refine hsub.andThenP ?_
  intro calleeT m1 he hk hm1 hptC
  have hkey : callee.nodeId ∈ A := hnc (nodeId_mem_nodeIds callee)
  cases calleeT with
  | SBuiltinTypeNameType t =>
    refine (tcArgsF_post tcRec hrec args ctx m1 A P hna hc hm1 hp).andThenP ?_
    intro argTs m2 he2 hk2 hm2 hpts
    show ResPost typeArgIds m2 A P
      (if (args.length != 1) = true then .err (.SExprCountMismatch callId) m2
       else .ok t m2)
    by_cases hq : (args.length != 1) = true
    · rw [if_pos hq]
      exact ResPost.pureErr hm2 (fun k s hd => nomatch hd)
    · rw [if_neg hq]
      exact ResPost.pureOk hm2 hptC
  | SUserDefinedTypeNameType definition =>
    refine (tcArgsF_post tcRec hrec args ctx m1 A P hna hc hm1 hp).andThenP ?_
    intro argTs m2 he2 hk2 hm2 hpts
    cases definition with
    | struct sid =>
      show ResPost typeArgIds m2 A P
        (match getUserDefinedTypeFQName env (.struct sid) with
         | none => .internal m2
         | some fq => .ok (.SPointer (.SUserDefinedType fq (some (.struct sid)))
             (some DataLocation.Memory)) m2)
      cases hq : getUserDefinedTypeFQName env (.struct sid) with
      | none => exact ResPost.pureInternal hm2
      | some fq => exact ResPost.pureOk hm2 (subset_of_eq_nil rfl)
    | contract cid =>
      show ResPost typeArgIds m2 A P
        (if (args.length != 1) = true then .err (.SExprCountMismatch callId) m2
         else
           match getUserDefinedTypeFQName env (.contract cid) with
           | none => .internal m2
           | some fq => .ok (.SPointer (.SUserDefinedType fq (some (.contract cid)))
               (some DataLocation.Storage)) m2)
      by_cases hq : (args.length != 1) = true
      · rw [if_pos hq]
        exact ResPost.pureErr hm2 (fun k s hd => nomatch hd)
      · rw [if_neg hq]
        cases hq2 : getUserDefinedTypeFQName env (.contract cid) with
        | none => exact ResPost.pureInternal hm2
        | some fq => exact ResPost.pureOk hm2 (subset_of_eq_nil rfl)
    | enum eid =>
      cases argTs with
      | nil => exact ResPost.pureErr hm2 (fun k s hd => nomatch hd)
      | cons argT rest =>
        cases rest with
        | nil =>
          show ResPost typeArgIds m2 A P
            (match getUserDefinedTypeFQName env (.enum eid) with
             | none => .internal m2
             | some fq => .ok (.SPointer (.SUserDefinedType fq (some (.enum eid)))
                 (locOfPtr argT)) m2)
          cases hq : getUserDefinedTypeFQName env (.enum eid) with
          | none => exact ResPost.pureInternal hm2
          | some fq => exact ResPost.pureOk hm2 (subset_of_eq_nil rfl)
        | cons argT2 rest2 => exact ResPost.pureErr hm2 (fun k s hd => nomatch hd)
  | SFunctionSetType definitions defaultArg =>
    cases defaultArg with
    | none =>
      refine (tcArgsF_post tcRec hrec args ctx m1 A P hna hc hm1 hp).andThenP ?_
      intro argTs m2 he2 hk2 hm2 hpts
      show ResPost typeArgIds m2 A P
        (match matchingDefsOf env args argTs args.length definitions with
         | none => .internal m2
         | some matching =>
           match matching with
           | [] => .err (.SUnresolvedFun callId) m2
           | [d] =>
             let m3 := TypeMap.set m2 callee.nodeId (.SFunctionSetType [d] none)
             match d with
             | FSDef.fn f =>
               match astVarsToSTypes env f.returns with
               | none => .internal m3
               | some retTs =>
                 match retTs with
                 | [t] => .ok t m3
                 | [] => .err (.SFunNoReturn callId) m3
                 | ts => .ok (.STupleType ts) m3
             | FSDef.svar v =>
               match v.vType with
               | some (TypeName.userDefined _) => .internal m3
               | _ =>
                 match astVarToSType env v none with
                 | none => .internal m3
                 | some t => .ok t m3
           | _ => .internal m2)
      cases hmd : matchingDefsOf env args argTs args.length definitions with
      | none => exact ResPost.pureInternal hm2
      | some matching =>
        cases matching with
        | nil => exact ResPost.pureErr hm2 (fun k s hd => nomatch hd)
        | cons d tail =>
          cases tail with
          | nil =>
            cases d with
            | fn f =>
              exact fnSet_narrow_post tcRec env callId callee (FSDef.fn f) none m2 m2 A P
                (TypeMap.Ext.extRefl m2) (NewKeysIn.nkRefl m2 A) hm2 hkey (subset_of_eq_nil rfl)
            | svar v =>
              exact fnSet_narrow_post tcRec env callId callee (FSDef.svar v) none m2 m2 A P
                (TypeMap.Ext.extRefl m2) (NewKeysIn.nkRefl m2 A) hm2 hkey (subset_of_eq_nil rfl)
          | cons d2 tail2 => exact ResPost.pureInternal hm2
    | some dflt =>
      have hcall : nodeIdsList (dflt :: args) ⊆ A := by
        rw [nodeIdsList_cons]
        intro x hx
        rcases List.mem_append.mp hx with h1 | h1
        · exact hptC h1
        · exact hna h1
      refine (tcArgsF_post tcRec hrec (dflt :: args) ctx m1 A P hcall hc hm1 hp).andThenP ?_
      intro argTs m2 he2 hk2 hm2 hpts
      show ResPost typeArgIds m2 A P
        (match matchingDefsOf env (dflt :: args) argTs args.length definitions with
         | none => .internal m2
         | some matching =>
           match matching with
           | [] => .err (.SUnresolvedFun callId) m2
           | [d] =>
             let m3 := TypeMap.set m2 callee.nodeId (.SFunctionSetType [d] (some dflt))
             match d with
             | FSDef.fn f =>
               match astVarsToSTypes env f.returns with
               | none => .internal m3
               | some retTs =>
                 match retTs with
                 | [t] => .ok t m3
                 | [] => .err (.SFunNoReturn callId) m3
                 | ts => .ok (.STupleType ts) m3
             | FSDef.svar v =>
               match v.vType with
               | some (TypeName.userDefined _) => .internal m3
               | _ =>
                 match astVarToSType env v none with
                 | none => .internal m3
                 | some t => .ok t m3
           | _ => .internal m2)
      cases hmd : matchingDefsOf env (dflt :: args) argTs args.length definitions with
      | none => exact ResPost.pureInternal hm2
      | some matching =>
        cases matching with
        | nil => exact ResPost.pureErr hm2 (fun k s hd => nomatch hd)
        | cons d tail =>
          cases tail with
          | nil =>
            cases d with
            | fn f =>
              exact fnSet_narrow_post tcRec env callId callee (FSDef.fn f) (some dflt)
                m2 m2 A P (TypeMap.Ext.extRefl m2) (NewKeysIn.nkRefl m2 A) hm2 hkey
                (fun x hx => hptC hx)
            | svar v =>
              exact fnSet_narrow_post tcRec env callId callee (FSDef.svar v) (some dflt)
                m2 m2 A P (TypeMap.Ext.extRefl m2) (NewKeysIn.nkRefl m2 A) hm2 hkey
                (fun x hx => hptC hx)
          | cons d2 tail2 => exact ResPost.pureInternal hm2
  | SFunctionType params rets vis mutab =>
    refine (tcArgsF_post tcRec hrec args ctx m1 A P hna hc hm1 hp).andThenP ?_
    intro argTs m2 he2 hk2 hm2 hpts
    by_cases hq : matchArgsWithParams args argTs params = true
    · rw [if_pos hq]
      cases rets with
      | nil => exact ResPost.pureErr hm2 (fun k s hd => nomatch hd)
      | cons t rest =>
        cases rest with
        | nil =>
          refine ResPost.pureOk hm2 ?_
          intro x hx
          exact hptC
            (List.mem_append_right _ (goTypes_sub_of_mem (List.mem_cons_self t []) hx))
        | cons t2 rest2 =>
          refine ResPost.pureOk hm2 ?_
          intro x hx
          exact hptC (List.mem_append_right _ hx)
    · rw [if_neg hq]
      exact ResPost.pureErr hm2 (fun k s hd => nomatch hd)
  | SBoolType => exact ResPost.pureErr hm1 (fun k s hd => nomatch hd)
  | SIntType a b => exact ResPost.pureErr hm1 (fun k s hd => nomatch hd)
  | SIntLiteralType => exact ResPost.pureErr hm1 (fun k s hd => nomatch hd)
  | SStringLiteralType => exact ResPost.pureErr hm1 (fun k s hd => nomatch hd)
  | SFixedBytes a => exact ResPost.pureErr hm1 (fun k s hd => nomatch hd)
  | SBytes => exact ResPost.pureErr hm1 (fun k s hd => nomatch hd)
  | SString => exact ResPost.pureErr hm1 (fun k s hd => nomatch hd)
  | SAddressType p => exact ResPost.pureErr hm1 (fun k s hd => nomatch hd)
  | STupleType es => exact ResPost.pureErr hm1 (fun k s hd => nomatch hd)
  | SArrayType a b => exact ResPost.pureErr hm1 (fun k s hd => nomatch hd)
  | SUserDefinedType a b => exact ResPost.pureErr hm1 (fun k s hd => nomatch hd)
  | SMappingType a b => exact ResPost.pureErr hm1 (fun k s hd => nomatch hd)
  | SPointer a b => exact ResPost.pureErr hm1 (fun k s hd => nomatch hd)
  | SBuiltinStructType a b => exact ResPost.pureErr hm1 (fun k s hd => nomatch hd)


theorem tc_post (env : Env) : ∀ (fuel : Nat) (e : SNode) (ctx : STypingCtx) (m : TypeMap),
    TCPost e ctx m (tc fuel e ctx m env) := by
  intro fuel
  induction fuel with
  | zero =>
    intro e ctx m
    show TCPost e ctx m .outOfFuel
    trivial
  | succ fuel ih =>
    intro e ctx m
    show TCPost e ctx m
      (match TypeMap.find? m e.nodeId with
       | some t => .ok t m
       | none =>
         match e with
         | .SNumber i _ => cacheRes i (.ok .SIntLiteralType m)
         | .SBooleanLiteral i _ => cacheRes i (.ok .SBoolType m)
         | .SStringLiteral i _ => cacheRes i (.ok .SStringLiteralType m)
         | .SHexLiteral i _ => cacheRes i (.ok .SStringLiteralType m)
         | .SAddressLiteral i _ => cacheRes i (.ok (.SAddressType true) m)
         | .SId i name =>
           cacheRes i
             ((tcIdF (fun e c m2 => tc fuel e c m2 env) i name ctx m env).andThen
               fun p m1 => .ok p.1 m1)
         | .SResult i => cacheRes i (tcResult env i ctx m)
         | .SUnaryOperation i op sub =>
           cacheRes i (tcUnaryF (fun e c m2 => tc fuel e c m2 env) op sub ctx m)
         | .SBinaryOperation i l op r =>
           cacheRes i (tcBinaryF (fun e c m2 => tc fuel e c m2 env) l op r ctx m)
         | .SConditional i c t e2 =>
           cacheRes i (tcConditionalF (fun e3 c2 m2 => tc fuel e3 c2 m2 env) c t e2 ctx m)
         | .SIndexAccess i b x =>
           cacheRes i (tcIndexAccessF (fun e3 c m2 => tc fuel e3 c m2 env) i b x ctx m)
         | .SMemberAccess i b mem =>
           cacheRes i (tcMemberAccessF (fun e3 c m2 => tc fuel e3 c m2 env) i b mem ctx m env)
         | .SLet i lhs rhs body =>
           cacheRes i (tcLetF (fun e3 c m2 => tc fuel e3 c m2 env) i lhs rhs body ctx m)
         | .SFunctionCall i callee args =>
           cacheRes i
             (tcFunctionCallF (fun e3 c m2 => tc fuel e3 c m2 env) i callee args ctx m env)
         | .typeExpr i t =>
           match t with
           | .SUserDefinedType _ df =>
             match df with
             | none => .internal m
             | some d => cacheRes i (.ok (.SUserDefinedTypeNameType d) m)
           | _ => cacheRes i (.ok (.SBuiltinTypeNameType t) m))
    have hrec : ∀ e2 c m2, TCPost e2 c m2 ((fun e3 c2 m3 => tc fuel e3 c2 m3 env) e2 c m2) :=
      fun e2 c m2 => ih e2 c m2
    cases hf : TypeMap.find? m e.nodeId with
    | some t =>
      refine ⟨TypeMap.Ext.extRefl m, NewKeysIn.nkRefl m _, ?_, ?_, hf⟩
      · exact fun x hx => List.mem_append_right _ (List.mem_append_right _ hx)
      · exact fun x hx =>
          List.mem_append_right _ (List.mem_append_right _ (typeArgIds_sub_mapArgIds hf hx))
    | none =>
      have hmS : mapArgIds m ⊆ strictAllowedIds e ctx m :=
        fun x hx => List.mem_append_right _ (List.mem_append_right _ hx)
      have hcS : ctxIds ctx ⊆ strictAllowedIds e ctx m :=
        fun x hx => List.mem_append_right _ (List.mem_append_left _ hx)
      have hpSA : strictAllowedIds e ctx m ⊆ allowedIds e ctx m :=
        strictAllowed_sub_allowed e ctx m
      cases e with
      | SNumber i v =>
        exact cacheRes_post (ResPost.pureOk hmS (subset_of_eq_nil rfl))
      | SBooleanLiteral i v =>
        exact cacheRes_post (ResPost.pureOk hmS (subset_of_eq_nil rfl))
      | SStringLiteral i v =>
        exact cacheRes_post (ResPost.pureOk hmS (subset_of_eq_nil rfl))
      | SHexLiteral i v =>
        exact cacheRes_post (ResPost.pureOk hmS (subset_of_eq_nil rfl))
      | SAddressLiteral i v =>
        exact cacheRes_post (ResPost.pureOk hmS (subset_of_eq_nil rfl))
      | SId i name =>
        refine cacheRes_post ?_
        refine (tcIdF_post (fun e3 c2 m3 => tc fuel e3 c2 m3 env) hrec env i name ctx m
          (strictAllowedIds (.SId i name) ctx m) (allowedIds (.SId i name) ctx m)
          hcS hmS hpSA (root_mem_allowed (.SId i name) ctx m)).andThenP ?_
        intro p m1 he hk hm1 hpt
        exact ResPost.pureOk hm1 hpt
      | SResult i =>
        exact cacheRes_post (tcResult_post env i ctx m _ _ hmS)
      | SUnaryOperation i op sub =>
        refine cacheRes_post (tcUnaryF_post (fun e3 c2 m3 => tc fuel e3 c2 m3 env) hrec
          op sub ctx m _ _ ?_ hcS hmS hpSA)
        exact fun x hx => List.mem_append_left _ hx
      | SBinaryOperation i l op r =>
        refine cacheRes_post (tcBinaryF_post (fun e3 c2 m3 => tc fuel e3 c2 m3 env) hrec
          l op r ctx m _ _ ?_ ?_ hcS hmS hpSA)
        · exact fun x hx => List.mem_append_left _ (List.mem_append_left _ hx)
        · exact fun x hx => List.mem_append_left _ (List.mem_append_right _ hx)
      | SConditional i c t e2 =>
        refine cacheRes_post (tcConditionalF_post (fun e3 c2 m3 => tc fuel e3 c2 m3 env) hrec
          c t e2 ctx m _ _ ?_ ?_ ?_ hcS hmS hpSA)
        · exact fun x hx =>
            List.mem_append_left _ (List.mem_append_left _ (List.mem_append_left _ hx))
        · exact fun x hx =>
            List.mem_append_left _ (List.mem_append_left _ (List.mem_append_right _ hx))
        · exact fun x hx => List.mem_append_left _ (List.mem_append_right _ hx)
      | SIndexAccess i b x =>
        refine cacheRes_post (tcIndexAccessF_post (fun e3 c2 m3 => tc fuel e3 c2 m3 env) hrec
          i b x ctx m _ _ ?_ ?_ hcS hmS hpSA)
        · exact fun x2 hx => List.mem_append_left _ (List.mem_append_left _ hx)
        · exact fun x2 hx => List.mem_append_left _ (List.mem_append_right _ hx)
      | SMemberAccess i b mem =>
        refine cacheRes_post (tcMemberAccessF_post (fun e3 c2 m3 => tc fuel e3 c2 m3 env) hrec
          env i b mem ctx m _ _ ?_ hcS hmS hpSA)
        exact fun x hx => List.mem_append_left _ hx
      | SLet i lhs rhs body =>
        refine cacheRes_post (tcLetF_post (fun e3 c2 m3 => tc fuel e3 c2 m3 env) hrec
          i lhs rhs body ctx m _ _ ?_ ?_ hcS hmS hpSA)
        · exact fun x hx => List.mem_append_left _ (List.mem_append_left _ hx)
        · exact fun x hx => List.mem_append_left _ (List.mem_append_right _ hx)
      | SFunctionCall i callee args =>
        refine cacheRes_post (tcFunctionCallF_post (fun e3 c2 m3 => tc fuel e3 c2 m3 env) hrec
          env i callee args ctx m _ _ ?_ ?_ hcS hmS hpSA)
        · exact fun x hx => List.mem_append_left _ (List.mem_append_left _ hx)
        · exact fun x hx => List.mem_append_left _ (List.mem_append_right _ hx)
      | typeExpr i t =>
        cases t with
        | SUserDefinedType nm df =>
          cases df with
          | none =>
            exact ⟨TypeMap.Ext.extRefl m,
              fun x hx => List.mem_append_right _ (List.mem_append_right _ hx)⟩
          | some d =>
            exact cacheRes_post (ResPost.pureOk hmS (subset_of_eq_nil rfl))
        | SBoolType => exact cacheRes_post (ResPost.pureOk hmS (fun x hx => List.mem_append_left _ hx))
        | SIntType a b => exact cacheRes_post (ResPost.pureOk hmS (fun x hx => List.mem_append_left _ hx))
        | SIntLiteralType => exact cacheRes_post (ResPost.pureOk hmS (fun x hx => List.mem_append_left _ hx))
        | SStringLiteralType => exact cacheRes_post (ResPost.pureOk hmS (fun x hx => List.mem_append_left _ hx))
        | SFixedBytes a => exact cacheRes_post (ResPost.pureOk hmS (fun x hx => List.mem_append_left _ hx))
        | SBytes => exact cacheRes_post (ResPost.pureOk hmS (fun x hx => List.mem_append_left _ hx))
        | SString => exact cacheRes_post (ResPost.pureOk hmS (fun x hx => List.mem_append_left _ hx))
        | SAddressType p => exact cacheRes_post (ResPost.pureOk hmS (fun x hx => List.mem_append_left _ hx))
        | STupleType es => exact cacheRes_post (ResPost.pureOk hmS (fun x hx => List.mem_append_left _ hx))
        | SArrayType a b => exact cacheRes_post (ResPost.pureOk hmS (fun x hx => List.mem_append_left _ hx))
        | SMappingType a b => exact cacheRes_post (ResPost.pureOk hmS (fun x hx => List.mem_append_left _ hx))
        | SPointer a b => exact cacheRes_post (ResPost.pureOk hmS (fun x hx => List.mem_append_left _ hx))
        | SFunctionType a b c d => exact cacheRes_post (ResPost.pureOk hmS (fun x hx => List.mem_append_left _ hx))
        | SBuiltinStructType a b => exact cacheRes_post (ResPost.pureOk hmS (fun x hx => List.mem_append_left _ hx))
        | SBuiltinTypeNameType a => exact cacheRes_post (ResPost.pureOk hmS (fun x hx => List.mem_append_left _ hx))
        | SUserDefinedTypeNameType a => exact cacheRes_post (ResPost.pureOk hmS (fun x hx => List.mem_append_left _ hx))
        | SFunctionSetType a b => exact cacheRes_post (ResPost.pureOk hmS (fun x hx => List.mem_append_left _ hx))


/-- C1: despecialization is not a left inverse of specialization on
ingested pointer-free types: for the ingested array-of-bytes type and the
Memory location, despecializeType strips only the outer pointer and
leaves the specialized element pointer in place, so the round trip
differs from the original type under the checker structural equality. -/
theorem c1_despecialize_not_left_inverse :
    ∃ T : SType,
      astTypeNameToSType testEnv (TypeName.ArrayTypeName bytesTN none) = some T ∧
      ∃ S : SType, specializeType T DataLocation.Memory = some S ∧
        sEq (despecializeType S) T = false :=
  ⟨.SArrayType .SBytes none, rfl,
   .SPointer (.SArrayType (.SPointer .SBytes (some .Memory)) none) (some .Memory), rfl, rfl⟩

/-- C2: the checker can return a bare reference type: checking
dollar-result in a function returning bytes yields SBytes itself (the
unspecialized ingestion of the return type name), not a pointer to it,
violating the reference-types-are-always-pointers invariant claimed for
every type the checker returns. -/
theorem c2_result_returns_bare_reference_type :
    tc 10 (.SResult 0) (ctxFoo ++ [SScope.function retBytesFn]) [] testEnv =
      .ok .SBytes [(0, .SBytes)] ∧ isRefType .SBytes = true :=
  ⟨rfl, rfl⟩

/-- C7: the builtin type detector table diverges from ingestion on the
bare name address: the detector payability test compares the optional
captured group against the empty string, which holds also when the group
is absent, so address alone is detected payable while ingestion of the
same name yields a non-payable address; on other elementary samples the
two agree and out-of-range widths are rejected. -/
theorem c7_address_detector_payable_divergence :
    detectBuiltinType "address" = some (.SAddressType true) ∧
    astTypeNameToSType testEnv (.ElementaryTypeName "address" false) =
      some (.SAddressType false) ∧
    detectBuiltinType "address payable" = some (.SAddressType true) ∧
    detectBuiltinType "bool" = some .SBoolType ∧
    detectBuiltinType "uint64" = some (.SIntType 64 false) ∧
    detectBuiltinType "int8" = some (.SIntType 8 true) ∧
    detectBuiltinType "bytes32" = some (.SFixedBytes 32) ∧
    detectBuiltinType "bytes33" = none ∧
    detectBuiltinType "int264" = none ∧
    detectBuiltinType "uint255" = none :=
  ⟨rfl, rfl, rfl, rfl, rfl, rfl, rfl, rfl, rfl, rfl⟩

/-- C4 counterexample: member access on a struct pointer with no such
field raises NoField directly although the unrestricted using-for
directive of the contract supplies an applicable library function of
that name: the fallback is never consulted from the struct branch. -/
theorem c4_struct_miss_counterexample :
    tc 10 (.SMemberAccess 22 (.SId 21 "sFoo") "m") ctxFoo [] testEnv =
      .err (.SNoField 22 "m")
        [(21, .SPointer (.SUserDefinedType "Foo.S" (some (.struct 7))) (some .Storage))] ∧
    usingForFuns testEnv fooC
      (despecializeType (.SPointer (.SUserDefinedType "Foo.S" (some (.struct 7)))
        (some .Storage))) "m" = some [libM] :=
  ⟨rfl, rfl⟩

/-- C4 amended: the using-for fallback is reachable only from the
dispatch branches that do not throw: a member miss on a struct pointer
raises NoField regardless of applicable using-for directives, while a
base type with no specific rule (for example an int) always defers to
the using-for fallback. -/
theorem c4_member_access_fallback_amended (exprId : Nat) (base : SNode) (member : String)
    (ctx : STypingCtx) (m1 : TypeMap) (env : Env) :
    (∀ nm sid loc rawDef,
       env.struct? sid = some rawDef →
       rawDef.vMembers.find? (fun d2 : VariableDeclaration => d2.name == member) = none →
       tcMemberAccessOnType exprId base member
         (.SPointer (.SUserDefinedType nm (some (.struct sid))) loc) ctx m1 env =
         .err (.SNoField exprId member) m1) ∧
    (∀ nBits signed,
       tcMemberAccessOnType exprId base member (.SIntType nBits signed) ctx m1 env =
         tcMemberAccessFallback base member (.SIntType nBits signed) ctx m1 env) := by
  constructor
  · intro nm sid loc rawDef h1 h2
    rw [tcMemberAccessOnType.eq_def]
    show (match env.struct? sid with
          | none => TCRes.internal m1
          | some rawDef =>
            match rawDef.vMembers.find? (fun d2 : VariableDeclaration => d2.name == member) with
            | some rawDecl =>
              match astVarToSType env rawDecl loc with
              | none => .internal m1
              | some t => .ok t m1
            | none => .err (.SNoField exprId member) m1) =
        .err (.SNoField exprId member) m1
    rw [h1]
    show (match List.find? (fun d2 : VariableDeclaration => d2.name == member)
        rawDef.vMembers with
      | some rawDecl =>
        match astVarToSType env rawDecl loc with
        | none => TCRes.internal m1
        | some t => .ok t m1
      | none => .err (.SNoField exprId member) m1) = .err (.SNoField exprId member) m1
    rw [h2]
  · intro nBits signed
    rw [tcMemberAccessOnType.eq_def]

/-- C4 amended witness: at the concrete program the struct miss on
sFoo.m yields NoField, and member access on a uint32 state variable is
exactly the using-for fallback. -/
theorem c4_member_access_fallback_amended_witness :
    tcMemberAccessOnType 22 (.SId 21 "sFoo") "m"
      (.SPointer (.SUserDefinedType "Foo.S" (some (.struct 7))) (some .Storage))
      ctxFoo [] testEnv = .err (.SNoField 22 "m") [] ∧
    tcMemberAccessOnType 12 (.SId 11 "u32a") "ladd" (.SIntType 32 false)
      ctxFoo [] testEnv =
      tcMemberAccessFallback (.SId 11 "u32a") "ladd" (.SIntType 32 false) ctxFoo [] testEnv :=
  ⟨(c4_member_access_fallback_amended 22 (.SId 21 "sFoo") "m" ctxFoo [] testEnv).1
     "Foo.S" 7 (some .Storage) sStruct rfl rfl,
   (c4_member_access_fallback_amended 12 (.SId 11 "u32a") "ladd" ctxFoo [] testEnv).2
     32 false⟩


theorem tc_unfold (env : Env) (fuel : Nat) (e : SNode) (ctx : STypingCtx) (m : TypeMap) :
    tc (fuel + 1) e ctx m env =
      (match TypeMap.find? m e.nodeId with
       | some t2 => TCRes.ok t2 m
       | none =>
         match e with
         | .SNumber i _ => cacheRes i (.ok .SIntLiteralType m)
         | .SBooleanLiteral i _ => cacheRes i (.ok .SBoolType m)
         | .SStringLiteral i _ => cacheRes i (.ok .SStringLiteralType m)
         | .SHexLiteral i _ => cacheRes i (.ok .SStringLiteralType m)
         | .SAddressLiteral i _ => cacheRes i (.ok (.SAddressType true) m)
         | .SId i name =>
           cacheRes i
             ((tcIdF (fun e c m2 => tc fuel e c m2 env) i name ctx m env).andThen
               fun p m1 => .ok p.1 m1)
         | .SResult i => cacheRes i (tcResult env i ctx m)
         | .SUnaryOperation i op sub =>
           cacheRes i (tcUnaryF (fun e c m2 => tc fuel e c m2 env) op sub ctx m)
         | .SBinaryOperation i l op r =>
           cacheRes i (tcBinaryF (fun e c m2 => tc fuel e c m2 env) l op r ctx m)
         | .SConditional i c t2 e2 =>
           cacheRes i (tcConditionalF (fun e3 c2 m2 => tc fuel e3 c2 m2 env) c t2 e2 ctx m)
         | .SIndexAccess i b x =>
           cacheRes i (tcIndexAccessF (fun e3 c m2 => tc fuel e3 c m2 env) i b x ctx m)
         | .SMemberAccess i b mem =>
           cacheRes i (tcMemberAccessF (fun e3 c m2 => tc fuel e3 c m2 env) i b mem ctx m env)
         | .SLet i lhs rhs body =>
           cacheRes i (tcLetF (fun e3 c m2 => tc fuel e3 c m2 env) i lhs rhs body ctx m)
         | .SFunctionCall i callee args =>
           cacheRes i
             (tcFunctionCallF (fun e3 c m2 => tc fuel e3 c m2 env) i callee args ctx m env)
         | .typeExpr i t2 =>
           match t2 with
           | .SUserDefinedType _ df =>
             match df with
             | none => .internal m
             | some d => cacheRes i (.ok (.SUserDefinedTypeNameType d) m)
           | _ => cacheRes i (.ok (.SBuiltinTypeNameType t2) m)) := rfl

theorem tc_cached_hit (env : Env) (fuel : Nat) (e : SNode) (ctx : STypingCtx) (m : TypeMap)
    (t : SType) (h : TypeMap.find? m e.nodeId = some t) :
    tc (fuel + 1) e ctx m env = .ok t m := by
  rw [tc_unfold, h]

/-- C3: cache stability: a successful run only extends the cache, caches
the checked type under the node identity, and every later run on the
extended cache returns the cached type with the cache unchanged, at any
positive fuel. -/
theorem c3_cache_stability (env : Env) (fuel : Nat) (e : SNode) (ctx : STypingCtx)
    (m m2 : TypeMap) (t : SType) (h : tc fuel e ctx m env = .ok t m2) :
    TypeMap.Ext m m2 ∧ TypeMap.find? m2 e.nodeId = some t ∧
      ∀ fuel2, tc (fuel2 + 1) e ctx m2 env = .ok t m2 := by
  have hp := tc_post env fuel e ctx m
  rw [h] at hp
  obtain ⟨h1, h2, h3, h4, h5⟩ := hp
  exact ⟨h1, h5, fun fuel2 => tc_cached_hit env fuel2 e ctx m2 t h5⟩

/-- C3 witness: checking the state variable identifier sV1 caches its
int128, and every rerun returns the cached type unchanged. -/
theorem c3_cache_stability_witness :
    TypeMap.Ext [] [(1, SType.SIntType 128 true)] ∧
    TypeMap.find? [(1, SType.SIntType 128 true)] (SNode.SId 1 "sV1").nodeId =
      some (.SIntType 128 true) ∧
    ∀ fuel2, tc (fuel2 + 1) (.SId 1 "sV1") ctxFoo [(1, SType.SIntType 128 true)] testEnv =
      .ok (.SIntType 128 true) [(1, SType.SIntType 128 true)] :=
  c3_cache_stability testEnv 10 (.SId 1 "sV1") ctxFoo [] [(1, SType.SIntType 128 true)]
    (.SIntType 128 true) rfl

/-- C9: dollar-result raises InvalidKeyword whenever the innermost scope
is missing or not a function, raises it for a function with no returns,
ingests the single return type name for one return, and builds a tuple
of the ingested types for several returns, never touching the cache. -/
theorem c9_result_cases (env : Env) (exprId : Nat) (ctx : STypingCtx) (m : TypeMap) :
    (∀ s, ctx.getLast? = some s → (∀ fd, s ≠ SScope.function fd) →
       tcResult env exprId ctx m = .err (.SInvalidKeyword exprId) m) ∧
    (ctx.getLast? = none → tcResult env exprId ctx m = .err (.SInvalidKeyword exprId) m) ∧
    (∀ fd, ctx.getLast? = some (SScope.function fd) → fd.returns = [] →
       tcResult env exprId ctx m = .err (.SInvalidKeyword exprId) m) ∧
    (∀ fd r tn t, ctx.getLast? = some (SScope.function fd) → fd.returns = [r] →
       r.vType = some tn → astTypeNameToSType env tn = some t →
       tcResult env exprId ctx m = .ok t m) ∧
    (∀ fd r1 r2 rest ts, ctx.getLast? = some (SScope.function fd) →
       fd.returns = r1 :: r2 :: rest →
       ingestReturnTypes env (r1 :: r2 :: rest) = some ts →
       tcResult env exprId ctx m = TCRes.ok (SType.STupleType ts) m) := by
  refine ⟨?_, ?_, ?_, ?_, ?_⟩
  · intro s hg hne
    rw [tcResult, hg]
    cases s with
    | function fd => exact (hne fd rfl).elim
    | contract c => rfl
    | sourceUnits us => rfl
    | slet l => rfl
  · intro hg
    rw [tcResult, hg]
  · intro fd hg hr
    rw [tcResult, hg]
    show (match fd.returns with
          | [] => TCRes.err (.SInvalidKeyword exprId) m
          | [r] =>
            match r.vType with
            | none => TCRes.internal m
            | some tn =>
              match astTypeNameToSType env tn with
              | none => TCRes.internal m
              | some t => TCRes.ok t m
          | rets =>
            match ingestReturnTypes env rets with
            | none => TCRes.internal m
            | some ts => TCRes.ok (SType.STupleType ts) m) = .err (.SInvalidKeyword exprId) m
    rw [hr]
  · intro fd r tn t hg hr hv hi
    rw [tcResult, hg]
    show (match fd.returns with
          | [] => TCRes.err (.SInvalidKeyword exprId) m
          | [r] =>
            match r.vType with
            | none => TCRes.internal m
            | some tn =>
              match astTypeNameToSType env tn with
              | none => TCRes.internal m
              | some t => TCRes.ok t m
          | rets =>
            match ingestReturnTypes env rets with
            | none => TCRes.internal m
            | some ts => TCRes.ok (SType.STupleType ts) m) = .ok t m
    rw [hr]
    show (match r.vType with
          | none => TCRes.internal m
          | some tn =>
            match astTypeNameToSType env tn with
            | none => TCRes.internal m
            | some t2 => TCRes.ok t2 m) = .ok t m
    rw [hv]
    show (match astTypeNameToSType env tn with
          | none => TCRes.internal m
          | some t2 => TCRes.ok t2 m) = .ok t m
    rw [hi]
  · intro fd r1 r2 rest ts hg hr hing
    rw [tcResult, hg]
    show (match fd.returns with
          | [] => TCRes.err (.SInvalidKeyword exprId) m
          | [r] =>
            match r.vType with
            | none => TCRes.internal m
            | some tn =>
              match astTypeNameToSType env tn with
              | none => TCRes.internal m
              | some t => TCRes.ok t m
          | rets =>
            match ingestReturnTypes env rets with
            | none => TCRes.internal m
            | some ts2 => TCRes.ok (SType.STupleType ts2) m) = TCRes.ok (SType.STupleType ts) m
    rw [hr]
    show (match ingestReturnTypes env (r1 :: r2 :: rest) with
          | none => TCRes.internal m
          | some ts2 => TCRes.ok (SType.STupleType ts2) m) = TCRes.ok (SType.STupleType ts) m
    rw [hing]

/-- C9 witness: in a function returning one bytes parameter
dollar-result ingests bytes; directly under a contract scope it raises
InvalidKeyword. -/
theorem c9_result_cases_witness :
    tcResult testEnv 0 (ctxFoo ++ [SScope.function retBytesFn]) [] =
      .ok SType.SBytes [] ∧
    tcResult testEnv 9 ctxFoo [] = .err (.SInvalidKeyword 9) [] :=
  ⟨(c9_result_cases testEnv 0 (ctxFoo ++ [SScope.function retBytesFn]) []).2.2.2.1
     retBytesFn (mkParam "" bytesTN 5) bytesTN .SBytes rfl rfl rfl rfl,
   (c9_result_cases testEnv 9 ctxFoo []).1 (SScope.contract fooC) rfl
     (fun fd h => by cases h)⟩

/-- C10: a failing run never caches the checked node itself when its id
is fresh: the cache only grows (entries cached for successfully checked
subexpressions survive), every new key is a proper subterm, context or
cache-embedded id, and the node own entry is still absent afterwards. -/
theorem c10_error_cache_discipline (env : Env) (fuel : Nat) (e : SNode) (ctx : STypingCtx)
    (m : TypeMap) (d : TCErr) (m2 : TypeMap)
    (h : tc fuel e ctx m env = .err d m2)
    (hself : TypeMap.find? m e.nodeId = none)
    (hfresh : e.nodeId ∉ strictAllowedIds e ctx m) :
    TypeMap.Ext m m2 ∧ TypeMap.find? m2 e.nodeId = none ∧
      NewKeysIn m m2 (strictAllowedIds e ctx m) := by
  have hp := tc_post env fuel e ctx m
  rw [h] at hp
  obtain ⟨h1, h2, h3, h4⟩ := hp
  refine ⟨h1, ?_, h2⟩
  by_contra hne
  rcases h2 e.nodeId hne with h5 | h5
  · exact h5 hself
  · exact hfresh h5

/-- C10 witness: the builtin cast uint256 applied to two arguments fails
with ExprCountMismatch; the callee and both argument entries written
before the failure survive and the call node itself is not cached. -/
theorem c10_error_cache_discipline_witness :
    TypeMap.Ext []
      [(73, SType.SIntLiteralType), (72, SType.SIntLiteralType),
       (71, SType.SBuiltinTypeNameType (.SIntType 256 false))] ∧
    TypeMap.find?
      [(73, SType.SIntLiteralType), (72, SType.SIntLiteralType),
       (71, SType.SBuiltinTypeNameType (.SIntType 256 false))]
      (SNode.SFunctionCall 70 (.SId 71 "uint256")
        [.SNumber 72 1, .SNumber 73 2]).nodeId = none ∧
    NewKeysIn []
      [(73, SType.SIntLiteralType), (72, SType.SIntLiteralType),
       (71, SType.SBuiltinTypeNameType (.SIntType 256 false))]
      (strictAllowedIds (.SFunctionCall 70 (.SId 71 "uint256")
        [.SNumber 72 1, .SNumber 73 2]) ctxFoo []) :=
  c10_error_cache_discipline testEnv 10
    (.SFunctionCall 70 (.SId 71 "uint256") [.SNumber 72 1, .SNumber 73 2]) ctxFoo []
    (.SExprCountMismatch 70)
    [(73, SType.SIntLiteralType), (72, SType.SIntLiteralType),
     (71, SType.SBuiltinTypeNameType (.SIntType 256 false))]
    rfl rfl (by decide)


/-- C8: a call whose callee checks to the user-defined type name of an
enum requires exactly one checked argument, raising ExprCountMismatch
otherwise, and returns a pointer to the enum type whose location is read
off the argument type (none when the argument type is not a pointer). -/
theorem c8_enum_cast (tcRec : TcCb) (env : Env) (callId : Nat) (callee : SNode)
    (args : List SNode) (ctx : STypingCtx) (m m1 m2 : TypeMap) (eid : Nat)
    (argTs : List SType)
    (hc1 : tcRec callee ctx m = .ok (.SUserDefinedTypeNameType (.enum eid)) m1)
    (hc2 : tcArgsF tcRec args ctx m1 = .ok argTs m2) :
    (∀ argT fq, argTs = [argT] → getUserDefinedTypeFQName env (.enum eid) = some fq →
       tcFunctionCallF tcRec callId callee args ctx m env =
         .ok (.SPointer (.SUserDefinedType fq (some (.enum eid))) (locOfPtr argT)) m2) ∧
    (argTs = [] →
       tcFunctionCallF tcRec callId callee args ctx m env =
         .err (.SExprCountMismatch callId) m2) ∧
    (∀ t1 t2 rest, argTs = t1 :: t2 :: rest →
       tcFunctionCallF tcRec callId callee args ctx m env =
         .err (.SExprCountMismatch callId) m2) := by
  have hbase : tcFunctionCallF tcRec callId callee args ctx m env =
      ((tcArgsF tcRec args ctx m1).andThen fun argTs3 m4 =>
        match argTs3 with
        | [argT] =>
          match getUserDefinedTypeFQName env (.enum eid) with
          | none => TCRes.internal m4
          | some fq =>
            TCRes.ok (.SPointer (.SUserDefinedType fq (some (.enum eid))) (locOfPtr argT)) m4
        | _ => TCRes.err (.SExprCountMismatch callId) m4) := by
    rw [tcFunctionCallF, hc1]
    rfl
  have hbgen : ∀ argTs2 m3, tcArgsF tcRec args ctx m1 = .ok argTs2 m3 →
      tcFunctionCallF tcRec callId callee args ctx m env =
      (match argTs2 with
       | [argT] =>
         match getUserDefinedTypeFQName env (.enum eid) with
         | none => TCRes.internal m3
         | some fq =>
           TCRes.ok (.SPointer (.SUserDefinedType fq (some (.enum eid))) (locOfPtr argT)) m3
       | _ => TCRes.err (.SExprCountMismatch callId) m3) := by
    intro argTs2 m3 hc2b
    rw [hbase, hc2b]
    rfl
  have hb := hbgen argTs m2 hc2
  refine ⟨?_, ?_, ?_⟩
  · intro argT fq ha hfq
    rw [hb, ha, hfq]
  · intro ha
    rw [hb, ha]
  · intro t1 t2 rest ha
    rw [hb, ha]

/-- C8 witness: casting an int literal to the test enum through its type
expression returns a pointer to the enum type with no location, and the
zero-argument cast raises ExprCountMismatch. -/
theorem c8_enum_cast_witness :
    tcFunctionCallF (tcCb 9 testEnv) 62
      (.typeExpr 60 (.SUserDefinedType "Foo.FooEnum" (some (.enum 8)))) [.SNumber 61 0]
      ctxFoo [] testEnv =
      .ok (.SPointer (.SUserDefinedType "Foo.FooEnum" (some (.enum 8))) none)
        [(61, SType.SIntLiteralType),
         (60, SType.SUserDefinedTypeNameType (.enum 8))] ∧
    tcFunctionCallF (tcCb 9 testEnv) 63
      (.typeExpr 60 (.SUserDefinedType "Foo.FooEnum" (some (.enum 8)))) []
      ctxFoo [] testEnv =
      .err (.SExprCountMismatch 63) [(60, SType.SUserDefinedTypeNameType (.enum 8))] :=
  ⟨(c8_enum_cast (tcCb 9 testEnv) testEnv 62
      (.typeExpr 60 (.SUserDefinedType "Foo.FooEnum" (some (.enum 8)))) [.SNumber 61 0]
      ctxFoo [] [(60, SType.SUserDefinedTypeNameType (.enum 8))]
      [(61, SType.SIntLiteralType), (60, SType.SUserDefinedTypeNameType (.enum 8))]
      8 [SType.SIntLiteralType] rfl rfl).1 SType.SIntLiteralType "Foo.FooEnum" rfl rfl,
   (c8_enum_cast (tcCb 9 testEnv) testEnv 63
      (.typeExpr 60 (.SUserDefinedType "Foo.FooEnum" (some (.enum 8)))) []
      ctxFoo [] [(60, SType.SUserDefinedTypeNameType (.enum 8))]
      [(60, SType.SUserDefinedTypeNameType (.enum 8))]
      8 [] rfl rfl).2.1 rfl⟩


/-- C6: for a call on a FunctionSet callee the checker extends the
arguments with the recorded default argument, matches candidates, raises
UnresolvedFun on zero survivors, treats two or more as an internal error,
and on every normal return has narrowed the cached callee entry to
exactly one definition. -/
theorem c6_function_set_narrowing (tcRec : TcCb) (env : Env) (callId : Nat)
    (callee : SNode) (args callArgs : List SNode) (ctx : STypingCtx) (m m1 m2 : TypeMap)
    (definitions : List FSDef) (defaultArg : Option SNode) (argTs : List SType)
    (hca : callArgs = (match defaultArg with | some dflt => dflt :: args | none => args))
    (hc1 : tcRec callee ctx m = .ok (.SFunctionSetType definitions defaultArg) m1)
    (hc2 : tcArgsF tcRec callArgs ctx m1 = .ok argTs m2) :
    (matchingDefsOf env callArgs argTs args.length definitions = some [] →
       tcFunctionCallF tcRec callId callee args ctx m env =
         .err (.SUnresolvedFun callId) m2) ∧
    (∀ d1 d2 rest,
       matchingDefsOf env callArgs argTs args.length definitions = some (d1 :: d2 :: rest) →
       tcFunctionCallF tcRec callId callee args ctx m env = .internal m2) ∧
    (∀ t mf, tcFunctionCallF tcRec callId callee args ctx m env = .ok t mf →
       ∃ d, matchingDefsOf env callArgs argTs args.length definitions = some [d] ∧
         TypeMap.find? mf callee.nodeId = some (.SFunctionSetType [d] defaultArg)) := by
  subst hca
  have hbase : ∀ (definitions2 : List FSDef) (defaultArg2 : Option SNode) (m1b : TypeMap),
      tcRec callee ctx m = .ok (.SFunctionSetType definitions2 defaultArg2) m1b →
      tcFunctionCallF tcRec callId callee args ctx m env =
      ((tcArgsF tcRec (match defaultArg2 with | some dflt => dflt :: args | none => args)
          ctx m1b).andThen fun argTs2 m3 =>
        match matchingDefsOf env
            (match defaultArg2 with | some dflt => dflt :: args | none => args)
            argTs2 args.length definitions2 with
        | none => TCRes.internal m3
        | some matching =>
          match matching with
          | [] => TCRes.err (.SUnresolvedFun callId) m3
          | [d] =>
            match d with
            | FSDef.fn f =>
              match astVarsToSTypes env f.returns with
              | none => TCRes.internal
                  (TypeMap.set m3 callee.nodeId (.SFunctionSetType [d] defaultArg2))
              | some retTs =>
                match retTs with
                | [t0] => TCRes.ok t0
                    (TypeMap.set m3 callee.nodeId (.SFunctionSetType [d] defaultArg2))
                | [] => TCRes.err (.SFunNoReturn callId)
                    (TypeMap.set m3 callee.nodeId (.SFunctionSetType [d] defaultArg2))
                | ts => TCRes.ok (.STupleType ts)
                    (TypeMap.set m3 callee.nodeId (.SFunctionSetType [d] defaultArg2))
            | FSDef.svar v =>
              match v.vType with
              | some (TypeName.userDefined _) => TCRes.internal
                  (TypeMap.set m3 callee.nodeId (.SFunctionSetType [d] defaultArg2))
              | _ =>
                match astVarToSType env v none with
                | none => TCRes.internal
                    (TypeMap.set m3 callee.nodeId (.SFunctionSetType [d] defaultArg2))
                | some t0 => TCRes.ok t0
                    (TypeMap.set m3 callee.nodeId (.SFunctionSetType [d] defaultArg2))
          | _ => TCRes.internal m3) := by
    intro definitions2 defaultArg2 m1b hc1b
    rw [tcFunctionCallF, hc1b]
    rfl
  have hbgen : ∀ (definitions2 : List FSDef) (defaultArg2 : Option SNode)
      (m1b : TypeMap) (argTs2 : List SType) (m3 : TypeMap),
      tcRec callee ctx m = .ok (.SFunctionSetType definitions2 defaultArg2) m1b →
      tcArgsF tcRec (match defaultArg2 with | some dflt => dflt :: args | none => args)
        ctx m1b = .ok argTs2 m3 →
      tcFunctionCallF tcRec callId callee args ctx m env =
      (match matchingDefsOf env
          (match defaultArg2 with | some dflt => dflt :: args | none => args)
          argTs2 args.length definitions2 with
       | none => TCRes.internal m3
       | some matching =>
         match matching with
         | [] => TCRes.err (.SUnresolvedFun callId) m3
         | [d] =>
           match d with
           | FSDef.fn f =>
             match astVarsToSTypes env f.returns with
             | none => TCRes.internal
                 (TypeMap.set m3 callee.nodeId (.SFunctionSetType [d] defaultArg2))
             | some retTs =>
               match retTs with
               | [t0] => TCRes.ok t0
                   (TypeMap.set m3 callee.nodeId (.SFunctionSetType [d] defaultArg2))
               | [] => TCRes.err (.SFunNoReturn callId)
                   (TypeMap.set m3 callee.nodeId (.SFunctionSetType [d] defaultArg2))
               | ts => TCRes.ok (.STupleType ts)
                   (TypeMap.set m3 callee.nodeId (.SFunctionSetType [d] defaultArg2))
           | FSDef.svar v =>
             match v.vType with
             | some (TypeName.userDefined _) => TCRes.internal
                 (TypeMap.set m3 callee.nodeId (.SFunctionSetType [d] defaultArg2))
             | _ =>
               match astVarToSType env v none with
               | none => TCRes.internal
                   (TypeMap.set m3 callee.nodeId (.SFunctionSetType [d] defaultArg2))
               | some t0 => TCRes.ok t0
                   (TypeMap.set m3 callee.nodeId (.SFunctionSetType [d] defaultArg2))
         | _ => TCRes.internal m3) := by
    intro definitions2 defaultArg2 m1b argTs2 m3 hc1b hc2b
    rw [hbase definitions2 defaultArg2 m1b hc1b, hc2b]
    rfl
  have hb := hbgen definitions defaultArg m1 argTs m2 hc1 hc2
  refine ⟨?_, ?_, ?_⟩
  · intro hmd
    rw [hb, hmd]
  · intro d1 d2 rest hmd
    rw [hb, hmd]
  · intro t mf h
    rw [hb] at h
    have hinv : ∀ (cargs : List SNode) (defaultArg2 : Option SNode)
        (definitions2 : List FSDef) (m3 mf2 : TypeMap) (argTs2 : List SType) (t2 : SType),
        (match matchingDefsOf env cargs argTs2 args.length definitions2 with
          | none => TCRes.internal m3
          | some matching =>
            match matching with
            | [] => TCRes.err (.SUnresolvedFun callId) m3
            | [d] =>
              match d with
              | FSDef.fn f =>
                match astVarsToSTypes env f.returns with
                | none => TCRes.internal
                    (TypeMap.set m3 callee.nodeId (.SFunctionSetType [d] defaultArg2))
                | some retTs =>
                  match retTs with
                  | [t0] => TCRes.ok t0
                      (TypeMap.set m3 callee.nodeId (.SFunctionSetType [d] defaultArg2))
                  | [] => TCRes.err (.SFunNoReturn callId)
                      (TypeMap.set m3 callee.nodeId (.SFunctionSetType [d] defaultArg2))
                  | ts => TCRes.ok (.STupleType ts)
                      (TypeMap.set m3 callee.nodeId (.SFunctionSetType [d] defaultArg2))
              | FSDef.svar v =>
                match v.vType with
                | some (TypeName.userDefined _) => TCRes.internal
                    (TypeMap.set m3 callee.nodeId (.SFunctionSetType [d] defaultArg2))
                | _ =>
                  match astVarToSType env v none with
                  | none => TCRes.internal
                      (TypeMap.set m3 callee.nodeId (.SFunctionSetType [d] defaultArg2))
                  | some t0 => TCRes.ok t0
                      (TypeMap.set m3 callee.nodeId (.SFunctionSetType [d] defaultArg2))
            | _ => TCRes.internal m3) = TCRes.ok t2 mf2 →
        ∃ d, matchingDefsOf env cargs argTs2 args.length definitions2 = some [d] ∧
          TypeMap.find? mf2 callee.nodeId = some (.SFunctionSetType [d] defaultArg2) := by
      intro cargs defaultArg2 definitions2 m3 mf2 argTs2 t2 h2
      cases hmd : matchingDefsOf env cargs argTs2 args.length definitions2 with
      | none =>
        rw [hmd] at h2
        cases h2
      | some matching =>
        rw [hmd] at h2
        cases matching with
        | nil =>
          have h3 : TCRes.err (.SUnresolvedFun callId) m3 = TCRes.ok t2 mf2 := h2
          cases h3
        | cons d tail =>
          cases tail with
          | cons d2 tail2 =>
            have h3 : TCRes.internal m3 = TCRes.ok t2 mf2 := h2
            cases h3
          | nil =>
            cases d with
            | fn f =>
              have h3 : (match astVarsToSTypes env f.returns with
                  | none => TCRes.internal (TypeMap.set m3 callee.nodeId
                      (.SFunctionSetType [FSDef.fn f] defaultArg2))
                  | some retTs =>
                    match retTs with
                    | [t0] => TCRes.ok t0 (TypeMap.set m3 callee.nodeId
                        (.SFunctionSetType [FSDef.fn f] defaultArg2))
                    | [] => TCRes.err (.SFunNoReturn callId) (TypeMap.set m3 callee.nodeId
                        (.SFunctionSetType [FSDef.fn f] defaultArg2))
                    | ts => TCRes.ok (.STupleType ts) (TypeMap.set m3 callee.nodeId
                        (.SFunctionSetType [FSDef.fn f] defaultArg2))) = TCRes.ok t2 mf2 := h2
              cases har : astVarsToSTypes env f.returns with
              | none =>
                rw [har] at h3
                cases h3
              | some retTs =>
                rw [har] at h3
                cases retTs with
                | nil => cases h3
                | cons t0 rest2 =>
                  cases rest2 with
                  | nil =>
                    have h4 : TCRes.ok t0 (TypeMap.set m3 callee.nodeId
                        (.SFunctionSetType [FSDef.fn f] defaultArg2)) = TCRes.ok t2 mf2 := h3
                    injection h4 with h5 h6
                    refine ⟨FSDef.fn f, rfl, ?_⟩
                    rw [← h6]
                    exact TypeMap.find?_set_self m3 callee.nodeId _
                  | cons t1 rest3 =>
                    have h4 : TCRes.ok (SType.STupleType (t0 :: t1 :: rest3))
                        (TypeMap.set m3 callee.nodeId
                          (.SFunctionSetType [FSDef.fn f] defaultArg2)) =
                        TCRes.ok t2 mf2 := h3
                    injection h4 with h5 h6
                    refine ⟨FSDef.fn f, rfl, ?_⟩
                    rw [← h6]
                    exact TypeMap.find?_set_self m3 callee.nodeId _
            | svar v =>
              have h3 : (match v.vType with
                  | some (TypeName.userDefined _) => TCRes.internal
                      (TypeMap.set m3 callee.nodeId
                        (.SFunctionSetType [FSDef.svar v] defaultArg2))
                  | _ =>
                    match astVarToSType env v none with
                    | none => TCRes.internal (TypeMap.set m3 callee.nodeId
                        (.SFunctionSetType [FSDef.svar v] defaultArg2))
                    | some t0 => TCRes.ok t0 (TypeMap.set m3 callee.nodeId
                        (.SFunctionSetType [FSDef.svar v] defaultArg2))) =
                  TCRes.ok t2 mf2 := h2
              have hfinish : (match astVarToSType env v none with
                  | none => TCRes.internal (TypeMap.set m3 callee.nodeId
                      (.SFunctionSetType [FSDef.svar v] defaultArg2))
                  | some t0 => TCRes.ok t0 (TypeMap.set m3 callee.nodeId
                      (.SFunctionSetType [FSDef.svar v] defaultArg2))) = TCRes.ok t2 mf2 →
                  ∃ d, some [FSDef.svar v] = some [d] ∧
                    TypeMap.find? mf2 callee.nodeId =
                      some (.SFunctionSetType [d] defaultArg2) := by
                intro h4
                cases ha : astVarToSType env v none with
                | none =>
                  rw [ha] at h4
                  cases h4
                | some t0 =>
                  rw [ha] at h4
                  injection h4 with h5 h6
                  refine ⟨FSDef.svar v, rfl, ?_⟩
                  rw [← h6]
                  exact TypeMap.find?_set_self m3 callee.nodeId _
              cases hv : v.vType with
              | none =>
                rw [hv] at h3
                exact hfinish h3
              | some tn =>
                cases tn with
                | userDefined dref =>
                  rw [hv] at h3
                  cases h3
                | ElementaryTypeName nm payable =>
                  rw [hv] at h3
                  exact hfinish h3
                | ArrayTypeName b sz =>
                  rw [hv] at h3
                  exact hfinish h3
                | FunctionTypeName ps rs vis mutab =>
                  rw [hv] at h3
                  exact hfinish h3
                | MappingType k v2 =>
                  rw [hv] at h3
                  exact hfinish h3
    cases defaultArg with
    | none =>
      have h2 : (match matchingDefsOf env args argTs args.length definitions with
          | none => TCRes.internal m2
          | some matching =>
            match matching with
            | [] => TCRes.err (.SUnresolvedFun callId) m2
            | [d] =>
              match d with
              | FSDef.fn f =>
                match astVarsToSTypes env f.returns with
                | none => TCRes.internal
                    (TypeMap.set m2 callee.nodeId (.SFunctionSetType [d] (none : Option SNode)))
                | some retTs =>
                  match retTs with
                  | [t0] => TCRes.ok t0
                      (TypeMap.set m2 callee.nodeId (.SFunctionSetType [d] (none : Option SNode)))
                  | [] => TCRes.err (.SFunNoReturn callId)
                      (TypeMap.set m2 callee.nodeId (.SFunctionSetType [d] (none : Option SNode)))
                  | ts => TCRes.ok (.STupleType ts)
                      (TypeMap.set m2 callee.nodeId (.SFunctionSetType [d] (none : Option SNode)))
              | FSDef.svar v =>
                match v.vType with
                | some (TypeName.userDefined _) => TCRes.internal
                    (TypeMap.set m2 callee.nodeId (.SFunctionSetType [d] (none : Option SNode)))
                | _ =>
                  match astVarToSType env v none with
                  | none => TCRes.internal
                      (TypeMap.set m2 callee.nodeId (.SFunctionSetType [d] (none : Option SNode)))
                  | some t0 => TCRes.ok t0
                      (TypeMap.set m2 callee.nodeId (.SFunctionSetType [d] (none : Option SNode)))
            | _ => TCRes.internal m2) = TCRes.ok t mf := h
      exact hinv args none definitions m2 mf argTs t h2
    | some dflt =>
      have h2 : (match matchingDefsOf env (dflt :: args) argTs args.length definitions with
          | none => TCRes.internal m2
          | some matching =>
            match matching with
            | [] => TCRes.err (.SUnresolvedFun callId) m2
            | [d] =>
              match d with
              | FSDef.fn f =>
                match astVarsToSTypes env f.returns with
                | none => TCRes.internal
                    (TypeMap.set m2 callee.nodeId (.SFunctionSetType [d] (some dflt)))
                | some retTs =>
                  match retTs with
                  | [t0] => TCRes.ok t0
                      (TypeMap.set m2 callee.nodeId (.SFunctionSetType [d] (some dflt)))
                  | [] => TCRes.err (.SFunNoReturn callId)
                      (TypeMap.set m2 callee.nodeId (.SFunctionSetType [d] (some dflt)))
                  | ts => TCRes.ok (.STupleType ts)
                      (TypeMap.set m2 callee.nodeId (.SFunctionSetType [d] (some dflt)))
              | FSDef.svar v =>
                match v.vType with
                | some (TypeName.userDefined _) => TCRes.internal
                    (TypeMap.set m2 callee.nodeId (.SFunctionSetType [d] (some dflt)))
                | _ =>
                  match astVarToSType env v none with
                  | none => TCRes.internal
                      (TypeMap.set m2 callee.nodeId (.SFunctionSetType [d] (some dflt)))
                  | some t0 => TCRes.ok t0
                      (TypeMap.set m2 callee.nodeId (.SFunctionSetType [d] (some dflt)))
            | _ => TCRes.internal m2) = TCRes.ok t mf := h
      exact hinv (dflt :: args) (some dflt) definitions m2 mf argTs t h2


/-- C6 witness: add applied to an int literal and a bool survives no
candidate and raises UnresolvedFun, while the using-for library call on
a uint32 narrows the cached callee FunctionSet to its single
survivor. -/
theorem c6_function_set_narrowing_witness :
    tcFunctionCallF (tcCb 9 testEnv) 43 (.SId 41 "add")
      [.SNumber 42 5, .SBooleanLiteral 44 true] ctxFoo [] testEnv =
      .err (.SUnresolvedFun 43)
        [(44, SType.SBoolType), (42, SType.SIntLiteralType),
         (41, SType.SFunctionSetType [FSDef.fn addFn] none)] ∧
    (∃ d, matchingDefsOf testEnv ((SNode.SId 31 "u32a") :: [SNode.SId 34 "u32b"])
        [SType.SIntType 32 false, SType.SIntType 32 false] 1 [FSDef.fn laddFn] =
        some [d] ∧
      TypeMap.find?
        [(32, SType.SFunctionSetType [FSDef.fn laddFn] (some (.SId 31 "u32a"))),
         (34, SType.SIntType 32 false),
         (32, SType.SFunctionSetType [FSDef.fn laddFn] (some (.SId 31 "u32a"))),
         (31, SType.SIntType 32 false)]
        (SNode.SMemberAccess 32 (.SId 31 "u32a") "ladd").nodeId =
        some (SType.SFunctionSetType [d] (some (.SId 31 "u32a")))) :=
  ⟨(c6_function_set_narrowing (tcCb 9 testEnv) testEnv 43 (.SId 41 "add")
      [.SNumber 42 5, .SBooleanLiteral 44 true]
      [.SNumber 42 5, .SBooleanLiteral 44 true] ctxFoo []
      [(41, SType.SFunctionSetType [FSDef.fn addFn] none)]
      [(44, SType.SBoolType), (42, SType.SIntLiteralType),
       (41, SType.SFunctionSetType [FSDef.fn addFn] none)]
      [FSDef.fn addFn] none [SType.SIntLiteralType, SType.SBoolType]
      rfl rfl rfl).1 rfl,
   (c6_function_set_narrowing (tcCb 9 testEnv) testEnv 33
      (.SMemberAccess 32 (.SId 31 "u32a") "ladd") [.SId 34 "u32b"]
      ((SNode.SId 31 "u32a") :: [SNode.SId 34 "u32b"]) ctxFoo []
      [(32, SType.SFunctionSetType [FSDef.fn laddFn] (some (.SId 31 "u32a"))),
       (31, SType.SIntType 32 false)]
      [(34, SType.SIntType 32 false),
       (32, SType.SFunctionSetType [FSDef.fn laddFn] (some (.SId 31 "u32a"))),
       (31, SType.SIntType 32 false)]
      [FSDef.fn laddFn] (some (.SId 31 "u32a"))
      [SType.SIntType 32 false, SType.SIntType 32 false]
      rfl rfl rfl).2.2 (SType.SIntType 32 false)
      [(32, SType.SFunctionSetType [FSDef.fn laddFn] (some (.SId 31 "u32a"))),
       (34, SType.SIntType 32 false),
       (32, SType.SFunctionSetType [FSDef.fn laddFn] (some (.SId 31 "u32a"))),
       (31, SType.SIntType 32 false)] rfl⟩


/-- The continuation applied to the right-hand side type of a let
binding during identifier resolution never produces an SUnknownId
diagnostic: its only error is SExprCountMismatch. -/
theorem letCont_no_unknown (l : SLetScope) (bindingIdx : Nat) (exprId : Nat) (nm : String)
    (rhsT : SType) (m1 m2 : TypeMap) :
    (if l.lhs.length > 1 then
       match rhsT with
       | SType.STupleType elements =>
         if (elements.length == l.lhs.length) = true then
           match elements.get? bindingIdx with
           | some t => TCRes.ok (t, some (VarDefSite.letBinding l bindingIdx)) m1
           | none => TCRes.internal m1
         else TCRes.err (TCErr.SExprCountMismatch l.letId) m1
       | _ => TCRes.err (TCErr.SExprCountMismatch l.letId) m1
     else TCRes.ok (rhsT, some (VarDefSite.letBinding l bindingIdx)) m1) ≠
    TCRes.err (TCErr.SUnknownId exprId nm) m2 := by
  intro h
  by_cases hlen : l.lhs.length > 1
  · rw [if_pos hlen] at h
    cases rhsT with
    | STupleType elements =>
      have h2 : (if (elements.length == l.lhs.length) = true then
           match elements.get? bindingIdx with
           | some t => TCRes.ok (t, some (VarDefSite.letBinding l bindingIdx)) m1
           | none => TCRes.internal m1
         else TCRes.err (TCErr.SExprCountMismatch l.letId) m1) =
          TCRes.err (TCErr.SUnknownId exprId nm) m2 := h
      by_cases hcnt : (elements.length == l.lhs.length) = true
      · rw [if_pos hcnt] at h2
        cases hget : elements.get? bindingIdx with
        | some t => rw [hget] at h2; simp at h2
        | none => rw [hget] at h2; simp at h2
      · rw [if_neg hcnt] at h2; simp at h2
    | SBoolType => simp at h
    | SIntType a b => simp at h
    | SIntLiteralType => simp at h
    | SStringLiteralType => simp at h
    | SFixedBytes a => simp at h
    | SBytes => simp at h
    | SString => simp at h
    | SAddressType p => simp at h
    | SArrayType a b => simp at h
    | SUserDefinedType a b => simp at h
    | SMappingType a b => simp at h
    | SPointer a b => simp at h
    | SFunctionType a b c d => simp at h
    | SBuiltinStructType a b => simp at h
    | SBuiltinTypeNameType a => simp at h
    | SUserDefinedTypeNameType a => simp at h
    | SFunctionSetType a b => simp at h
  · rw [if_neg hlen] at h
    simp at h

/-- C5: identifier resolution, embodied in tcIdF, tries the keyword
this, builtin type names, variables via lookupVarDef, contract functions
by name, user-defined type names and builtin symbols in that order: the
this keyword always wins; a variable in scope wins over any contract
function of the same name and stamps the varDecl def-site; when all six
steps fail the result is exactly the SUnknownId diagnostic for the
identifier; and conversely an SUnknownId diagnostic naming the
identifier arises only when every step has failed, leaving the cache
untouched. -/
theorem c5_resolution_order (tcRec : TcCb) (env : Env) (exprId : Nat) (name : String)
    (ctx : STypingCtx) (m : TypeMap)
    (hrec : ∀ l bindingIdx,
      lookupVarDef env name ctx = some (VarDefSite.letBinding l bindingIdx) →
      ∀ nm2 m3, tcRec l.rhs ctx m ≠ TCRes.err (TCErr.SUnknownId exprId nm2) m3) :
    (∀ c2, (name == "this") = true → ctx.get? 1 = some (SScope.contract c2) →
      tcIdF tcRec exprId name ctx m env =
        TCRes.ok (SType.SPointer
            (SType.SUserDefinedType (fqName none c2.name) (some (DefRef.contract c2.id)))
            (some DataLocation.Storage), some VarDefSite.thisKeyword) m) ∧
    (∀ v tn t, (name == "this") = false → tcIdBuiltinType name = none →
      lookupVarDef env name ctx = some (VarDefSite.varDecl v) →
      v.vType = some tn → astVarToSType env v none = some t →
      tcIdF tcRec exprId name ctx m env = TCRes.ok (t, some (VarDefSite.varDecl v)) m) ∧
    (∀ c2, (name == "this") = false → tcIdBuiltinType name = none →
      lookupVarDef env name ctx = none → ctx.get? 1 = some (SScope.contract c2) →
      resolveByName env c2 name = [] → resolveTypeDef env ctx name = none →
      tcIdBuiltin name = none →
      tcIdF tcRec exprId name ctx m env = TCRes.err (TCErr.SUnknownId exprId name) m) ∧
    (∀ nm m2, tcIdF tcRec exprId name ctx m env = TCRes.err (TCErr.SUnknownId exprId nm) m2 →
      nm = name ∧ m2 = m ∧ (name == "this") = false ∧ tcIdBuiltinType name = none ∧
      lookupVarDef env name ctx = none ∧
      ∃ c2, ctx.get? 1 = some (SScope.contract c2) ∧
        resolveByName env c2 name = [] ∧ resolveTypeDef env ctx name = none ∧
        tcIdBuiltin name = none) := by
  refine ⟨?_, ?_, ?_, ?_⟩
  · intro c2 hthis hg
    rw [tcIdF, if_pos hthis, hg]
  · intro v tn t hthis hbt hl hvt hast
    rw [tcIdF, if_neg (by simp [hthis]), hbt, hl]
    show (match v.vType with
          | none => TCRes.err (TCErr.SMissingSolidityType exprId) m
          | some _ =>
            match astVarToSType env v none with
            | none => TCRes.internal m
            | some t2 => TCRes.ok (t2, some (VarDefSite.varDecl v)) m) =
      TCRes.ok (t, some (VarDefSite.varDecl v)) m
    rw [hvt, hast]
  · intro c2 hthis hbt hl hg hfns hrt hbs
    rw [tcIdF, if_neg (by simp [hthis]), hbt, hl, hg]
    show (if (resolveByName env c2 name).length > 0 then
           TCRes.ok (SType.SFunctionSetType ((resolveByName env c2 name).map FSDef.fn) none,
                some VarDefSite.functionName) m
         else
           match resolveTypeDef env ctx name with
           | some userDef =>
             TCRes.ok (SType.SUserDefinedTypeNameType userDef, some VarDefSite.typeNameSite) m
           | none =>
             match tcIdBuiltin name with
             | some t => TCRes.ok (t, none) m
             | none => TCRes.err (TCErr.SUnknownId exprId name) m) =
      TCRes.err (TCErr.SUnknownId exprId name) m
    rw [hfns, if_neg (by decide), hrt, hbs]
  · intro nm m2 h
    by_cases hthis : (name == "this") = true
    · rw [tcIdF, if_pos hthis] at h
      cases hg : ctx.get? 1 with
      | none => rw [hg] at h; simp at h
      | some s => rw [hg] at h; cases s <;> simp at h
    · have hthisF : (name == "this") = false := by simpa using hthis
      rw [tcIdF, if_neg hthis] at h
      cases hbt : tcIdBuiltinType name with
      | some t => rw [hbt] at h; simp at h
      | none =>
        rw [hbt] at h
        have h2 : (match lookupVarDef env name ctx with
           | some (VarDefSite.varDecl v) =>
             match v.vType with
             | none => TCRes.err (TCErr.SMissingSolidityType exprId) m
             | some _ =>
               match astVarToSType env v none with
               | none => TCRes.internal m
               | some t => TCRes.ok (t, some (VarDefSite.varDecl v)) m
           | some (VarDefSite.letBinding l bindingIdx) =>
             (tcRec l.rhs ctx m).andThen fun rhsT m1 =>
               if l.lhs.length > 1 then
                 match rhsT with
                 | SType.STupleType elements =>
                   if (elements.length == l.lhs.length) = true then
                     match elements.get? bindingIdx with
                     | some t => TCRes.ok (t, some (VarDefSite.letBinding l bindingIdx)) m1
                     | none => TCRes.internal m1
                   else TCRes.err (TCErr.SExprCountMismatch l.letId) m1
                 | _ => TCRes.err (TCErr.SExprCountMismatch l.letId) m1
               else TCRes.ok (rhsT, some (VarDefSite.letBinding l bindingIdx)) m1
           | some _ => TCRes.internal m
           | none =>
             match ctx.get? 1 with
             | some (SScope.contract c) =>
               if (resolveByName env c name).length > 0 then
                 TCRes.ok (SType.SFunctionSetType ((resolveByName env c name).map FSDef.fn) none,
                      some VarDefSite.functionName) m
               else
                 match resolveTypeDef env ctx name with
                 | some userDef =>
                   TCRes.ok (SType.SUserDefinedTypeNameType userDef,
                     some VarDefSite.typeNameSite) m
                 | none =>
                   match tcIdBuiltin name with
                   | some t => TCRes.ok (t, none) m
                   | none => TCRes.err (TCErr.SUnknownId exprId name) m
             | _ => TCRes.internal m) = TCRes.err (TCErr.SUnknownId exprId nm) m2 := h
        cases hl : lookupVarDef env name ctx with
        | some site =>
          rw [hl] at h2
          cases site with
          | varDecl v =>
            have h3 : (match v.vType with
                 | none => TCRes.err (TCErr.SMissingSolidityType exprId) m
                 | some _ =>
                   match astVarToSType env v none with
                   | none => TCRes.internal m
                   | some t => TCRes.ok (t, some (VarDefSite.varDecl v)) m) =
                TCRes.err (TCErr.SUnknownId exprId nm) m2 := h2
            cases hvt : v.vType with
            | none => rw [hvt] at h3; simp at h3
            | some tn =>
              rw [hvt] at h3
              have h4 : (match astVarToSType env v none with
                   | none => TCRes.internal m
                   | some t => TCRes.ok (t, some (VarDefSite.varDecl v)) m) =
                  TCRes.err (TCErr.SUnknownId exprId nm) m2 := h3
              cases ha : astVarToSType env v none with
              | none => rw [ha] at h4; simp at h4
              | some t => rw [ha] at h4; simp at h4
          | letBinding l bindingIdx =>
            have h3 : ((tcRec l.rhs ctx m).andThen fun rhsT m1 =>
                if l.lhs.length > 1 then
                  match rhsT with
                  | SType.STupleType elements =>
                    if (elements.length == l.lhs.length) = true then
                      match elements.get? bindingIdx with
                      | some t => TCRes.ok (t, some (VarDefSite.letBinding l bindingIdx)) m1
                      | none => TCRes.internal m1
                    else TCRes.err (TCErr.SExprCountMismatch l.letId) m1
                  | _ => TCRes.err (TCErr.SExprCountMismatch l.letId) m1
                else TCRes.ok (rhsT, some (VarDefSite.letBinding l bindingIdx)) m1) =
                TCRes.err (TCErr.SUnknownId exprId nm) m2 := h2
            cases hr : tcRec l.rhs ctx m with
            | ok rhsT m1 =>
              rw [hr] at h3
              exact absurd h3 (letCont_no_unknown l bindingIdx exprId nm rhsT m1 m2)
            | err d m3 =>
              rw [hr] at h3
              have h4 : TCRes.err d m3 = TCRes.err (TCErr.SUnknownId exprId nm) m2 := h3
              injection h4 with hd hm3
              rw [hd, hm3] at hr
              exact absurd hr (hrec l bindingIdx hl nm m2)
            | internal m3 =>
              rw [hr] at h3
              have h4 : TCRes.internal m3 = TCRes.err (TCErr.SUnknownId exprId nm) m2 := h3
              simp at h4
            | outOfFuel =>
              rw [hr] at h3
              have h4 : (TCRes.outOfFuel : TCRes (SType × Option VarDefSite)) =
                  TCRes.err (TCErr.SUnknownId exprId nm) m2 := h3
              simp at h4
          | thisKeyword => simp at h2
          | functionName => simp at h2
          | typeNameSite => simp at h2
        | none =>
          rw [hl] at h2
          have h3 : (match ctx.get? 1 with
               | some (SScope.contract c) =>
                 if (resolveByName env c name).length > 0 then
                   TCRes.ok (SType.SFunctionSetType
                        ((resolveByName env c name).map FSDef.fn) none,
                        some VarDefSite.functionName) m
                 else
                   match resolveTypeDef env ctx name with
                   | some userDef =>
                     TCRes.ok (SType.SUserDefinedTypeNameType userDef,
                       some VarDefSite.typeNameSite) m
                   | none =>
                     match tcIdBuiltin name with
                     | some t => TCRes.ok (t, none) m
                     | none => TCRes.err (TCErr.SUnknownId exprId name) m
               | _ => TCRes.internal m) = TCRes.err (TCErr.SUnknownId exprId nm) m2 := h2
          cases hg : ctx.get? 1 with
          | none => rw [hg] at h3; simp at h3
          | some s =>
            rw [hg] at h3
            cases s with
            | sourceUnits us => simp at h3
            | function fd => simp at h3
            | slet l => simp at h3
            | contract c =>
              have h4 : (if (resolveByName env c name).length > 0 then
                   TCRes.ok (SType.SFunctionSetType
                        ((resolveByName env c name).map FSDef.fn) none,
                        some VarDefSite.functionName) m
                 else
                   match resolveTypeDef env ctx name with
                   | some userDef =>
                     TCRes.ok (SType.SUserDefinedTypeNameType userDef,
                       some VarDefSite.typeNameSite) m
                   | none =>
                     match tcIdBuiltin name with
                     | some t => TCRes.ok (t, none) m
                     | none => TCRes.err (TCErr.SUnknownId exprId name) m) =
                  TCRes.err (TCErr.SUnknownId exprId nm) m2 := h3
              by_cases hfn : (resolveByName env c name).length > 0
              · rw [if_pos hfn] at h4; simp at h4
              · rw [if_neg hfn] at h4
                cases hrt : resolveTypeDef env ctx name with
                | some ud => rw [hrt] at h4; simp at h4
                | none =>
                  rw [hrt] at h4
                  cases hbs : tcIdBuiltin name with
                  | some t => rw [hbs] at h4; simp at h4
                  | none =>
                    rw [hbs] at h4
                    have h5 : TCRes.err (TCErr.SUnknownId exprId name) m =
                        TCRes.err (TCErr.SUnknownId exprId nm) m2 := h4
                    injection h5 with he hm2
                    injection he with hid hnm
                    exact ⟨hnm.symm, hm2.symm, hthisF, rfl, rfl, c, rfl,
                      List.eq_nil_of_length_eq_zero (Nat.eq_zero_of_not_pos hfn), rfl, rfl⟩

/-- C5 witness: in the test contract the state variable sV1 resolves as
a variable with its varDecl def-site stamped, and the unknown name zzz
fails every resolution step and is reported as SUnknownId. -/
theorem c5_resolution_order_witness :
    tcIdF (tcCb 9 testEnv) 200 "sV1" ctxFoo [] testEnv =
      TCRes.ok (SType.SIntType 128 true, some (VarDefSite.varDecl (mkSVar "sV1" int128TN))) [] ∧
    tcIdF (tcCb 9 testEnv) 200 "zzz" ctxFoo [] testEnv =
      TCRes.err (TCErr.SUnknownId 200 "zzz") [] :=
  ⟨(c5_resolution_order (tcCb 9 testEnv) testEnv 200 "sV1" ctxFoo []
      (fun l bi h => nomatch h)).2.1 (mkSVar "sV1" int128TN) int128TN
      (SType.SIntType 128 true) rfl rfl rfl rfl rfl,
   (c5_resolution_order (tcCb 9 testEnv) testEnv 200 "zzz" ctxFoo []
      (fun l bi h => nomatch h)).2.2.1 fooC rfl rfl rfl rfl rfl rfl rfl⟩

end Scribble
